import Mathlib

/-!
# VIC-20 sound dispatch (src/engine/platform/vic20.cpp)

A shallow embedding of `DivPlatformVIC20`: the per-channel state, the register
pool, the sample-granular waveform injector (`acquire`), the per-tick scheduler
(`tick`), the command dispatcher (`dispatch`), `muteChannel` and `reset`.

Conventions of the embedding.

* A C++ `int` is a Lean `Int` holding a 32-bit value.  The sums and the
  product the source takes of values it does not bound (`vol*env`,
  `baseFreq+=step`, `baseFreq-=step`, `note+arp`, the legato `value+arp`) wrap
  to 32 bits two's complement, `wrap32`; `waveWriteCycle-=4` runs only on a
  non-negative counter and `255-freq` is masked by `rWrite`, so neither needs
  it.  Every place where the source narrows a value explicitly (`(v)&0xff` in
  `rWrite`, `&0x0f` on the waveform selector, the conversion to `unsigned` of
  the bit position) is an explicit `%`.  `x & 0xff` on a two's complement `int`
  is `x % 256` with the Euclidean remainder of `Int`, and `x & 0x0f` is
  `x % 16`.
* `/` of the source truncates toward zero: `Int.tdiv`.  `>>` on an `int` is the
  arithmetic shift `Int.shiftRight`.
* `rWrite(a,v)` stores `v & 0xff` in `regPool[a]` and hands the same byte to
  the chip core (`vic_sound_machine_store`).  The sequence of bytes handed to
  the chip core is kept in `writes`, oldest first.
* The macro sequencer (`DivMacroInt`), the frequency mapping (`calcFreq`,
  `NOTE_PERIODIC`) and the song flags live outside this file of the source; they
  are the fields of `Engine`.  The general theorems quantify over every engine;
  the concrete engine `toneEngine` only serves closed examples.
* The audio samples computed by the chip core are not part of the state.
-/

namespace VIC20

/-- The macro sequencer of one channel, as far as the platform reads it: the
three macro values, their flags, and the sequencer private state (positions,
instrument), which the platform never inspects. -/
structure DivMacroInt where
  vol : Int
  arp : Int
  wave : Int
  hadVol : Bool
  hadArp : Bool
  hadWave : Bool
  willArp : Bool
  arpMode : Bool
  finishedArp : Bool
  priv : Nat

/-- The fields of `DivPlatformVIC20::Channel` used by vic20.cpp. -/
structure Channel where
  freq : Int
  baseFreq : Int
  pitch : Int
  note : Int
  ins : Int
  active : Bool
  insChanged : Bool
  freqChanged : Bool
  keyOn : Bool
  keyOff : Bool
  inPorta : Bool
  vol : Int
  outVol : Int
  wave : Int
  waveWriteCycle : Int
  std : DivMacroInt

/-- The members of `DivPlatformVIC20` used by vic20.cpp: `chan[4]`,
`isMuted[4]`, `hasWaveWrite`, `regPool[16]`, and the bytes stored into the chip
core so far (oldest first). -/
structure State where
  chan : Fin 4 → Channel
  isMuted : Fin 4 → Bool
  hasWaveWrite : Bool
  regPool : Nat → Int
  writes : List (Nat × Int)

/-- What vic20.cpp consumes from the rest of the engine.
`calcFreq b p` is `parent->calcFreq(b,p,true)`, `notePeriodic n` is
`NOTE_PERIODIC(n)`, `macroNext`, `macroInit` and `macroRelease` are
`std.next()`, `std.init(...)` and `std.release()` (`macroInit none` is
`std.init(NULL)`, `macroInit (some id)` is `std.init(parent->getIns(id))`),
`resetMacroOnPorta` is `parent->song.resetMacroOnPorta` and `noteNull` is
`DIV_NOTE_NULL`. -/
structure Engine where
  calcFreq : Int → Int → Int
  notePeriodic : Int → Int
  macroNext : DivMacroInt → DivMacroInt
  macroInit : Option Int → DivMacroInt → DivMacroInt
  macroRelease : DivMacroInt → DivMacroInt
  resetMacroOnPorta : Bool
  noteNull : Int

/-- The commands `dispatch` switches on; `other` is every command that reaches
the `default` label. -/
inductive DivCmd where
  | noteOn | noteOff | noteOffEnv | envRelease | instrument | volume
  | getVolume | pitch | wave | notePorta | legato | prePorta | getVolMax
  | alwaysSetVolume | other
  deriving DecidableEq

/-- A `DivCommand`: the command, the channel it addresses and two values. -/
structure DivCommand where
  cmd : DivCmd
  chan : Fin 4
  value : Int
  value2 : Int

/-- The constant `SAMP_DIVIDER`. -/
def SAMP_DIVIDER : Int := 4

/-- The macro `MIN(a,b)`. -/
def MIN (a b : Int) : Int := if a < b then a else b

/-- The value a 32-bit `int` holds after an arithmetic operation whose exact
result is `x`: two's complement wrap-around. -/
def wrap32 (x : Int) : Int := (x + 2147483648) % 4294967296 - 2147483648

/-- The integer `x` is representable as a 32-bit `int`. -/
def FitsInt (x : Int) : Prop := -2147483648 ≤ x ∧ x ≤ 2147483647

/-- The table `loadFreq[3] = {0x7e, 0x7d, 0x7b}`. -/
def loadFreq : List Nat := [0x7e, 0x7d, 0x7b]

/-- The table `wavePatterns[16]`. -/
def wavePatterns : List Nat :=
  [0b0, 0b10, 0b100, 0b110, 0b1000, 0b1010, 0b1011, 0b1110,
   0b10010, 0b10100, 0b10110, 0b11000, 0b11010, 0b100100, 0b101010, 0b101100]

/-- Assignment `chan[i] = c`. -/
def setChan (i : Fin 4) (c : Channel) (s : State) : State :=
  { s with chan := fun j => if j = i then c else s.chan j }

/-- The macro `rWrite(a,v)`: `regPool[a] = v & 0xff`, and the same byte goes to
the chip core. -/
def rWrite (a : Nat) (v : Int) (s : State) : State :=
  { s with
    regPool := fun x => if x = a then v % 256 else s.regPool x
    writes := s.writes ++ [(a, v % 256)] }

/-- The byte the injector computes in its load phase:
`loadFreq[i] | ((wavePatterns[wave] << bit) & 0x80)` with
`unsigned bit = 8 - (waveWriteCycle / 16)`.  An index outside a table, which
the source would read out of bounds, reads 0 here. -/
def loadValue (i : Nat) (wave cycle : Int) : Int :=
  let bit : Nat := ((8 - Int.tdiv cycle 16) % 4294967296).toNat
  ((loadFreq.getD i 0 ||| ((wavePatterns.getD wave.toNat 0 <<< bit) &&& 0x80) : Nat) : Int)

/-- The body of the loop over `i` in `acquire` (lines 61 to 73). -/
def acquireVoice (i : Fin 4) (s : State) : State :=
  let c := s.chan i
  if 0 ≤ c.waveWriteCycle then
    let s1 :=
      if 16 * 7 ≤ c.waveWriteCycle then rWrite (10 + i.val) 126 s
      else if 16 ≤ c.waveWriteCycle then
        rWrite (10 + i.val) (loadValue i.val c.wave c.waveWriteCycle) s
      else rWrite (10 + i.val) (255 - c.freq) s
    { setChan i { c with waveWriteCycle := c.waveWriteCycle - SAMP_DIVIDER } s1 with
      hasWaveWrite := true }
  else s

/-- One iteration of the sample loop of `acquire` (lines 58 to 75). -/
def acquireSample (s : State) : State :=
  if s.hasWaveWrite then
    acquireVoice 2 (acquireVoice 1 (acquireVoice 0 { s with hasWaveWrite := false }))
  else s

/-- The function `acquire` run over `len` samples. -/
def acquire : Nat → State → State
  | 0, s => s
  | len + 1, s => acquire len (acquireSample s)

/-- The function `writeOutVol`. -/
def writeOutVol (ch : Fin 4) (s : State) : State :=
  if !s.isMuted ch then rWrite 14 (s.chan ch).outVol s else s

/-- The function `calcAndWriteOutVol`. -/
def calcAndWriteOutVol (ch : Fin 4) (env : Int) (s : State) : State :=
  let c := s.chan ch
  writeOutVol ch
    (setChan ch { c with outVol := MIN (Int.tdiv (wrap32 (c.vol * env)) 15) 15 } s)

/-- Lines 101 to 115 of `tick`: the arpeggio macro. -/
def tickArp (e : Engine) (c : Channel) : Channel :=
  if c.std.hadArp then
    let c1 :=
      if !c.inPorta then
        if c.std.arpMode then { c with baseFreq := e.notePeriodic c.std.arp }
        else { c with baseFreq := e.notePeriodic (wrap32 (c.note + c.std.arp)) }
      else c
    { c1 with freqChanged := true }
  else if c.std.arpMode && c.std.finishedArp then
    { c with baseFreq := e.notePeriodic c.note, freqChanged := true }
  else c

/-- Lines 116 to 121 of `tick`: the waveform macro. -/
def tickWave (c : Channel) : Channel :=
  if c.std.hadWave then
    if c.wave ≠ c.std.wave then { c with wave := c.std.wave % 16, keyOn := true }
    else c
  else c

/-- Lines 96 to 121 of `tick` for channel `i`: the macro sequencer advances and
its volume, arpeggio and waveform outputs are applied. -/
def tickMacro (e : Engine) (i : Fin 4) (s : State) : State :=
  let s1 := setChan i { s.chan i with std := e.macroNext (s.chan i).std } s
  let s2 := if (s1.chan i).std.hadVol then calcAndWriteOutVol i (s1.chan i).std.vol s1 else s1
  setChan i (tickWave (tickArp e (s2.chan i))) s2

/-- Lines 123 to 127 of `tick`: the value stored in `freq`. -/
def tickFreq (e : Engine) (i : Fin 4) (c : Channel) : Int :=
  let f0 := e.calcFreq c.baseFreq c.pitch
  let f1 := if i.val < 3 then f0 >>> (2 - i.val) else f0 >>> (1 : Nat)
  let f2 := if f1 < 1 then 1 else f1
  if f2 > 127 then 0 else f2

/-- Lines 123 to 127 of `tick`: `freq` is recomputed. -/
def tickCalcFreq (e : Engine) (i : Fin 4) (s : State) : State :=
  setChan i { s.chan i with freq := tickFreq e i (s.chan i) } s

/-- Line 128 of `tick`: a muted channel loses its `keyOn`. -/
def tickMuteOverride (i : Fin 4) (s : State) : State :=
  if s.isMuted i then setChan i { s.chan i with keyOn := false } s else s

/-- Lines 129 to 142 of `tick`: key-on arms the injector (tone voices) or writes
the frequency register (fourth voice); otherwise a changed frequency of an
active, unmuted channel is written. -/
def tickKeyOn (i : Fin 4) (s : State) : State :=
  if (s.chan i).keyOn then
    let s1 :=
      if i.val < 3 then
        { setChan i { s.chan i with waveWriteCycle := 137 * 16 - 1 } s with hasWaveWrite := true }
      else rWrite (10 + i.val) (255 - (s.chan i).freq) s
    setChan i { s1.chan i with keyOn := false } s1
  else if (s.chan i).freqChanged && (s.chan i).active && !s.isMuted i then
    rWrite (10 + i.val) (255 - (s.chan i).freq) s
  else s

/-- Lines 143 to 146 of `tick`: key-off writes zero. -/
def tickKeyOff (i : Fin 4) (s : State) : State :=
  if (s.chan i).keyOff then
    let s1 := rWrite (10 + i.val) 0 s
    setChan i { s1.chan i with keyOff := false } s1
  else s

/-- Line 147 of `tick`. -/
def tickClearFreqChanged (i : Fin 4) (s : State) : State :=
  setChan i { s.chan i with freqChanged := false } s

/-- Lines 122 to 148 of `tick` for channel `i`: the pending flags are
serviced. -/
def tickService (e : Engine) (i : Fin 4) (s : State) : State :=
  if (s.chan i).freqChanged || (s.chan i).keyOn || (s.chan i).keyOff then
    tickClearFreqChanged i
      (tickKeyOff i (tickKeyOn i (tickMuteOverride i (tickCalcFreq e i s))))
  else s

/-- The body of the loop over `i` in `tick`. -/
def tickChan (e : Engine) (i : Fin 4) (s : State) : State :=
  tickService e i (tickMacro e i s)

/-- The function `tick`: the four channels in the order 0, 1, 2, 3. -/
def tick (e : Engine) (s : State) : State :=
  tickChan e 3 (tickChan e 2 (tickChan e 1 (tickChan e 0 s)))

/-- The case `DIV_CMD_NOTE_PORTA` of `dispatch`. -/
def notePorta (e : Engine) (c : DivCommand) (s : State) : State × Int :=
  let ch := s.chan c.chan
  let destFreq := e.notePeriodic c.value2
  let r : Channel × Bool :=
    if destFreq > ch.baseFreq then
      let ch1 := { ch with baseFreq := wrap32 (ch.baseFreq + c.value) }
      if ch1.baseFreq ≥ destFreq then ({ ch1 with baseFreq := destFreq }, true)
      else (ch1, false)
    else
      let ch1 := { ch with baseFreq := wrap32 (ch.baseFreq - c.value) }
      if ch1.baseFreq ≤ destFreq then ({ ch1 with baseFreq := destFreq }, true)
      else (ch1, false)
  let ch2 := { r.1 with freqChanged := true }
  if r.2 then (setChan c.chan { ch2 with inPorta := false } s, 2)
  else (setChan c.chan ch2 s, 1)

/-- The function `dispatch`: the new state and the returned code. -/
def dispatch (e : Engine) (c : DivCommand) (s : State) : State × Int :=
  let ch := s.chan c.chan
  match c.cmd with
  | DivCmd.noteOn =>
    let ch1 :=
      if c.value ≠ e.noteNull then
        { ch with baseFreq := e.notePeriodic c.value, freqChanged := true, note := c.value }
      else ch
    (setChan c.chan
      { ch1 with active := true, keyOn := true, std := e.macroInit (some ch.ins) ch1.std } s, 1)
  | DivCmd.noteOff =>
    (setChan c.chan { ch with active := false, keyOff := true, std := e.macroInit none ch.std } s, 1)
  | DivCmd.noteOffEnv => (setChan c.chan { ch with std := e.macroRelease ch.std } s, 1)
  | DivCmd.envRelease => (setChan c.chan { ch with std := e.macroRelease ch.std } s, 1)
  | DivCmd.instrument =>
    if ch.ins ≠ c.value ∨ c.value2 = 1 then (setChan c.chan { ch with ins := c.value } s, 1)
    else (s, 1)
  | DivCmd.volume =>
    if ch.vol ≠ c.value then
      let s1 := setChan c.chan { ch with vol := c.value } s
      if !ch.std.hadVol then (calcAndWriteOutVol c.chan 15 s1, 1) else (s1, 1)
    else (s, 1)
  | DivCmd.getVolume => (s, ch.vol)
  | DivCmd.pitch => (setChan c.chan { ch with pitch := c.value, freqChanged := true } s, 1)
  | DivCmd.wave => (setChan c.chan { ch with wave := c.value % 16, keyOn := true } s, 1)
  | DivCmd.notePorta => notePorta e c s
  | DivCmd.legato =>
    let off := if ch.std.willArp && !ch.std.arpMode then ch.std.arp else 0
    (setChan c.chan
      { ch with
        baseFreq := e.notePeriodic (wrap32 (c.value + off)), freqChanged := true, note := c.value }
      s, 1)
  | DivCmd.prePorta =>
    let ch1 :=
      if ch.active && decide (c.value2 ≠ 0) then
        if e.resetMacroOnPorta then { ch with std := e.macroInit (some ch.ins) ch.std } else ch
      else ch
    (setChan c.chan { ch1 with inPorta := decide (c.value ≠ 0) } s, 1)
  | DivCmd.getVolMax => (s, 15)
  | DivCmd.alwaysSetVolume => (s, 1)
  | DivCmd.other => (s, 1)

/-- The function `muteChannel`. -/
def muteChannel (ch : Fin 4) (mute : Bool) (s : State) : State :=
  let s1 := { s with isMuted := fun j => if j = ch then mute else s.isMuted j }
  if mute then setChan ch { s1.chan ch with keyOff := true } s1
  else if (s1.chan ch).active then setChan ch { s1.chan ch with keyOn := true } s1
  else s1

/-- The byte stream handed to the chip core for register `a`, oldest first. -/
def writesAt (a : Nat) (s : State) : List (Nat × Int) :=
  s.writes.filter (fun w => decide (w.1 = a))

/-- The value `acquire` passes to `rWrite` for a voice whose counter is
`cycle` (lines 62 to 70). -/
def injectValue (i : Nat) (wave freq cycle : Int) : Int :=
  if 16 * 7 ≤ cycle then 126
  else if 16 ≤ cycle then loadValue i wave cycle
  else 255 - freq

/-- A channel at rest, used to build concrete states. -/
def restChannel : Channel :=
  { freq := 0, baseFreq := 0, pitch := 0, note := 0, ins := 0, active := false,
    insChanged := true, freqChanged := false, keyOn := false, keyOff := false,
    inPorta := false, vol := 15, outVol := 15, wave := 0, waveWriteCycle := -1,
    std := { vol := 0, arp := 0, wave := 0, hadVol := false, hadArp := false,
             hadWave := false, willArp := false, arpMode := false,
             finishedArp := false, priv := 0 } }

/-- A concrete state: four channels at rest, nothing muted, volume register
at 15. -/
def restState : State :=
  { chan := fun _ => restChannel, isMuted := fun _ => false, hasWaveWrite := false,
    regPool := fun x => if x = 14 then 15 else 0, writes := [] }

/-- A state with voice 0 armed: counter `137*16-1`, waveform 5, `freq` 40. -/
def armedState : State :=
  { restState with
    chan := fun j =>
      if j = 0 then { restChannel with waveWriteCycle := 137 * 16 - 1, wave := 5, freq := 40 }
      else restChannel
    hasWaveWrite := true }

/-- What a step that works on channel `i` leaves alone: the other channels,
every register other than `10+i` and 14 together with its byte stream, the mute
flags, and `hasWaveWrite` once it is set. -/
def Frame (i : Fin 4) (s r : State) : Prop :=
  (∀ j : Fin 4, j ≠ i → r.chan j = s.chan j) ∧
  (∀ a : Nat, a ≠ 10 + i.val → a ≠ 14 → r.regPool a = s.regPool a ∧ writesAt a r = writesAt a s) ∧
  r.isMuted = s.isMuted ∧
  (s.hasWaveWrite = true → r.hasWaveWrite = true)

/-- What steps that work on channels other than `i` leave alone: channel `i`,
the mute flags, register `10+i` with its byte stream, and `hasWaveWrite` once it
is set. -/
def Untouched (i : Fin 4) (s r : State) : Prop :=
  r.chan i = s.chan i ∧ r.isMuted = s.isMuted ∧
  r.regPool (10 + i.val) = s.regPool (10 + i.val) ∧
  writesAt (10 + i.val) r = writesAt (10 + i.val) s ∧
  (s.hasWaveWrite = true → r.hasWaveWrite = true)

/-- The command `NoteOn(note)` for channel `ch`. -/
def noteOnCmd (ch : Fin 4) (note : Int) : DivCommand :=
  { cmd := DivCmd.noteOn, chan := ch, value := note, value2 := 0 }

/-- The state after `NoteOn(note)` on channel `ch` followed by one tick. -/
def noteOnThenTick (e : Engine) (ch : Fin 4) (note : Int) (s : State) : State :=
  tick e (dispatch e (noteOnCmd ch note) s).1

/-- A concrete engine whose note periods are small enough to land inside the
register range: the period of note `n` is `600 - 5 * n`, the periodic frequency
mapping subtracts the pitch from the base value, the macro sequencer is idle. -/
def toneEngine : Engine :=
  { calcFreq := fun b p => b - p, notePeriodic := fun n => 600 - 5 * n,
    macroNext := fun m => m, macroInit := fun _ m => m, macroRelease := fun m => m,
    resetMacroOnPorta := false, noteNull := 2147483647 }

/-- A concrete state: channel 0 has waveform 5, everything else at rest. -/
def waveFiveState : State :=
  { restState with chan := fun j => if j = 0 then { restChannel with wave := 5 } else restChannel }

/-- The register clamp in the words of the specification: values below 1 are
forced to 1, values above 127 are forced to 0. -/
def clampReg (v : Int) : Int := if v < 1 then 1 else if v > 127 then 0 else v

/-- The clock-divisor shift of each voice in the words of the specification:
2, 1, 0, 1 for voices 0, 1, 2, 3. -/
def voiceShift (i : Fin 4) : Nat :=
  match i.val with
  | 0 => 2
  | 1 => 1
  | 2 => 0
  | _ => 1

/-- The macro sequencer output of the tick that follows a `NoteOn` on a
channel: `std.init(ins)` and then `std.next()`. -/
def macroAfterNoteOn (e : Engine) (c : Channel) : DivMacroInt :=
  e.macroNext (e.macroInit (some c.ins) c.std)

/-- The command `SetPitch(p)` for channel `ch`. -/
def pitchCmd (ch : Fin 4) (p : Int) : DivCommand :=
  { cmd := DivCmd.pitch, chan := ch, value := p, value2 := 0 }

/-- The clamp of the specification: `clamp(v, lo, hi)`. -/
def clampInt (v lo hi : Int) : Int := if v < lo then lo else if v > hi then hi else v

/-- The command `SetVolume(v)` for channel `ch`. -/
def volumeCmd (ch : Fin 4) (v : Int) : DivCommand :=
  { cmd := DivCmd.volume, chan := ch, value := v, value2 := 0 }

/-- The command `PortamentoTo(step, target)` for channel `ch`. -/
def portaCmd (ch : Fin 4) (step target : Int) : DivCommand :=
  { cmd := DivCmd.notePorta, chan := ch, value := step, value2 := target }

/-- The command `NoteOff` for channel `ch`. -/
def noteOffCmd (ch : Fin 4) : DivCommand :=
  { cmd := DivCmd.noteOff, chan := ch, value := 0, value2 := 0 }

/-- A concrete state reached from the rest state by `SetVolume(10)` on channel
0 and then `SetVolume(5)` on channel 1: channel 0 holds volume 10 and the shared
volume register holds 5. -/
def sharedVolumeState : State :=
  (dispatch toneEngine (volumeCmd 1 5) (dispatch toneEngine (volumeCmd 0 10) restState).1).1

/-- The state after `n` successive dispatches of the command `c`. -/
def portaRun (e : Engine) (c : DivCommand) : Nat → State → State
  | 0, s => s
  | n + 1, s => portaRun e c n (dispatch e c s).1

/-- The `baseFreq` of channel `ch` after `k` calls of
`PortamentoTo(step, target)`. -/
def portaFreq (e : Engine) (ch : Fin 4) (step target : Int) (k : Nat) (s : State) : Int :=
  ((portaRun e (portaCmd ch step target) k s).chan ch).baseFreq

/-- The code returned by call number `k + 1` of `PortamentoTo(step, target)`. -/
def portaCode (e : Engine) (ch : Fin 4) (step target : Int) (k : Nat) (s : State) : Int :=
  (dispatch e (portaCmd ch step target) (portaRun e (portaCmd ch step target) k s)).2

/-- The bound of the specification on the number of calls:
`max(1, ceil(dist / step))`. -/
def portaBound (dist step : Int) : Nat := max 1 ((dist + step - 1) / step).toNat

/-- The rest state after `NoteOn(60)` on channel 0. -/
def keyedState0 : State := (dispatch toneEngine (noteOnCmd 0 60) restState).1

/-- The rest state after `NoteOn(60)` on channel 3. -/
def keyedState3 : State := (dispatch toneEngine (noteOnCmd 3 60) restState).1

/-- The function `reset`.  `fresh` is the value of `Channel()`, whose
constructor is declared in vic20.h; the mute flags are not touched, and the chip
core is handed the byte of `rWrite(14,15)`. -/
def reset (fresh : Channel) (s : State) : State :=
  rWrite 14 15 { s with regPool := fun _ => 0, chan := fun _ => fresh, hasWaveWrite := false }

/-- What the outer framework can do to the platform between two observations: a
command, a mute change, a tick, or one sample step of `acquire`. -/
inductive Op where
  | command (c : DivCommand)
  | mute (ch : Fin 4) (m : Bool)
  | tick
  | sample

/-- One operation. -/
def step (e : Engine) : Op → State → State
  | Op.command c, s => (dispatch e c s).1
  | Op.mute ch m, s => muteChannel ch m s
  | Op.tick, s => tick e s
  | Op.sample, s => acquireSample s

/-- A sequence of operations, first to last. -/
def run (e : Engine) : List Op → State → State
  | [], s => s
  | o :: os, s => run e os (step e o s)

/-- The command `SetWaveform(w)` for channel `ch`. -/
def waveCmd (ch : Fin 4) (w : Int) : DivCommand :=
  { cmd := DivCmd.wave, chan := ch, value := w, value2 := 0 }

/-- Two channel records that agree on every field except possibly the
counter `waveWriteCycle`. -/
def SameButCycle (c r : Channel) : Prop := r = { c with waveWriteCycle := r.waveWriteCycle }

/-- The waveform selector of every channel is in 0..15. -/
def WaveInRange (s : State) : Prop := ∀ j : Fin 4, 0 ≤ (s.chan j).wave ∧ (s.chan j).wave < 16

/-- The invariant of the injector: if some tone voice has a non-negative counter
then `hasWaveWrite` is set. -/
def ArmedImpliesFlag (s : State) : Prop :=
  (∃ i : Fin 4, i.val < 3 ∧ 0 ≤ (s.chan i).waveWriteCycle) → s.hasWaveWrite = true

/-- Whether an operation is `muteChannel(ch, false)`. -/
def isUnmute (ch : Fin 4) : Op → Bool
  | Op.mute c m => decide (c = ch) && !m
  | _ => false

/-- The state after `NoteOff` on channel `ch` followed by one tick. -/
def noteOffThenTick (e : Engine) (ch : Fin 4) (s : State) : State :=
  tick e (dispatch e (noteOffCmd ch) s).1

/-- A concrete state: from the rest state, `NoteOn(60)` on channel 0 and a tick
(the injector is armed), then `muteChannel(0, true)` and a tick (the key-off of
the mute is written). -/
def mutedInFlightState : State :=
  tick toneEngine (muteChannel 0 true (tick toneEngine keyedState0))

/-- Bit `k` of the pattern `p`. -/
def patternBit (p k : Nat) : Nat := p / 2 ^ k % 2

/-- The byte `loadFreq[i] + 128 * (bit k of p)`: the load value of voice `i`
with bit `k` of the pattern `p` in its most-significant bit. -/
def loadByte (i p k : Nat) : Int := ((loadFreq.getD i 0 + 128 * patternBit p k : Nat) : Int)

/-- A state with voice 0 armed and waveform 13, whose pattern is `0b100100`. -/
def armedWave13State : State :=
  { restState with
    chan := fun j =>
      if j = 0 then { restChannel with waveWriteCycle := 137 * 16 - 1, wave := 13, freq := 40 }
      else restChannel
    hasWaveWrite := true }

/-- A concrete engine whose note periods lie just below the largest 32-bit
`int`: the period of note `n` is `2147483000 + 10 * n`; otherwise like
`toneEngine`. -/
def wideEngine : Engine :=
  { calcFreq := fun b p => b - p, notePeriodic := fun n => 2147483000 + 10 * n,
    macroNext := fun m => m, macroInit := fun _ m => m, macroRelease := fun m => m,
    resetMacroOnPorta := false, noteNull := 2147483647 }

/-- The rest state after `NoteOn(0)` on channel 0 under `wideEngine`. -/
def wideKeyedState : State := (dispatch wideEngine (noteOnCmd 0 0) restState).1

/-! ## Elementary facts about the state updates -/

@[simp] theorem setChan_chan_self (i : Fin 4) (c : Channel) (s : State) :
    (setChan i c s).chan i = c := by simp [setChan]

theorem setChan_chan_ne (i j : Fin 4) (c : Channel) (s : State) (h : j ≠ i) :
    (setChan i c s).chan j = s.chan j := by simp [setChan, h]

@[simp] theorem setChan_isMuted (i : Fin 4) (c : Channel) (s : State) :
    (setChan i c s).isMuted = s.isMuted := rfl

@[simp] theorem setChan_hasWaveWrite (i : Fin 4) (c : Channel) (s : State) :
    (setChan i c s).hasWaveWrite = s.hasWaveWrite := rfl

@[simp] theorem setChan_regPool (i : Fin 4) (c : Channel) (s : State) :
    (setChan i c s).regPool = s.regPool := rfl

@[simp] theorem setChan_writes (i : Fin 4) (c : Channel) (s : State) :
    (setChan i c s).writes = s.writes := rfl

@[simp] theorem rWrite_chan (a : Nat) (v : Int) (s : State) : (rWrite a v s).chan = s.chan := rfl

@[simp] theorem rWrite_isMuted (a : Nat) (v : Int) (s : State) :
    (rWrite a v s).isMuted = s.isMuted := rfl

@[simp] theorem rWrite_hasWaveWrite (a : Nat) (v : Int) (s : State) :
    (rWrite a v s).hasWaveWrite = s.hasWaveWrite := rfl

@[simp] theorem rWrite_regPool_self (a : Nat) (v : Int) (s : State) :
    (rWrite a v s).regPool a = v % 256 := by simp [rWrite]

theorem rWrite_regPool_ne (a b : Nat) (v : Int) (s : State) (h : b ≠ a) :
    (rWrite a v s).regPool b = s.regPool b := by simp [rWrite, h]

@[simp] theorem rWrite_writes (a : Nat) (v : Int) (s : State) :
    (rWrite a v s).writes = s.writes ++ [(a, v % 256)] := rfl

@[simp] theorem writesAt_setChan (a : Nat) (i : Fin 4) (c : Channel) (s : State) :
    writesAt a (setChan i c s) = writesAt a s := rfl

@[simp] theorem writesAt_rWrite_self (a : Nat) (v : Int) (s : State) :
    writesAt a (rWrite a v s) = writesAt a s ++ [(a, v % 256)] := by
  simp [writesAt, List.filter_append]

theorem writesAt_rWrite_ne (a b : Nat) (v : Int) (s : State) (h : a ≠ b) :
    writesAt b (rWrite a v s) = writesAt b s := by
  simp [writesAt, List.filter_append, h]

/-! ## The injector -/

theorem acquireVoice_idle (j : Fin 4) (s : State) (h : (s.chan j).waveWriteCycle < 0) :
    acquireVoice j s = s := by
  unfold acquireVoice
  simp [not_le.mpr h]

theorem acquireVoice_chan_ne (i j : Fin 4) (s : State) (h : i ≠ j) :
    (acquireVoice j s).chan i = s.chan i := by
  unfold acquireVoice
  dsimp only
  split_ifs <;> simp [setChan, h]

theorem acquireVoice_regPool_ne (j : Fin 4) (a : Nat) (s : State) (h : a ≠ 10 + j.val) :
    (acquireVoice j s).regPool a = s.regPool a := by
  unfold acquireVoice
  dsimp only
  split_ifs <;> simp [rWrite, h]

theorem acquireVoice_writesAt_ne (j : Fin 4) (a : Nat) (s : State) (h : a ≠ 10 + j.val) :
    writesAt a (acquireVoice j s) = writesAt a s := by
  unfold acquireVoice
  dsimp only
  split_ifs <;> simp [writesAt, List.filter_append, Ne.symm h]

theorem acquireVoice_hasWaveWrite_mono (j : Fin 4) (s : State) (h : s.hasWaveWrite = true) :
    (acquireVoice j s).hasWaveWrite = true := by
  unfold acquireVoice
  dsimp only
  split_ifs <;> simp [h]

theorem acquireVoice_armed (j : Fin 4) (s : State) (h : 0 ≤ (s.chan j).waveWriteCycle) :
    (acquireVoice j s).hasWaveWrite = true ∧
    (acquireVoice j s).chan j =
      { s.chan j with waveWriteCycle := (s.chan j).waveWriteCycle - 4 } ∧
    (acquireVoice j s).regPool (10 + j.val) =
      injectValue j.val (s.chan j).wave (s.chan j).freq (s.chan j).waveWriteCycle % 256 ∧
    writesAt (10 + j.val) (acquireVoice j s) = writesAt (10 + j.val) s ++
      [(10 + j.val,
        injectValue j.val (s.chan j).wave (s.chan j).freq (s.chan j).waveWriteCycle % 256)] := by
  unfold acquireVoice injectValue
  dsimp only
  rw [if_pos h]
  split_ifs <;> simp [SAMP_DIVIDER, writesAt, List.filter_append]

theorem acquireVoice_frame (i j : Fin 4) (s : State) (h : i ≠ j) :
    (acquireVoice j s).chan i = s.chan i ∧
    (acquireVoice j s).regPool (10 + i.val) = s.regPool (10 + i.val) ∧
    writesAt (10 + i.val) (acquireVoice j s) = writesAt (10 + i.val) s := by
  have hne : 10 + i.val ≠ 10 + j.val := by
    intro hh
    exact h (Fin.ext (by omega))
  exact ⟨acquireVoice_chan_ne i j s h, acquireVoice_regPool_ne j _ s hne,
    acquireVoice_writesAt_ne j _ s hne⟩

theorem acquireVoice_keep (i j : Fin 4) (s : State) (h : (s.chan i).waveWriteCycle < 0) :
    (acquireVoice j s).chan i = s.chan i ∧
    (acquireVoice j s).regPool (10 + i.val) = s.regPool (10 + i.val) ∧
    writesAt (10 + i.val) (acquireVoice j s) = writesAt (10 + i.val) s := by
  by_cases hij : i = j
  · subst hij
    rw [acquireVoice_idle i s h]
    exact ⟨rfl, rfl, rfl⟩
  · exact acquireVoice_frame i j s hij

theorem tone_voice_cases (i : Fin 4) (hi : i.val < 3) : i = 0 ∨ i = 1 ∨ i = 2 := by
  rcases i with ⟨v, hv⟩
  simp only [Fin.ext_iff]
  simp only [Fin.val_zero, Fin.val_one, Fin.val_two]
  simp only at hi
  omega

/-- A sample step on a voice whose counter is negative leaves the voice, its
register and its byte stream alone. -/
theorem acquireSample_idle (i : Fin 4) (s : State) (h : (s.chan i).waveWriteCycle < 0) :
    (acquireSample s).chan i = s.chan i ∧
    (acquireSample s).regPool (10 + i.val) = s.regPool (10 + i.val) ∧
    writesAt (10 + i.val) (acquireSample s) = writesAt (10 + i.val) s := by
  unfold acquireSample
  split_ifs with hw
  · have k0 := acquireVoice_keep i 0 { s with hasWaveWrite := false } h
    have k1 := acquireVoice_keep i 1 (acquireVoice 0 { s with hasWaveWrite := false })
      (by rw [k0.1]; exact h)
    have k2 := acquireVoice_keep i 2
      (acquireVoice 1 (acquireVoice 0 { s with hasWaveWrite := false }))
      (by rw [k1.1, k0.1]; exact h)
    refine ⟨?_, ?_, ?_⟩
    · rw [k2.1, k1.1, k0.1]
    · rw [k2.2.1, k1.2.1, k0.2.1]
    · rw [k2.2.2, k1.2.2, k0.2.2]; rfl
  · exact ⟨rfl, rfl, rfl⟩

/-- A sample step on a tone voice whose counter is not negative, with
`hasWaveWrite` set: one byte is written and the counter goes down by 4. -/
theorem acquireSample_armed (i : Fin 4) (hi : i.val < 3) (s : State)
    (hw : s.hasWaveWrite = true) (hc : 0 ≤ (s.chan i).waveWriteCycle) :
    (acquireSample s).hasWaveWrite = true ∧
    (acquireSample s).chan i =
      { s.chan i with waveWriteCycle := (s.chan i).waveWriteCycle - 4 } ∧
    (acquireSample s).regPool (10 + i.val) =
      injectValue i.val (s.chan i).wave (s.chan i).freq (s.chan i).waveWriteCycle % 256 ∧
    writesAt (10 + i.val) (acquireSample s) = writesAt (10 + i.val) s ++
      [(10 + i.val,
        injectValue i.val (s.chan i).wave (s.chan i).freq (s.chan i).waveWriteCycle % 256)] := by
  unfold acquireSample
  rw [if_pos hw]
  rcases tone_voice_cases i hi with rfl | rfl | rfl
  · have a0 := acquireVoice_armed 0 { s with hasWaveWrite := false } hc
    have f1 := acquireVoice_frame 0 1 (acquireVoice 0 { s with hasWaveWrite := false })
      (by decide)
    have f2 := acquireVoice_frame 0 2
      (acquireVoice 1 (acquireVoice 0 { s with hasWaveWrite := false })) (by decide)
    refine ⟨?_, ?_, ?_, ?_⟩
    · exact acquireVoice_hasWaveWrite_mono 2 _ (acquireVoice_hasWaveWrite_mono 1 _ a0.1)
    · rw [f2.1, f1.1, a0.2.1]
    · rw [f2.2.1, f1.2.1, a0.2.2.1]
    · rw [f2.2.2, f1.2.2, a0.2.2.2]; rfl
  · have f0 := acquireVoice_frame 1 0 { s with hasWaveWrite := false } (by decide)
    have a1 := acquireVoice_armed 1 (acquireVoice 0 { s with hasWaveWrite := false })
      (by rw [f0.1]; exact hc)
    have f2 := acquireVoice_frame 1 2
      (acquireVoice 1 (acquireVoice 0 { s with hasWaveWrite := false })) (by decide)
    refine ⟨?_, ?_, ?_, ?_⟩
    · exact acquireVoice_hasWaveWrite_mono 2 _ a1.1
    · rw [f2.1, a1.2.1, f0.1]
    · rw [f2.2.1, a1.2.2.1, f0.1]
    · rw [f2.2.2, a1.2.2.2, f0.1, f0.2.2]; rfl
  · have f0 := acquireVoice_frame 2 0 { s with hasWaveWrite := false } (by decide)
    have f1 := acquireVoice_frame 2 1 (acquireVoice 0 { s with hasWaveWrite := false })
      (by decide)
    have a2 := acquireVoice_armed 2
      (acquireVoice 1 (acquireVoice 0 { s with hasWaveWrite := false }))
      (by rw [f1.1, f0.1]; exact hc)
    refine ⟨a2.1, ?_, ?_, ?_⟩
    · rw [a2.2.1, f1.1, f0.1]
    · rw [a2.2.2.1, f1.1, f0.1]
    · rw [a2.2.2.2, f1.1, f0.1, f1.2.2, f0.2.2]; rfl

theorem acquire_succ_right (n : Nat) (s : State) :
    acquire (n + 1) s = acquireSample (acquire n s) := by
  induction n generalizing s with
  | zero => rfl
  | succ k ih =>
    show acquire (k + 1) (acquireSample s) = acquireSample (acquire k (acquireSample s))
    exact ih (acquireSample s)

theorem acquire_add (m n : Nat) (s : State) : acquire (m + n) s = acquire n (acquire m s) := by
  induction m generalizing s with
  | zero => simp [acquire]
  | succ k ih =>
    rw [Nat.add_right_comm]
    show acquire (k + n) (acquireSample s) = acquire n (acquire k (acquireSample s))
    exact ih (acquireSample s)

/-- A run of `n` sample steps on a tone voice whose counter `c` stays
non-negative throughout (`4 * n ≤ c + 4`): the voice keeps everything but its
counter, which ends at `c - 4 * n`, and the bytes written to its register are
`injectValue` at `c`, `c - 4`, `c - 8`, ... in this order. -/
theorem acquire_armed_run (i : Fin 4) (hi : i.val < 3) (s : State)
    (hw : s.hasWaveWrite = true) (n : Nat)
    (hn : 4 * (n : Int) ≤ (s.chan i).waveWriteCycle + 4) :
    (acquire n s).hasWaveWrite = true ∧
    (acquire n s).chan i =
      { s.chan i with waveWriteCycle := (s.chan i).waveWriteCycle - 4 * n } ∧
    writesAt (10 + i.val) (acquire n s) = writesAt (10 + i.val) s ++
      (List.range n).map (fun (k : Nat) => (10 + i.val,
        injectValue i.val (s.chan i).wave (s.chan i).freq
          ((s.chan i).waveWriteCycle - 4 * (k : Int)) % 256)) ∧
    (0 < n → (acquire n s).regPool (10 + i.val) =
      injectValue i.val (s.chan i).wave (s.chan i).freq
        ((s.chan i).waveWriteCycle - 4 * (n - 1 : Nat)) % 256) := by
  induction n with
  | zero => simp [acquire, hw]
  | succ k ih =>
    have ihk := ih (by push_cast at hn; omega)
    obtain ⟨h1, h2, h3, _⟩ := ihk
    have hc : 0 ≤ ((acquire k s).chan i).waveWriteCycle := by
      rw [h2]; push_cast at hn; simp only; omega
    have st := acquireSample_armed i hi (acquire k s) h1 hc
    rw [acquire_succ_right]
    refine ⟨st.1, ?_, ?_, ?_⟩
    · rw [st.2.1, h2]
      simp only [Channel.mk.injEq, and_true, true_and]
      push_cast; ring
    · rw [st.2.2.2, h3, h2, List.range_succ, List.map_append, List.append_assoc]
      rfl
    · intro _
      rw [st.2.2.1, h2]
      simp

/-- Any number of sample steps on a voice whose counter is negative leave the
voice, its register and its byte stream alone. -/
theorem acquire_idle_run (i : Fin 4) (s : State) (h : (s.chan i).waveWriteCycle < 0)
    (n : Nat) :
    (acquire n s).chan i = s.chan i ∧
    (acquire n s).regPool (10 + i.val) = s.regPool (10 + i.val) ∧
    writesAt (10 + i.val) (acquire n s) = writesAt (10 + i.val) s := by
  induction n with
  | zero => exact ⟨rfl, rfl, rfl⟩
  | succ k ih =>
    rw [acquire_succ_right]
    have st := acquireSample_idle i (acquire k s) (by rw [ih.1]; exact h)
    exact ⟨st.1.trans ih.1, st.2.1.trans ih.2.1, st.2.2.trans ih.2.2⟩

theorem injectValue_hold (i : Nat) (w f c : Int) (hc : c < 16) :
    injectValue i w f c = 255 - f := by
  unfold injectValue
  rw [if_neg (by omega), if_neg (by omega)]

theorem injectValue_drain (i : Nat) (w f c : Int) (hc : 112 ≤ c) :
    injectValue i w f c = 126 := by
  unfold injectValue
  rw [if_pos (by omega)]

/-- C1: from an armed tone voice (counter `137*16-1`, `hasWaveWrite` set, `freq`
in 0..127, any waveform selector) the counter is non-negative before each of
the first 548 sample steps, after exactly 548 steps it is -1 and register
`10+i` holds `255 - freq`; whatever number of further sample steps are run, the
counter stays negative, no byte is written to register `10+i` and the register
keeps `255 - freq`. -/
theorem C1_injection_runs_to_completion (s : State) (i : Fin 4) (hi : i.val < 3)
    (harm : (s.chan i).waveWriteCycle = 137 * 16 - 1) (hw : s.hasWaveWrite = true)
    (hf0 : 0 ≤ (s.chan i).freq) (hf1 : (s.chan i).freq ≤ 127) :
    (∀ k : Nat, k < 548 → 0 ≤ ((acquire k s).chan i).waveWriteCycle) ∧
    ((acquire 548 s).chan i).waveWriteCycle = -1 ∧
    (acquire 548 s).regPool (10 + i.val) = 255 - (s.chan i).freq ∧
    ∀ n : Nat,
      ((acquire (548 + n) s).chan i).waveWriteCycle < 0 ∧
      writesAt (10 + i.val) (acquire (548 + n) s) = writesAt (10 + i.val) (acquire 548 s) ∧
      (acquire (548 + n) s).regPool (10 + i.val) = 255 - (s.chan i).freq := by
  have run := acquire_armed_run i hi s hw 548 (by rw [harm]; norm_num)
  have hcyc : ((acquire 548 s).chan i).waveWriteCycle = -1 := by
    rw [run.2.1]; simp only; rw [harm]; norm_num
  have hreg : (acquire 548 s).regPool (10 + i.val) = 255 - (s.chan i).freq := by
    rw [run.2.2.2 (by norm_num), harm, injectValue_hold _ _ _ _ (by norm_num)]
    exact Int.emod_eq_of_lt (by omega) (by omega)
  refine ⟨?_, hcyc, hreg, ?_⟩
  · intro k hk
    have runk := acquire_armed_run i hi s hw k (by rw [harm]; omega)
    rw [runk.2.1]; simp only; rw [harm]; omega
  · intro n
    rw [acquire_add]
    have idle := acquire_idle_run i (acquire 548 s) (by rw [hcyc]; norm_num) n
    refine ⟨?_, idle.2.2, ?_⟩
    · rw [idle.1, hcyc]; norm_num
    · rw [idle.2.1, hreg]

theorem C1_injection_runs_to_completion_witness :
    ((armedState.chan 0).waveWriteCycle = 137 * 16 - 1 ∧ armedState.hasWaveWrite = true ∧
      0 ≤ (armedState.chan 0).freq ∧ (armedState.chan 0).freq ≤ 127) ∧
    ((∀ k : Nat, k < 548 → 0 ≤ ((acquire k armedState).chan 0).waveWriteCycle) ∧
    ((acquire 548 armedState).chan 0).waveWriteCycle = -1 ∧
    (acquire 548 armedState).regPool (10 + (0 : Fin 4).val) = 255 - (armedState.chan 0).freq ∧
    ∀ n : Nat,
      ((acquire (548 + n) armedState).chan 0).waveWriteCycle < 0 ∧
      writesAt (10 + (0 : Fin 4).val) (acquire (548 + n) armedState) =
        writesAt (10 + (0 : Fin 4).val) (acquire 548 armedState) ∧
      (acquire (548 + n) armedState).regPool (10 + (0 : Fin 4).val) =
        255 - (armedState.chan 0).freq) :=
  ⟨⟨by decide, rfl, by decide, by decide⟩,
    C1_injection_runs_to_completion armedState 0 (by decide) (by decide) rfl (by decide)
      (by decide)⟩

/-! ## The tick: the macro phase -/

theorem writeOutVol_chan (ch : Fin 4) (s : State) : (writeOutVol ch s).chan = s.chan := by
  unfold writeOutVol; split_ifs <;> rfl

theorem writeOutVol_isMuted (ch : Fin 4) (s : State) :
    (writeOutVol ch s).isMuted = s.isMuted := by
  unfold writeOutVol; split_ifs <;> rfl

theorem writeOutVol_hasWaveWrite (ch : Fin 4) (s : State) :
    (writeOutVol ch s).hasWaveWrite = s.hasWaveWrite := by
  unfold writeOutVol; split_ifs <;> rfl

theorem writeOutVol_regPool_ne (ch : Fin 4) (s : State) (a : Nat) (h : a ≠ 14) :
    (writeOutVol ch s).regPool a = s.regPool a := by
  unfold writeOutVol; split_ifs
  · exact rWrite_regPool_ne 14 a _ s h
  · rfl

theorem writeOutVol_writesAt_ne (ch : Fin 4) (s : State) (a : Nat) (h : a ≠ 14) :
    writesAt a (writeOutVol ch s) = writesAt a s := by
  unfold writeOutVol; split_ifs
  · exact writesAt_rWrite_ne 14 a _ s (Ne.symm h)
  · rfl

theorem tickArp_fields (e : Engine) (c : Channel) :
    (tickArp e c).keyOn = c.keyOn ∧ (tickArp e c).keyOff = c.keyOff ∧
    (tickArp e c).waveWriteCycle = c.waveWriteCycle ∧ (tickArp e c).pitch = c.pitch ∧
    (tickArp e c).wave = c.wave ∧ (tickArp e c).std = c.std ∧
    (tickArp e c).active = c.active ∧
    (c.freqChanged = true → (tickArp e c).freqChanged = true) := by
  unfold tickArp
  dsimp only
  split_ifs <;> simp

theorem tickWave_fields (c : Channel) :
    (c.keyOn = true → (tickWave c).keyOn = true) ∧ (tickWave c).keyOff = c.keyOff ∧
    (tickWave c).waveWriteCycle = c.waveWriteCycle ∧ (tickWave c).pitch = c.pitch ∧
    (tickWave c).baseFreq = c.baseFreq ∧ (tickWave c).freqChanged = c.freqChanged ∧
    (tickWave c).active = c.active ∧ (tickWave c).std = c.std := by
  unfold tickWave
  split_ifs <;> simp

theorem tickMacro_isMuted (e : Engine) (i : Fin 4) (s : State) :
    (tickMacro e i s).isMuted = s.isMuted := by
  unfold tickMacro calcAndWriteOutVol
  dsimp only
  split_ifs <;> simp [writeOutVol_isMuted]

theorem tickMacro_hasWaveWrite (e : Engine) (i : Fin 4) (s : State) :
    (tickMacro e i s).hasWaveWrite = s.hasWaveWrite := by
  unfold tickMacro calcAndWriteOutVol
  dsimp only
  split_ifs <;> simp [writeOutVol_hasWaveWrite]

theorem tickMacro_chan_ne (e : Engine) (i j : Fin 4) (s : State) (h : j ≠ i) :
    (tickMacro e i s).chan j = s.chan j := by
  unfold tickMacro calcAndWriteOutVol
  dsimp only
  split_ifs <;> simp [writeOutVol_chan, setChan_chan_ne, h]

theorem tickMacro_regPool_ne (e : Engine) (i : Fin 4) (s : State) (a : Nat) (h : a ≠ 14) :
    (tickMacro e i s).regPool a = s.regPool a := by
  unfold tickMacro calcAndWriteOutVol
  dsimp only
  split_ifs <;> simp [writeOutVol_regPool_ne, h]

theorem tickMacro_writesAt_ne (e : Engine) (i : Fin 4) (s : State) (a : Nat) (h : a ≠ 14) :
    writesAt a (tickMacro e i s) = writesAt a s := by
  unfold tickMacro calcAndWriteOutVol
  dsimp only
  split_ifs <;> simp [writeOutVol_writesAt_ne, h]

/-- The channel after the macro phase of its tick. -/
theorem tickMacro_chan_self (e : Engine) (i : Fin 4) (s : State) :
    (tickMacro e i s).chan i =
      tickWave (tickArp e
        { s.chan i with
          std := e.macroNext (s.chan i).std
          outVol :=
            if (e.macroNext (s.chan i).std).hadVol then
              MIN (Int.tdiv (wrap32 ((s.chan i).vol * (e.macroNext (s.chan i).std).vol)) 15) 15
            else (s.chan i).outVol }) := by
  unfold tickMacro calcAndWriteOutVol
  simp only [setChan_chan_self]
  split_ifs with h <;> simp [writeOutVol_chan]

/-- The macro phase keeps `keyOff`, the counter, the pitch and `active`, and
never clears `keyOn` or `freqChanged`. -/
theorem tickMacro_self_fields (e : Engine) (i : Fin 4) (s : State) :
    ((s.chan i).keyOn = true → ((tickMacro e i s).chan i).keyOn = true) ∧
    ((tickMacro e i s).chan i).keyOff = (s.chan i).keyOff ∧
    ((tickMacro e i s).chan i).waveWriteCycle = (s.chan i).waveWriteCycle ∧
    ((tickMacro e i s).chan i).pitch = (s.chan i).pitch ∧
    ((tickMacro e i s).chan i).active = (s.chan i).active ∧
    ((s.chan i).freqChanged = true → ((tickMacro e i s).chan i).freqChanged = true) := by
  rw [tickMacro_chan_self]
  generalize hc : ({ s.chan i with
          std := e.macroNext (s.chan i).std
          outVol :=
            if (e.macroNext (s.chan i).std).hadVol then
              MIN (Int.tdiv (wrap32 ((s.chan i).vol * (e.macroNext (s.chan i).std).vol)) 15) 15
            else (s.chan i).outVol } : Channel) = c0
  have e1 : c0.keyOn = (s.chan i).keyOn := by rw [← hc]
  have e2 : c0.keyOff = (s.chan i).keyOff := by rw [← hc]
  have e3 : c0.waveWriteCycle = (s.chan i).waveWriteCycle := by rw [← hc]
  have e4 : c0.pitch = (s.chan i).pitch := by rw [← hc]
  have e5 : c0.active = (s.chan i).active := by rw [← hc]
  have e6 : c0.freqChanged = (s.chan i).freqChanged := by rw [← hc]
  have a := tickArp_fields e c0
  have w := tickWave_fields (tickArp e c0)
  refine ⟨?_, ?_, ?_, ?_, ?_, ?_⟩
  · intro h; exact w.1 (by rw [a.1, e1]; exact h)
  · rw [w.2.1, a.2.1, e2]
  · rw [w.2.2.1, a.2.2.1, e3]
  · rw [w.2.2.2.1, a.2.2.2.1, e4]
  · rw [w.2.2.2.2.2.2.1, a.2.2.2.2.2.2.1, e5]
  · intro h; rw [w.2.2.2.2.2.1]; exact a.2.2.2.2.2.2.2 (by rw [e6]; exact h)

/-! ## The tick: servicing the pending flags -/

theorem tickCalcFreq_eff (e : Engine) (i : Fin 4) (s : State) :
    ((tickCalcFreq e i s).chan i).freq = tickFreq e i (s.chan i) ∧
    ((tickCalcFreq e i s).chan i).keyOn = (s.chan i).keyOn ∧
    ((tickCalcFreq e i s).chan i).keyOff = (s.chan i).keyOff ∧
    ((tickCalcFreq e i s).chan i).freqChanged = (s.chan i).freqChanged ∧
    ((tickCalcFreq e i s).chan i).waveWriteCycle = (s.chan i).waveWriteCycle ∧
    ((tickCalcFreq e i s).chan i).wave = (s.chan i).wave ∧
    ((tickCalcFreq e i s).chan i).active = (s.chan i).active ∧
    (tickCalcFreq e i s).isMuted = s.isMuted ∧
    (tickCalcFreq e i s).hasWaveWrite = s.hasWaveWrite ∧
    (tickCalcFreq e i s).regPool = s.regPool ∧
    (tickCalcFreq e i s).writes = s.writes := by
  simp [tickCalcFreq]

theorem tickMuteOverride_eff (i : Fin 4) (s : State) :
    ((tickMuteOverride i s).chan i).freq = (s.chan i).freq ∧
    ((tickMuteOverride i s).chan i).keyOn = ((s.chan i).keyOn && !s.isMuted i) ∧
    ((tickMuteOverride i s).chan i).keyOff = (s.chan i).keyOff ∧
    ((tickMuteOverride i s).chan i).freqChanged = (s.chan i).freqChanged ∧
    ((tickMuteOverride i s).chan i).waveWriteCycle = (s.chan i).waveWriteCycle ∧
    ((tickMuteOverride i s).chan i).wave = (s.chan i).wave ∧
    ((tickMuteOverride i s).chan i).active = (s.chan i).active ∧
    (tickMuteOverride i s).isMuted = s.isMuted ∧
    (tickMuteOverride i s).hasWaveWrite = s.hasWaveWrite ∧
    (tickMuteOverride i s).regPool = s.regPool ∧
    (tickMuteOverride i s).writes = s.writes := by
  unfold tickMuteOverride
  cases hm : s.isMuted i <;> simp

theorem tickKeyOn_eff (i : Fin 4) (s : State) :
    ((tickKeyOn i s).chan i).freq = (s.chan i).freq ∧
    ((tickKeyOn i s).chan i).keyOn = false ∧
    ((tickKeyOn i s).chan i).keyOff = (s.chan i).keyOff ∧
    ((tickKeyOn i s).chan i).freqChanged = (s.chan i).freqChanged ∧
    ((tickKeyOn i s).chan i).waveWriteCycle =
      (if (s.chan i).keyOn = true ∧ i.val < 3 then 137 * 16 - 1
       else (s.chan i).waveWriteCycle) ∧
    ((tickKeyOn i s).chan i).wave = (s.chan i).wave ∧
    ((tickKeyOn i s).chan i).active = (s.chan i).active ∧
    (tickKeyOn i s).isMuted = s.isMuted ∧
    (tickKeyOn i s).hasWaveWrite =
      (s.hasWaveWrite || ((s.chan i).keyOn && decide (i.val < 3))) ∧
    (tickKeyOn i s).regPool (10 + i.val) =
      (if (s.chan i).keyOn = true then
        (if i.val < 3 then s.regPool (10 + i.val) else (255 - (s.chan i).freq) % 256)
       else if ((s.chan i).freqChanged && (s.chan i).active && !s.isMuted i) = true then
        (255 - (s.chan i).freq) % 256
       else s.regPool (10 + i.val)) ∧
    writesAt (10 + i.val) (tickKeyOn i s) =
      writesAt (10 + i.val) s ++
        (if (s.chan i).keyOn = true then
          (if i.val < 3 then [] else [(10 + i.val, (255 - (s.chan i).freq) % 256)])
         else if ((s.chan i).freqChanged && (s.chan i).active && !s.isMuted i) = true then
          [(10 + i.val, (255 - (s.chan i).freq) % 256)]
         else []) := by
  unfold tickKeyOn
  cases hk : (s.chan i).keyOn
  · by_cases hw : ((s.chan i).freqChanged && (s.chan i).active && !s.isMuted i) = true
    · simp only [hw, if_true]
      simp [hk]
    · simp only [hw]
      simp [hk]
  · by_cases hi : i.val < 3
    · simp [hi, hk, writesAt]
    · simp [hi, hk]

theorem tickKeyOff_eff (i : Fin 4) (s : State) :
    ((tickKeyOff i s).chan i).freq = (s.chan i).freq ∧
    ((tickKeyOff i s).chan i).keyOn = (s.chan i).keyOn ∧
    ((tickKeyOff i s).chan i).keyOff = false ∧
    ((tickKeyOff i s).chan i).freqChanged = (s.chan i).freqChanged ∧
    ((tickKeyOff i s).chan i).waveWriteCycle = (s.chan i).waveWriteCycle ∧
    ((tickKeyOff i s).chan i).wave = (s.chan i).wave ∧
    ((tickKeyOff i s).chan i).active = (s.chan i).active ∧
    (tickKeyOff i s).isMuted = s.isMuted ∧
    (tickKeyOff i s).hasWaveWrite = s.hasWaveWrite ∧
    (tickKeyOff i s).regPool (10 + i.val) =
      (if (s.chan i).keyOff = true then 0 else s.regPool (10 + i.val)) ∧
    writesAt (10 + i.val) (tickKeyOff i s) =
      writesAt (10 + i.val) s ++ (if (s.chan i).keyOff = true then [(10 + i.val, 0)] else []) := by
  unfold tickKeyOff
  cases hk : (s.chan i).keyOff <;> simp [hk]

theorem tickClearFreqChanged_eff (i : Fin 4) (s : State) :
    ((tickClearFreqChanged i s).chan i).freq = (s.chan i).freq ∧
    ((tickClearFreqChanged i s).chan i).keyOn = (s.chan i).keyOn ∧
    ((tickClearFreqChanged i s).chan i).keyOff = (s.chan i).keyOff ∧
    ((tickClearFreqChanged i s).chan i).freqChanged = false ∧
    ((tickClearFreqChanged i s).chan i).waveWriteCycle = (s.chan i).waveWriteCycle ∧
    ((tickClearFreqChanged i s).chan i).wave = (s.chan i).wave ∧
    ((tickClearFreqChanged i s).chan i).active = (s.chan i).active ∧
    (tickClearFreqChanged i s).isMuted = s.isMuted ∧
    (tickClearFreqChanged i s).hasWaveWrite = s.hasWaveWrite ∧
    (tickClearFreqChanged i s).regPool = s.regPool ∧
    (tickClearFreqChanged i s).writes = s.writes := by
  simp [tickClearFreqChanged]

theorem frame_refl (i : Fin 4) (s : State) : Frame i s s :=
  ⟨fun _ _ => rfl, fun _ _ _ => ⟨rfl, rfl⟩, rfl, fun h => h⟩

theorem frame_trans {i : Fin 4} {s r t : State} (h1 : Frame i s r) (h2 : Frame i r t) :
    Frame i s t :=
  ⟨fun j hj => (h2.1 j hj).trans (h1.1 j hj),
   fun a ha hb => ⟨((h2.2.1 a ha hb).1).trans ((h1.2.1 a ha hb).1),
     ((h2.2.1 a ha hb).2).trans ((h1.2.1 a ha hb).2)⟩,
   h2.2.2.1.trans h1.2.2.1, fun h => h2.2.2.2 (h1.2.2.2 h)⟩

theorem frame_setChan (i : Fin 4) (c : Channel) (s : State) : Frame i s (setChan i c s) :=
  ⟨fun j hj => setChan_chan_ne i j c s hj, fun _ _ _ => ⟨rfl, rfl⟩, rfl, fun h => h⟩

theorem frame_rWrite_self (i : Fin 4) (v : Int) (s : State) :
    Frame i s (rWrite (10 + i.val) v s) :=
  ⟨fun _ _ => rfl,
   fun a ha _ => ⟨rWrite_regPool_ne _ a v s ha, writesAt_rWrite_ne _ a v s (Ne.symm ha)⟩,
   rfl, fun h => h⟩

theorem frame_rWrite_vol (i : Fin 4) (v : Int) (s : State) : Frame i s (rWrite 14 v s) :=
  ⟨fun _ _ => rfl,
   fun a _ hb => ⟨rWrite_regPool_ne _ a v s hb, writesAt_rWrite_ne _ a v s (Ne.symm hb)⟩,
   rfl, fun h => h⟩

theorem tickCalcFreq_frame (e : Engine) (i : Fin 4) (s : State) :
    Frame i s (tickCalcFreq e i s) := frame_setChan i _ s

theorem tickMuteOverride_frame (i : Fin 4) (s : State) : Frame i s (tickMuteOverride i s) := by
  unfold tickMuteOverride
  split_ifs
  · exact frame_setChan i _ s
  · exact frame_refl i s

theorem tickKeyOn_frame (i : Fin 4) (s : State) : Frame i s (tickKeyOn i s) := by
  unfold tickKeyOn
  by_cases hk : (s.chan i).keyOn = true
  · rw [if_pos hk]
    by_cases hi : i.val < 3
    · simp only [hi, if_true]
      refine frame_trans (t := _) (r := { setChan i
        { s.chan i with waveWriteCycle := 137 * 16 - 1 } s with hasWaveWrite := true }) ?_ ?_
      · exact ⟨fun j hj => setChan_chan_ne i j _ s hj, fun _ _ _ => ⟨rfl, rfl⟩, rfl, fun _ => rfl⟩
      · exact frame_setChan i _ _
    · simp only [hi, if_false]
      exact frame_trans (frame_rWrite_self i _ s) (frame_setChan i _ _)
  · rw [if_neg hk]
    split_ifs
    · exact frame_rWrite_self i _ s
    · exact frame_refl i s

theorem tickKeyOff_frame (i : Fin 4) (s : State) : Frame i s (tickKeyOff i s) := by
  unfold tickKeyOff
  split_ifs
  · exact frame_trans (frame_rWrite_self i 0 s) (frame_setChan i _ _)
  · exact frame_refl i s

theorem tickClearFreqChanged_frame (i : Fin 4) (s : State) :
    Frame i s (tickClearFreqChanged i s) := frame_setChan i _ s

theorem tickService_idle (e : Engine) (i : Fin 4) (s : State)
    (h : ((s.chan i).freqChanged || (s.chan i).keyOn || (s.chan i).keyOff) = false) :
    tickService e i s = s := by
  unfold tickService
  simp [h]

theorem tickService_frame (e : Engine) (i : Fin 4) (s : State) :
    Frame i s (tickService e i s) := by
  unfold tickService
  split_ifs
  · exact frame_trans (tickCalcFreq_frame e i s)
      (frame_trans (tickMuteOverride_frame i _)
        (frame_trans (tickKeyOn_frame i _)
          (frame_trans (tickKeyOff_frame i _) (tickClearFreqChanged_frame i _))))
  · exact frame_refl i s

theorem tickMacro_frame (e : Engine) (i : Fin 4) (s : State) : Frame i s (tickMacro e i s) :=
  ⟨fun j hj => tickMacro_chan_ne e i j s hj,
   fun a _ hb => ⟨tickMacro_regPool_ne e i s a hb, tickMacro_writesAt_ne e i s a hb⟩,
   tickMacro_isMuted e i s, fun h => by rw [tickMacro_hasWaveWrite]; exact h⟩

theorem tickChan_frame (e : Engine) (i : Fin 4) (s : State) : Frame i s (tickChan e i s) :=
  frame_trans (tickMacro_frame e i s) (tickService_frame e i _)

/-- What servicing does to a channel with a pending flag, field by field. -/
theorem tickService_pending (e : Engine) (i : Fin 4) (s : State)
    (hp : ((s.chan i).freqChanged || (s.chan i).keyOn || (s.chan i).keyOff) = true) :
    ((tickService e i s).chan i).freq = tickFreq e i (s.chan i) ∧
    ((tickService e i s).chan i).keyOn = false ∧
    ((tickService e i s).chan i).keyOff = false ∧
    ((tickService e i s).chan i).freqChanged = false ∧
    ((tickService e i s).chan i).waveWriteCycle =
      (if ((s.chan i).keyOn && !s.isMuted i) = true ∧ i.val < 3 then 137 * 16 - 1
       else (s.chan i).waveWriteCycle) ∧
    ((tickService e i s).chan i).wave = (s.chan i).wave ∧
    ((tickService e i s).chan i).active = (s.chan i).active ∧
    (tickService e i s).hasWaveWrite =
      (s.hasWaveWrite || ((s.chan i).keyOn && !s.isMuted i && decide (i.val < 3))) ∧
    (tickService e i s).regPool (10 + i.val) =
      (if (s.chan i).keyOff = true then 0
       else if ((s.chan i).keyOn && !s.isMuted i) = true then
        (if i.val < 3 then s.regPool (10 + i.val) else (255 - tickFreq e i (s.chan i)) % 256)
       else if ((s.chan i).freqChanged && (s.chan i).active && !s.isMuted i) = true then
        (255 - tickFreq e i (s.chan i)) % 256
       else s.regPool (10 + i.val)) ∧
    writesAt (10 + i.val) (tickService e i s) =
      writesAt (10 + i.val) s ++
        (if ((s.chan i).keyOn && !s.isMuted i) = true then
          (if i.val < 3 then [] else [(10 + i.val, (255 - tickFreq e i (s.chan i)) % 256)])
         else if ((s.chan i).freqChanged && (s.chan i).active && !s.isMuted i) = true then
          [(10 + i.val, (255 - tickFreq e i (s.chan i)) % 256)]
         else []) ++
        (if (s.chan i).keyOff = true then [(10 + i.val, 0)] else []) := by
  unfold tickService
  rw [if_pos hp]
  obtain ⟨a1, a2, a3, a4, a5, a6, a7, a8, a9, a10, a11⟩ := tickCalcFreq_eff e i s
  have a12 : writesAt (10 + i.val) (tickCalcFreq e i s) = writesAt (10 + i.val) s := by
    unfold writesAt; rw [a11]
  generalize tickCalcFreq e i s = s1 at *
  obtain ⟨b1, b2, b3, b4, b5, b6, b7, b8, b9, b10, b11⟩ := tickMuteOverride_eff i s1
  have b12 : writesAt (10 + i.val) (tickMuteOverride i s1) = writesAt (10 + i.val) s1 := by
    unfold writesAt; rw [b11]
  generalize tickMuteOverride i s1 = s2 at *
  obtain ⟨c1, c2, c3, c4, c5, c6, c7, c8, c9, c10, c11⟩ := tickKeyOn_eff i s2
  generalize tickKeyOn i s2 = s3 at *
  obtain ⟨d1, d2, d3, d4, d5, d6, d7, d8, d9, d10, d11⟩ := tickKeyOff_eff i s3
  generalize tickKeyOff i s3 = s4 at *
  obtain ⟨f1, f2, f3, f4, f5, f6, f7, f8, f9, f10, f11⟩ := tickClearFreqChanged_eff i s4
  have f12 : writesAt (10 + i.val) (tickClearFreqChanged i s4) = writesAt (10 + i.val) s4 := by
    unfold writesAt; rw [f11]
  generalize tickClearFreqChanged i s4 = s5 at *
  refine ⟨?_, ?_, ?_, ?_, ?_, ?_, ?_, ?_, ?_, ?_⟩
  · rw [f1, d1, c1, b1, a1]
  · rw [f2, d2, c2]
  · rw [f3, d3]
  · rw [f4]
  · rw [f5, d5, c5, b2, b5, a2, a5, a8]
  · rw [f6, d6, c6, b6, a6]
  · rw [f7, d7, c7, b7, a7]
  · rw [f9, d9, c9, b9, a9, b2, a2, a8, Bool.and_assoc]
  · rw [f10, d10, c3, b3, a3, c10, b2, a2, b8, a8, b1, a1, b4, a4, b7, a7, b10, a10]
  · rw [f12, d11, c3, b3, a3, c11, b2, a2, b8, a8, b1, a1, b4, a4, b7, a7, b12, a12]

/-! ## The tick as a whole -/

theorem untouched_refl (i : Fin 4) (s : State) : Untouched i s s :=
  ⟨rfl, rfl, rfl, rfl, fun h => h⟩

theorem untouched_trans {i : Fin 4} {s r t : State} (h1 : Untouched i s r)
    (h2 : Untouched i r t) : Untouched i s t :=
  ⟨h2.1.trans h1.1, h2.2.1.trans h1.2.1, h2.2.2.1.trans h1.2.2.1,
   h2.2.2.2.1.trans h1.2.2.2.1, fun h => h2.2.2.2.2 (h1.2.2.2.2 h)⟩

theorem untouched_of_frame {i j : Fin 4} {s r : State} (h : Frame j s r) (hij : i ≠ j) :
    Untouched i s r := by
  have hne : 10 + i.val ≠ 10 + j.val := by
    intro hh
    exact hij (Fin.ext (by omega))
  have h14 : 10 + i.val ≠ 14 := by
    have := i.isLt
    omega
  exact ⟨h.1 i hij, h.2.2.1, (h.2.1 _ hne h14).1, (h.2.1 _ hne h14).2, h.2.2.2⟩

theorem tickChan_untouched (e : Engine) (i j : Fin 4) (s : State) (hij : i ≠ j) :
    Untouched i s (tickChan e j s) :=
  untouched_of_frame (tickChan_frame e j s) hij

/-- The tick, seen from channel `i`: the channels before `i` leave `i` alone,
then the loop body runs for `i`, then the channels after `i` leave `i` alone. -/
theorem tick_split (e : Engine) (i : Fin 4) (s : State) :
    ∃ s0 : State, Untouched i s s0 ∧ Untouched i (tickChan e i s0) (tick e s) := by
  unfold tick
  have h4 : i = 0 ∨ i = 1 ∨ i = 2 ∨ i = 3 := by
    rcases i with ⟨v, hv⟩
    simp only [Fin.ext_iff]
    simp only [Fin.val_zero, Fin.val_one, Fin.val_two]
    have : ((3 : Fin 4) : Nat) = 3 := rfl
    omega
  rcases h4 with rfl | rfl | rfl | rfl
  · exact ⟨s, untouched_refl _ _,
      untouched_trans (untouched_trans (tickChan_untouched e 0 1 _ (by decide))
        (tickChan_untouched e 0 2 _ (by decide)))
        (tickChan_untouched e 0 3 _ (by decide))⟩
  · exact ⟨tickChan e 0 s, tickChan_untouched e 1 0 _ (by decide),
      untouched_trans (tickChan_untouched e 1 2 _ (by decide))
        (tickChan_untouched e 1 3 _ (by decide))⟩
  · exact ⟨tickChan e 1 (tickChan e 0 s),
      untouched_trans (tickChan_untouched e 2 0 _ (by decide))
        (tickChan_untouched e 2 1 _ (by decide)),
      tickChan_untouched e 2 3 _ (by decide)⟩
  · exact ⟨tickChan e 2 (tickChan e 1 (tickChan e 0 s)),
      untouched_trans (untouched_trans (tickChan_untouched e 3 0 _ (by decide))
        (tickChan_untouched e 3 1 _ (by decide)))
        (tickChan_untouched e 3 2 _ (by decide)),
      untouched_refl _ _⟩

theorem tickMacro_chan_congr (e : Engine) (i : Fin 4) (s r : State)
    (h : r.chan i = s.chan i) : (tickMacro e i r).chan i = (tickMacro e i s).chan i := by
  rw [tickMacro_chan_self, tickMacro_chan_self, h]

theorem tick_isMuted (e : Engine) (s : State) : (tick e s).isMuted = s.isMuted := by
  unfold tick
  rw [(tickChan_frame e 3 _).2.2.1, (tickChan_frame e 2 _).2.2.1,
    (tickChan_frame e 1 _).2.2.1, (tickChan_frame e 0 _).2.2.1]

/-- The tick on a channel that has a pending flag when it is serviced (that is,
after its macro phase): the fields of the channel, its frequency register and
the bytes written to it, and `hasWaveWrite`. -/
theorem tick_pending (e : Engine) (i : Fin 4) (s : State)
    (hp : (((tickMacro e i s).chan i).freqChanged || ((tickMacro e i s).chan i).keyOn ||
      ((tickMacro e i s).chan i).keyOff) = true) :
    ((tick e s).chan i).freq = tickFreq e i ((tickMacro e i s).chan i) ∧
    ((tick e s).chan i).keyOn = false ∧
    ((tick e s).chan i).keyOff = false ∧
    ((tick e s).chan i).freqChanged = false ∧
    ((tick e s).chan i).waveWriteCycle =
      (if (((tickMacro e i s).chan i).keyOn && !s.isMuted i) = true ∧ i.val < 3 then 137 * 16 - 1
       else (s.chan i).waveWriteCycle) ∧
    ((tick e s).chan i).wave = ((tickMacro e i s).chan i).wave ∧
    ((tick e s).chan i).active = (s.chan i).active ∧
    ((((tickMacro e i s).chan i).keyOn && !s.isMuted i && decide (i.val < 3)) = true →
      (tick e s).hasWaveWrite = true) ∧
    (tick e s).regPool (10 + i.val) =
      (if ((tickMacro e i s).chan i).keyOff = true then 0
       else if (((tickMacro e i s).chan i).keyOn && !s.isMuted i) = true then
        (if i.val < 3 then s.regPool (10 + i.val)
         else (255 - tickFreq e i ((tickMacro e i s).chan i)) % 256)
       else if (((tickMacro e i s).chan i).freqChanged && ((tickMacro e i s).chan i).active &&
          !s.isMuted i) = true then
        (255 - tickFreq e i ((tickMacro e i s).chan i)) % 256
       else s.regPool (10 + i.val)) ∧
    writesAt (10 + i.val) (tick e s) =
      writesAt (10 + i.val) s ++
        (if (((tickMacro e i s).chan i).keyOn && !s.isMuted i) = true then
          (if i.val < 3 then []
           else [(10 + i.val, (255 - tickFreq e i ((tickMacro e i s).chan i)) % 256)])
         else if (((tickMacro e i s).chan i).freqChanged && ((tickMacro e i s).chan i).active &&
            !s.isMuted i) = true then
          [(10 + i.val, (255 - tickFreq e i ((tickMacro e i s).chan i)) % 256)]
         else []) ++
        (if ((tickMacro e i s).chan i).keyOff = true then [(10 + i.val, 0)] else []) := by
  obtain ⟨s0, ⟨u1, u2, u3, u4, _⟩, ⟨v1, _, v3, v4, v5⟩⟩ := tick_split e i s
  have hm : (tickMacro e i s0).chan i = (tickMacro e i s).chan i :=
    tickMacro_chan_congr e i s s0 u1
  have hmu : (tickMacro e i s0).isMuted = s.isMuted := by rw [tickMacro_isMuted, u2]
  have h10 : (10 + i.val) ≠ 14 := by
    have := i.isLt
    omega
  have hreg : (tickMacro e i s0).regPool (10 + i.val) = s.regPool (10 + i.val) := by
    rw [tickMacro_regPool_ne e i s0 _ h10, u3]
  have hws : writesAt (10 + i.val) (tickMacro e i s0) = writesAt (10 + i.val) s := by
    rw [tickMacro_writesAt_ne e i s0 _ h10, u4]
  have hwc : ((tickMacro e i s).chan i).waveWriteCycle = (s.chan i).waveWriteCycle :=
    (tickMacro_self_fields e i s).2.2.1
  have hac : ((tickMacro e i s).chan i).active = (s.chan i).active :=
    (tickMacro_self_fields e i s).2.2.2.2.1
  obtain ⟨p1, p2, p3, p4, p5, p6, p7, p8, p9, p10⟩ :=
    tickService_pending e i (tickMacro e i s0) (by rw [hm]; exact hp)
  rw [hm, hmu] at p5 p8 p9 p10
  rw [hm] at p1 p6 p7
  rw [hreg] at p9
  rw [hws] at p10
  rw [hwc] at p5
  rw [hac] at p7
  refine ⟨?_, ?_, ?_, ?_, ?_, ?_, ?_, ?_, ?_, ?_⟩
  · rw [v1]; exact p1
  · rw [v1]; exact p2
  · rw [v1]; exact p3
  · rw [v1]; exact p4
  · rw [v1]; exact p5
  · rw [v1]; exact p6
  · rw [v1]; exact p7
  · intro h
    apply v5
    show (tickService e i (tickMacro e i s0)).hasWaveWrite = true
    rw [p8, h, Bool.or_true]
  · rw [v3]; exact p9
  · rw [v4]; exact p10

/-- The tick on a channel with no pending flag when it is serviced: only the
macro phase acts on it. -/
theorem tick_idle (e : Engine) (i : Fin 4) (s : State)
    (hp : (((tickMacro e i s).chan i).freqChanged || ((tickMacro e i s).chan i).keyOn ||
      ((tickMacro e i s).chan i).keyOff) = false) :
    (tick e s).chan i = (tickMacro e i s).chan i ∧
    (tick e s).regPool (10 + i.val) = s.regPool (10 + i.val) ∧
    writesAt (10 + i.val) (tick e s) = writesAt (10 + i.val) s := by
  obtain ⟨s0, ⟨u1, u2, u3, u4, _⟩, ⟨v1, _, v3, v4, v5⟩⟩ := tick_split e i s
  have hm : (tickMacro e i s0).chan i = (tickMacro e i s).chan i :=
    tickMacro_chan_congr e i s s0 u1
  have h10 : (10 + i.val) ≠ 14 := by
    have := i.isLt
    omega
  have hs : tickChan e i s0 = tickMacro e i s0 :=
    tickService_idle e i (tickMacro e i s0) (by rw [hm]; exact hp)
  rw [hs] at v1 v3 v4
  refine ⟨by rw [v1, hm], ?_, ?_⟩
  · rw [v3, tickMacro_regPool_ne e i s0 _ h10, u3]
  · rw [v4, tickMacro_writesAt_ne e i s0 _ h10, u4]

theorem tickFreq_range (e : Engine) (i : Fin 4) (c : Channel) :
    0 ≤ tickFreq e i c ∧ tickFreq e i c ≤ 127 := by
  unfold tickFreq
  dsimp only
  split_ifs <;> omega

theorem byte_of_inverted (f : Int) (h0 : 0 ≤ f) (h1 : f ≤ 127) : (255 - f) % 256 = 255 - f :=
  Int.emod_eq_of_lt (by omega) (by omega)

theorem dispatch_noteOn_keyOn (e : Engine) (ch : Fin 4) (note : Int) (s : State) :
    (((dispatch e (noteOnCmd ch note) s).1).chan ch).keyOn = true ∧
    ((dispatch e (noteOnCmd ch note) s).1).isMuted = s.isMuted ∧
    (((dispatch e (noteOnCmd ch note) s).1).chan ch).wave = (s.chan ch).wave := by
  simp only [dispatch, noteOnCmd]
  split_ifs <;> simp

/-- After a tick that services a key-on of an unmuted tone voice, the injector
is armed and a run of sample steps walks the counter down from `137*16-1`. -/
theorem keyOn_tick_run (e : Engine) (i : Fin 4) (hi : i.val < 3) (s : State)
    (hk : (s.chan i).keyOn = true) (hm : s.isMuted i = false) :
    ((tick e s).chan i).waveWriteCycle = 137 * 16 - 1 ∧
    (tick e s).hasWaveWrite = true ∧
    ((tick e s).chan i).freq = tickFreq e i ((tickMacro e i s).chan i) ∧
    (∀ k : Nat, k ≤ 548 →
      ((acquire k (tick e s)).chan i).waveWriteCycle = 137 * 16 - 1 - 4 * (k : Int)) ∧
    (∀ k : Nat, k < 548 →
      (acquire (k + 1) (tick e s)).regPool (10 + i.val) =
        injectValue i.val ((tick e s).chan i).wave ((tick e s).chan i).freq
          (137 * 16 - 1 - 4 * (k : Int)) % 256) := by
  have hk2 : ((tickMacro e i s).chan i).keyOn = true := (tickMacro_self_fields e i s).1 hk
  have hp := tick_pending e i s (by rw [hk2]; simp)
  have hcyc : ((tick e s).chan i).waveWriteCycle = 137 * 16 - 1 := by
    rw [hp.2.2.2.2.1, hk2, hm]; simp [hi]
  have hww : (tick e s).hasWaveWrite = true :=
    hp.2.2.2.2.2.2.2.1 (by rw [hk2, hm]; simp [hi])
  refine ⟨hcyc, hww, hp.1, ?_, ?_⟩
  · intro k hk
    have run := acquire_armed_run i hi (tick e s) hww k (by rw [hcyc]; omega)
    rw [run.2.1]; simp only; rw [hcyc]
  · intro k hk
    have run := acquire_armed_run i hi (tick e s) hww (k + 1) (by rw [hcyc]; omega)
    rw [run.2.2.2 (by omega), hcyc]
    simp

/-- C2 (as amended): after `NoteOn(note)` on unmuted channel 0 (any note, any
waveform) and the next tick, the counter of channel 0 is `137*16-1`; sample
steps lower it by 4 each, it stays at 16 or above for the first 543 steps and
is first below 16 (namely 15) after 544 steps, at which point register 10 holds
the last byte of the load phase (126 when the waveform is 5); one further sample
step, the one that services the counter value 15, makes register 10 hold
`255 - freq`, where `freq` is the value the tick computed. -/
theorem C2_noteOn_injection_scenario (e : Engine) (s : State) (note : Int)
    (hm : s.isMuted 0 = false) :
    ((noteOnThenTick e 0 note s).chan 0).waveWriteCycle = 137 * 16 - 1 ∧
    ((noteOnThenTick e 0 note s).chan 0).freq =
      tickFreq e 0 ((tickMacro e 0 (dispatch e (noteOnCmd 0 note) s).1).chan 0) ∧
    (∀ k : Nat, k < 544 →
      16 ≤ ((acquire k (noteOnThenTick e 0 note s)).chan 0).waveWriteCycle) ∧
    ((acquire 544 (noteOnThenTick e 0 note s)).chan 0).waveWriteCycle = 15 ∧
    (acquire 544 (noteOnThenTick e 0 note s)).regPool 10 =
      loadValue 0 ((noteOnThenTick e 0 note s).chan 0).wave 19 % 256 ∧
    (((noteOnThenTick e 0 note s).chan 0).wave = 5 →
      (acquire 544 (noteOnThenTick e 0 note s)).regPool 10 = 126) ∧
    (acquire 545 (noteOnThenTick e 0 note s)).regPool 10 =
      255 - ((noteOnThenTick e 0 note s).chan 0).freq := by
  obtain ⟨n1, n2, _⟩ := dispatch_noteOn_keyOn e 0 note s
  have run := keyOn_tick_run e 0 (by decide) (dispatch e (noteOnCmd 0 note) s).1 n1
    (by rw [n2]; exact hm)
  obtain ⟨r1, _, r3, r4, r5⟩ := run
  have hreg : (acquire 544 (noteOnThenTick e 0 note s)).regPool 10 =
      loadValue 0 ((noteOnThenTick e 0 note s).chan 0).wave 19 % 256 := by
    have := r5 543 (by norm_num)
    simp only [Nat.reduceAdd, Fin.val_zero] at this
    unfold noteOnThenTick
    rw [this]
    unfold injectValue
    norm_num
  refine ⟨r1, r3, ?_, ?_, hreg, ?_, ?_⟩
  · intro k hk
    unfold noteOnThenTick
    rw [r4 k (by omega)]
    omega
  · unfold noteOnThenTick
    rw [r4 544 (by norm_num)]
    norm_num
  · intro hw
    rw [hreg, hw]
    decide
  · have := r5 544 (by norm_num)
    simp only [Nat.reduceAdd, Fin.val_zero] at this
    unfold noteOnThenTick
    rw [this, injectValue_hold _ _ _ _ (by norm_num), r3]
    exact byte_of_inverted _ (tickFreq_range _ _ _).1 (tickFreq_range _ _ _).2

theorem C2_noteOn_injection_scenario_witness :
    waveFiveState.isMuted 0 = false ∧
    ((noteOnThenTick toneEngine 0 60 waveFiveState).chan 0).waveWriteCycle = 137 * 16 - 1 ∧
    ((acquire 544 (noteOnThenTick toneEngine 0 60 waveFiveState)).chan 0).waveWriteCycle = 15 ∧
    ((noteOnThenTick toneEngine 0 60 waveFiveState).chan 0).wave = 5 ∧
    (acquire 544 (noteOnThenTick toneEngine 0 60 waveFiveState)).regPool 10 = 126 ∧
    (acquire 545 (noteOnThenTick toneEngine 0 60 waveFiveState)).regPool 10 =
      255 - ((noteOnThenTick toneEngine 0 60 waveFiveState).chan 0).freq :=
  ⟨rfl, (C2_noteOn_injection_scenario toneEngine waveFiveState 60 rfl).1,
    (C2_noteOn_injection_scenario toneEngine waveFiveState 60 rfl).2.2.2.1,
    by decide,
    (C2_noteOn_injection_scenario toneEngine waveFiveState 60 rfl).2.2.2.2.2.1 (by decide),
    (C2_noteOn_injection_scenario toneEngine waveFiveState 60 rfl).2.2.2.2.2.2⟩

/-- C2 (counterexample): with the concrete engine `toneEngine`, `NoteOn(60)` on
unmuted channel 0 with waveform 5 and one tick arm the injector at `137*16-1`
and give `freq = 75`; the counter is 16 or more during the first 543 sample
steps and below 16 after the 544th, and at that point register 10 holds 126,
not `255 - freq = 180`. -/
theorem C2_counterexample :
    waveFiveState.isMuted 0 = false ∧ (waveFiveState.chan 0).wave = 5 ∧
    ((noteOnThenTick toneEngine 0 60 waveFiveState).chan 0).waveWriteCycle = 137 * 16 - 1 ∧
    ((noteOnThenTick toneEngine 0 60 waveFiveState).chan 0).freq = 75 ∧
    (∀ k : Nat, k < 544 →
      16 ≤ ((acquire k (noteOnThenTick toneEngine 0 60 waveFiveState)).chan 0).waveWriteCycle) ∧
    ((acquire 544 (noteOnThenTick toneEngine 0 60 waveFiveState)).chan 0).waveWriteCycle < 16 ∧
    (acquire 544 (noteOnThenTick toneEngine 0 60 waveFiveState)).regPool 10 = 126 ∧
    (acquire 544 (noteOnThenTick toneEngine 0 60 waveFiveState)).regPool 10 ≠
      255 - ((noteOnThenTick toneEngine 0 60 waveFiveState).chan 0).freq := by
  obtain ⟨n1, n2, n3⟩ := dispatch_noteOn_keyOn toneEngine 0 60 waveFiveState
  obtain ⟨r1, _, r3, r4, r5⟩ :=
    keyOn_tick_run toneEngine 0 (by decide) (dispatch toneEngine (noteOnCmd 0 60) waveFiveState).1
      n1 (by rw [n2]; rfl)
  have hf : ((noteOnThenTick toneEngine 0 60 waveFiveState).chan 0).freq = 75 := by
    unfold noteOnThenTick
    rw [r3]
    decide
  have hwv : ((noteOnThenTick toneEngine 0 60 waveFiveState).chan 0).wave = 5 := by
    unfold noteOnThenTick
    rw [(tick_pending toneEngine 0 _ (by decide)).2.2.2.2.2.1]
    decide
  have hreg : (acquire 544 (noteOnThenTick toneEngine 0 60 waveFiveState)).regPool 10 = 126 := by
    have := r5 543 (by norm_num)
    simp only [Nat.reduceAdd, Fin.val_zero] at this
    unfold noteOnThenTick at hwv ⊢
    rw [this, hwv]
    decide
  refine ⟨rfl, rfl, r1, hf, ?_, ?_, hreg, ?_⟩
  · intro k hk
    unfold noteOnThenTick
    rw [r4 k (by omega)]
    omega
  · unfold noteOnThenTick
    rw [r4 544 (by norm_num)]
    norm_num
  · rw [hreg, hf]
    decide

/-- C3: when the tick services an unmuted channel `i` whose `keyOn` is set at
that point (the channel as its macro phase leaves it), it clears `keyOn`; for a
tone voice it sets the counter to `137*16-1` whatever it was, sets
`hasWaveWrite`, and the only byte it may write to register `10+i` is the 0 of a
pending key-off, never `255 - freq`; for the fourth voice it writes `255 - freq`
to register 13 (followed by 0 when a key-off is pending too) and leaves the
counter unchanged. -/
theorem C3_keyOn_servicing (e : Engine) (s : State) (i : Fin 4)
    (hk : ((tickMacro e i s).chan i).keyOn = true) (hm : s.isMuted i = false) :
    ((tick e s).chan i).keyOn = false ∧
    (i.val < 3 →
      ((tick e s).chan i).waveWriteCycle = 137 * 16 - 1 ∧
      (tick e s).hasWaveWrite = true ∧
      writesAt (10 + i.val) (tick e s) =
        writesAt (10 + i.val) s ++
          (if (s.chan i).keyOff = true then [(10 + i.val, (0 : Int))] else []) ∧
      (10 + i.val, 255 - ((tick e s).chan i).freq) ∉
        (if (s.chan i).keyOff = true then [(10 + i.val, (0 : Int))] else [])) ∧
    (i.val = 3 →
      writesAt 13 (tick e s) =
        writesAt 13 s ++ [(13, 255 - ((tick e s).chan i).freq)] ++
          (if (s.chan i).keyOff = true then [(13, (0 : Int))] else []) ∧
      ((tick e s).chan i).waveWriteCycle = (s.chan i).waveWriteCycle) := by
  obtain ⟨p1, p2, _, _, p5, _, _, p8, _, p10⟩ := tick_pending e i s (by rw [hk]; simp)
  have hoff : ((tickMacro e i s).chan i).keyOff = (s.chan i).keyOff :=
    (tickMacro_self_fields e i s).2.1
  have hr := tickFreq_range e i ((tickMacro e i s).chan i)
  rw [hk, hm, hoff] at p10
  rw [hk, hm] at p5 p8
  refine ⟨p2, ?_, ?_⟩
  · intro hi
    refine ⟨?_, ?_, ?_, ?_⟩
    · rw [p5]; simp [hi]
    · exact p8 (by simp [hi])
    · rw [p10]; simp [hi]
    · rw [p1]
      split_ifs
      · simp only [List.mem_singleton, Prod.mk.injEq, true_and]
        omega
      · simp
  · intro hi
    have hi3 : ¬ i.val < 3 := by omega
    refine ⟨?_, ?_⟩
    · have h13 : 10 + i.val = 13 := by omega
      rw [h13] at p10
      rw [p10, p1, byte_of_inverted _ hr.1 hr.2]
      simp [hi3]
    · rw [p5]; simp [hi3]

theorem C3_keyOn_servicing_witness :
    ((((tickMacro toneEngine 0 keyedState0).chan 0).keyOn = true ∧
        keyedState0.isMuted 0 = false) ∧
      ((tick toneEngine keyedState0).chan 0).keyOn = false ∧
      ((tick toneEngine keyedState0).chan 0).waveWriteCycle = 137 * 16 - 1 ∧
      (tick toneEngine keyedState0).hasWaveWrite = true ∧
      writesAt (10 + (0 : Fin 4).val) (tick toneEngine keyedState0) =
        writesAt (10 + (0 : Fin 4).val) keyedState0 ++
          (if (keyedState0.chan 0).keyOff = true then [(10 + (0 : Fin 4).val, (0 : Int))]
           else [])) ∧
    ((((tickMacro toneEngine 3 keyedState3).chan 3).keyOn = true ∧
        keyedState3.isMuted 3 = false) ∧
      writesAt 13 (tick toneEngine keyedState3) =
        writesAt 13 keyedState3 ++ [(13, 255 - ((tick toneEngine keyedState3).chan 3).freq)] ++
          (if (keyedState3.chan 3).keyOff = true then [(13, (0 : Int))] else []) ∧
      ((tick toneEngine keyedState3).chan 3).waveWriteCycle =
        (keyedState3.chan 3).waveWriteCycle) :=
  ⟨⟨⟨by decide, by decide⟩,
      (C3_keyOn_servicing toneEngine keyedState0 0 (by decide) (by decide)).1,
      ((C3_keyOn_servicing toneEngine keyedState0 0 (by decide) (by decide)).2.1
        (by decide)).1,
      ((C3_keyOn_servicing toneEngine keyedState0 0 (by decide) (by decide)).2.1
        (by decide)).2.1,
      ((C3_keyOn_servicing toneEngine keyedState0 0 (by decide) (by decide)).2.1
        (by decide)).2.2.1⟩,
    ⟨⟨by decide, by decide⟩,
      (C3_keyOn_servicing toneEngine keyedState3 3 (by decide) (by decide)).2.2 rfl⟩⟩

theorem voiceShift_eq (i : Fin 4) : voiceShift i = if i.val < 3 then 2 - i.val else 1 := by
  revert i
  decide

theorem tickFreq_eq_clampReg (e : Engine) (i : Fin 4) (c : Channel) :
    tickFreq e i c = clampReg (e.calcFreq c.baseFreq c.pitch >>> voiceShift i) := by
  rw [voiceShift_eq]
  unfold tickFreq clampReg
  by_cases h : i.val < 3
  · simp only [h, if_true]
    split_ifs <;> first | rfl | omega
  · simp only [h, if_false]
    split_ifs <;> first | rfl | omega

/-- C4: whenever `freqChanged`, `keyOn` or `keyOff` is set for channel `i` when
the tick services it, the tick stores `freq = clampReg (m >> s_i)` with `m` the
frequency mapping of the channel's `baseFreq` and `pitch` and `s_i` = 2, 1, 0, 1;
the stored `freq` lies in 0..127 and `255 - freq` lies in 128..255. -/
theorem C4_frequency_derivation (e : Engine) (s : State) (i : Fin 4)
    (hp : (((tickMacro e i s).chan i).freqChanged || ((tickMacro e i s).chan i).keyOn ||
      ((tickMacro e i s).chan i).keyOff) = true) :
    ((tick e s).chan i).freq =
      clampReg (e.calcFreq ((tickMacro e i s).chan i).baseFreq ((tickMacro e i s).chan i).pitch
        >>> voiceShift i) ∧
    0 ≤ ((tick e s).chan i).freq ∧ ((tick e s).chan i).freq ≤ 127 ∧
    128 ≤ 255 - ((tick e s).chan i).freq ∧ 255 - ((tick e s).chan i).freq ≤ 255 := by
  have p1 := (tick_pending e i s hp).1
  have hr := tickFreq_range e i ((tickMacro e i s).chan i)
  rw [p1]
  refine ⟨tickFreq_eq_clampReg e i _, hr.1, hr.2, ?_, ?_⟩ <;> omega

theorem C4_frequency_derivation_witness :
    ((((tickMacro toneEngine 1 (dispatch toneEngine (noteOnCmd 1 60) restState).1).chan 1).freqChanged
        || ((tickMacro toneEngine 1 (dispatch toneEngine (noteOnCmd 1 60) restState).1).chan 1).keyOn
        || ((tickMacro toneEngine 1 (dispatch toneEngine (noteOnCmd 1 60) restState).1).chan 1).keyOff)
        = true) ∧
    (((tick toneEngine (dispatch toneEngine (noteOnCmd 1 60) restState).1).chan 1).freq =
      clampReg (toneEngine.calcFreq
        ((tickMacro toneEngine 1 (dispatch toneEngine (noteOnCmd 1 60) restState).1).chan 1).baseFreq
        ((tickMacro toneEngine 1 (dispatch toneEngine (noteOnCmd 1 60) restState).1).chan 1).pitch
        >>> voiceShift 1) ∧
    0 ≤ ((tick toneEngine (dispatch toneEngine (noteOnCmd 1 60) restState).1).chan 1).freq ∧
    ((tick toneEngine (dispatch toneEngine (noteOnCmd 1 60) restState).1).chan 1).freq ≤ 127 ∧
    128 ≤ 255 - ((tick toneEngine (dispatch toneEngine (noteOnCmd 1 60) restState).1).chan 1).freq ∧
    255 - ((tick toneEngine (dispatch toneEngine (noteOnCmd 1 60) restState).1).chan 1).freq ≤ 255) :=
  ⟨by decide,
    C4_frequency_derivation toneEngine (dispatch toneEngine (noteOnCmd 1 60) restState).1 1
      (by decide)⟩

theorem tickArp_noArp (e : Engine) (c : Channel) (ha : c.std.hadArp = false)
    (hb : (c.std.arpMode && c.std.finishedArp) = false) : tickArp e c = c := by
  unfold tickArp
  simp [ha, hb]

theorem dispatch_noteOn_fields (e : Engine) (ch : Fin 4) (n : Int) (s : State)
    (hn : n ≠ e.noteNull) :
    (((dispatch e (noteOnCmd ch n) s).1).chan ch).baseFreq = e.notePeriodic n ∧
    (((dispatch e (noteOnCmd ch n) s).1).chan ch).pitch = (s.chan ch).pitch ∧
    (((dispatch e (noteOnCmd ch n) s).1).chan ch).std =
      e.macroInit (some (s.chan ch).ins) (s.chan ch).std := by
  simp [dispatch, noteOnCmd, hn]

/-- The frequency stored by the tick that follows a `NoteOn` with a valid note,
when the macro sequencer reports no arpeggio on that tick. -/
theorem noteOn_tick_freq (e : Engine) (ch : Fin 4) (n : Int) (s : State)
    (hn : n ≠ e.noteNull)
    (ha : (macroAfterNoteOn e (s.chan ch)).hadArp = false)
    (hb : ((macroAfterNoteOn e (s.chan ch)).arpMode &&
      (macroAfterNoteOn e (s.chan ch)).finishedArp) = false) :
    ((noteOnThenTick e ch n s).chan ch).freq =
      clampReg (e.calcFreq (e.notePeriodic n) (s.chan ch).pitch >>> voiceShift ch) := by
  obtain ⟨k1, _, _⟩ := dispatch_noteOn_keyOn e ch n s
  obtain ⟨d1, d2, d3⟩ := dispatch_noteOn_fields e ch n s hn
  unfold noteOnThenTick
  generalize (dispatch e (noteOnCmd ch n) s).1 = sN at *
  have hk2 : ((tickMacro e ch sN).chan ch).keyOn = true := (tickMacro_self_fields e ch sN).1 k1
  have hp := (tick_pending e ch sN (by rw [hk2]; simp)).1
  have hpitch : ((tickMacro e ch sN).chan ch).pitch = (s.chan ch).pitch := by
    rw [(tickMacro_self_fields e ch sN).2.2.2.1, d2]
  have hbase : ((tickMacro e ch sN).chan ch).baseFreq = e.notePeriodic n := by
    rw [tickMacro_chan_self, (tickWave_fields _).2.2.2.2.1, tickArp_noArp]
    · exact d1
    · show (e.macroNext (sN.chan ch).std).hadArp = false
      rw [d3]; exact ha
    · show ((e.macroNext (sN.chan ch).std).arpMode &&
        (e.macroNext (sN.chan ch).std).finishedArp) = false
      rw [d3]; exact hb
  rw [hp, tickFreq_eq_clampReg, hbase, hpitch]

/-- C5 (as amended): for every channel and every valid note `n`, if the macro
sequencer reports no arpeggio on the tick after the `NoteOn`, the tick stores
`freq = clampReg (calcFreq (NOTE_PERIODIC n, pitch) >> s_ch)` with `pitch` the
pitch bend the channel held before the `NoteOn`; hence two runs from prior
states that agree on the channel's `pitch` end with the same `freq`, whatever
the previous note, `baseFreq`, `freq`, portamento flag, waveform and flags
were. -/
theorem C5_noteOn_freq_independent (e : Engine) (ch : Fin 4) (n : Int) (s1 s2 : State)
    (hn : n ≠ e.noteNull)
    (hpitch : (s1.chan ch).pitch = (s2.chan ch).pitch)
    (ha1 : (macroAfterNoteOn e (s1.chan ch)).hadArp = false)
    (hb1 : ((macroAfterNoteOn e (s1.chan ch)).arpMode &&
      (macroAfterNoteOn e (s1.chan ch)).finishedArp) = false)
    (ha2 : (macroAfterNoteOn e (s2.chan ch)).hadArp = false)
    (hb2 : ((macroAfterNoteOn e (s2.chan ch)).arpMode &&
      (macroAfterNoteOn e (s2.chan ch)).finishedArp) = false) :
    ((noteOnThenTick e ch n s1).chan ch).freq =
      clampReg (e.calcFreq (e.notePeriodic n) (s1.chan ch).pitch >>> voiceShift ch) ∧
    ((noteOnThenTick e ch n s2).chan ch).freq = ((noteOnThenTick e ch n s1).chan ch).freq := by
  have f1 := noteOn_tick_freq e ch n s1 hn ha1 hb1
  have f2 := noteOn_tick_freq e ch n s2 hn ha2 hb2
  refine ⟨f1, ?_⟩
  rw [f1, f2, hpitch]

theorem C5_noteOn_freq_independent_witness :
    ((60 : Int) ≠ toneEngine.noteNull ∧
      (restState.chan 0).pitch = (waveFiveState.chan 0).pitch ∧
      (macroAfterNoteOn toneEngine (restState.chan 0)).hadArp = false ∧
      ((macroAfterNoteOn toneEngine (restState.chan 0)).arpMode &&
        (macroAfterNoteOn toneEngine (restState.chan 0)).finishedArp) = false ∧
      (macroAfterNoteOn toneEngine (waveFiveState.chan 0)).hadArp = false ∧
      ((macroAfterNoteOn toneEngine (waveFiveState.chan 0)).arpMode &&
        (macroAfterNoteOn toneEngine (waveFiveState.chan 0)).finishedArp) = false) ∧
    (((noteOnThenTick toneEngine 0 60 restState).chan 0).freq =
      clampReg (toneEngine.calcFreq (toneEngine.notePeriodic 60) (restState.chan 0).pitch
        >>> voiceShift 0) ∧
    ((noteOnThenTick toneEngine 0 60 waveFiveState).chan 0).freq =
      ((noteOnThenTick toneEngine 0 60 restState).chan 0).freq) :=
  ⟨⟨by decide, rfl, rfl, rfl, rfl, rfl⟩,
    C5_noteOn_freq_independent toneEngine 0 60 restState waveFiveState (by decide) rfl rfl rfl
      rfl rfl⟩

/-- C5 (counterexample): with `toneEngine`, whose periodic frequency mapping
subtracts the pitch bend from the base value, `NoteOn(60)` and one tick on
channel 0 give `freq = 75` from the rest state and `freq = 50` from the state
reached by `SetPitch(100)`: two prior states that differ only in the channel's
`pitch` end with different `freq`. -/
theorem C5_counterexample :
    (60 : Int) ≠ toneEngine.noteNull ∧
    ((noteOnThenTick toneEngine 0 60 restState).chan 0).freq = 75 ∧
    ((noteOnThenTick toneEngine 0 60 (dispatch toneEngine (pitchCmd 0 100) restState).1).chan 0).freq
      = 50 ∧
    ((noteOnThenTick toneEngine 0 60 restState).chan 0).freq ≠
      ((noteOnThenTick toneEngine 0 60
        (dispatch toneEngine (pitchCmd 0 100) restState).1).chan 0).freq := by
  have f1 := noteOn_tick_freq toneEngine 0 60 restState (by decide) rfl rfl
  have f2 := noteOn_tick_freq toneEngine 0 60 (dispatch toneEngine (pitchCmd 0 100) restState).1
    (by decide) rfl rfl
  have v1 : ((noteOnThenTick toneEngine 0 60 restState).chan 0).freq = 75 := by
    rw [f1]; decide
  have v2 : ((noteOnThenTick toneEngine 0 60
      (dispatch toneEngine (pitchCmd 0 100) restState).1).chan 0).freq = 50 := by
    rw [f2]; decide
  refine ⟨by decide, v1, v2, ?_⟩
  rw [v1, v2]
  decide

/-! ## Volume -/

theorem wrap32_id (x : Int) (h : FitsInt x) : wrap32 x = x := by
  unfold FitsInt at h
  unfold wrap32
  omega

theorem wrap32_fits (x : Int) : FitsInt (wrap32 x) := by
  unfold FitsInt wrap32
  omega

theorem calcAndWriteOutVol_eff (ch : Fin 4) (env : Int) (s : State) :
    ((calcAndWriteOutVol ch env s).chan ch).outVol =
      MIN (Int.tdiv (wrap32 ((s.chan ch).vol * env)) 15) 15 ∧
    ((calcAndWriteOutVol ch env s).chan ch).vol = (s.chan ch).vol ∧
    (s.isMuted ch = false →
      (calcAndWriteOutVol ch env s).regPool 14 =
        MIN (Int.tdiv (wrap32 ((s.chan ch).vol * env)) 15) 15 % 256 ∧
      (calcAndWriteOutVol ch env s).writes =
        s.writes ++ [(14, MIN (Int.tdiv (wrap32 ((s.chan ch).vol * env)) 15) 15 % 256)]) ∧
    (s.isMuted ch = true →
      (calcAndWriteOutVol ch env s).regPool = s.regPool ∧
      (calcAndWriteOutVol ch env s).writes = s.writes) := by
  unfold calcAndWriteOutVol writeOutVol
  cases hm : s.isMuted ch <;> simp [hm]

theorem MIN_scaled (p : Int) (h : -15 < p) :
    MIN (Int.tdiv p 15) 15 = clampInt (Int.tdiv p 15) 0 15 ∧
    0 ≤ MIN (Int.tdiv p 15) 15 ∧ MIN (Int.tdiv p 15) 15 ≤ 15 := by
  have h0 : 0 ≤ Int.tdiv p 15 := by
    rcases le_or_lt 0 p with hp | hp
    · rw [Int.tdiv_eq_ediv hp (by norm_num)]
      omega
    · have : Int.tdiv p 15 = 0 := by
        have hneg : p = -(-p) := by ring
        rw [hneg, Int.neg_tdiv, Int.tdiv_eq_ediv (by omega) (by norm_num)]
        omega
      omega
  unfold MIN clampInt
  split_ifs <;> omega

/-- C6 (as amended): for every channel, stored volume `vol` and envelope value
`env` whose product `vol * env` is above -15 (in particular whenever neither is
negative) and fits a 32-bit `int`, `calcAndWriteOutVol(ch, env)` sets
`outVol = clamp(vol * env / 15, 0, 15)` with the division truncating, so
`outVol` lies in 0..15; when the channel is not muted that value is written to
register 14, and when it is muted the register pool and the byte stream are
left unchanged. -/
theorem C6_volume_scaling (ch : Fin 4) (env : Int) (s : State)
    (h : -15 < (s.chan ch).vol * env) (hfit : (s.chan ch).vol * env ≤ 2147483647) :
    ((calcAndWriteOutVol ch env s).chan ch).outVol =
      clampInt (Int.tdiv ((s.chan ch).vol * env) 15) 0 15 ∧
    0 ≤ ((calcAndWriteOutVol ch env s).chan ch).outVol ∧
    ((calcAndWriteOutVol ch env s).chan ch).outVol ≤ 15 ∧
    (s.isMuted ch = false →
      (calcAndWriteOutVol ch env s).regPool 14 = ((calcAndWriteOutVol ch env s).chan ch).outVol ∧
      (calcAndWriteOutVol ch env s).writes =
        s.writes ++ [(14, ((calcAndWriteOutVol ch env s).chan ch).outVol)]) ∧
    (s.isMuted ch = true →
      (calcAndWriteOutVol ch env s).regPool = s.regPool ∧
      (calcAndWriteOutVol ch env s).writes = s.writes) := by
  obtain ⟨e1, _, e3, e4⟩ := calcAndWriteOutVol_eff ch env s
  rw [wrap32_id _ ⟨by omega, hfit⟩] at e1 e3
  obtain ⟨m1, m2, m3⟩ := MIN_scaled _ h
  have hb : MIN (Int.tdiv ((s.chan ch).vol * env) 15) 15 % 256 =
      MIN (Int.tdiv ((s.chan ch).vol * env) 15) 15 := Int.emod_eq_of_lt m2 (by omega)
  rw [e1]
  refine ⟨m1, m2, m3, ?_, e4⟩
  intro hm
  rw [(e3 hm).1, (e3 hm).2, hb]
  exact ⟨rfl, rfl⟩

theorem C6_volume_scaling_witness :
    (-15 < (restState.chan 2).vol * 7 ∧ (restState.chan 2).vol * 7 ≤ 2147483647 ∧
      restState.isMuted 2 = false ∧
      ((calcAndWriteOutVol 2 7 restState).chan 2).outVol =
        clampInt (Int.tdiv ((restState.chan 2).vol * 7) 15) 0 15 ∧
      0 ≤ ((calcAndWriteOutVol 2 7 restState).chan 2).outVol ∧
      ((calcAndWriteOutVol 2 7 restState).chan 2).outVol ≤ 15 ∧
      (calcAndWriteOutVol 2 7 restState).regPool 14 =
        ((calcAndWriteOutVol 2 7 restState).chan 2).outVol ∧
      (calcAndWriteOutVol 2 7 restState).writes =
        restState.writes ++ [(14, ((calcAndWriteOutVol 2 7 restState).chan 2).outVol)]) ∧
    (-15 < ((muteChannel 2 true restState).chan 2).vol * 7 ∧
      ((muteChannel 2 true restState).chan 2).vol * 7 ≤ 2147483647 ∧
      (muteChannel 2 true restState).isMuted 2 = true ∧
      (calcAndWriteOutVol 2 7 (muteChannel 2 true restState)).regPool =
        (muteChannel 2 true restState).regPool ∧
      (calcAndWriteOutVol 2 7 (muteChannel 2 true restState)).writes =
        (muteChannel 2 true restState).writes) :=
  ⟨⟨by decide, by decide, rfl, (C6_volume_scaling 2 7 restState (by decide) (by decide)).1,
      (C6_volume_scaling 2 7 restState (by decide) (by decide)).2.1,
      (C6_volume_scaling 2 7 restState (by decide) (by decide)).2.2.1,
      (C6_volume_scaling 2 7 restState (by decide) (by decide)).2.2.2.1 rfl⟩,
    ⟨by decide, by decide, rfl,
      (C6_volume_scaling 2 7 (muteChannel 2 true restState) (by decide) (by decide)).2.2.2.2
        rfl⟩⟩

/-- C6 (counterexample): on the unmuted channel 0 of the rest state (volume 15)
the envelope value -1 gives `outVol = -1`, which is not `clamp(15 * -1 / 15, 0,
15) = 0` and is outside 0..15; the byte written to register 14 is 255.  On the
same channel the envelope value 200000000 gives the product 3000000000, which
is above -15 but does not fit a 32-bit `int`: the wrapped product is
-1294967296, `outVol = -86331153`, which is not `clamp(3000000000 / 15, 0, 15) =
15`, and the byte written to register 14 is 239. -/
theorem C6_counterexample :
    (restState.chan 0).vol = 15 ∧ restState.isMuted 0 = false ∧
    ((calcAndWriteOutVol 0 (-1) restState).chan 0).outVol = -1 ∧
    clampInt (Int.tdiv ((restState.chan 0).vol * (-1)) 15) 0 15 = 0 ∧
    ((calcAndWriteOutVol 0 (-1) restState).chan 0).outVol ≠
      clampInt (Int.tdiv ((restState.chan 0).vol * (-1)) 15) 0 15 ∧
    ¬ (0 ≤ ((calcAndWriteOutVol 0 (-1) restState).chan 0).outVol) ∧
    (calcAndWriteOutVol 0 (-1) restState).regPool 14 = 255 ∧
    -15 < (restState.chan 0).vol * 200000000 ∧
    ((calcAndWriteOutVol 0 200000000 restState).chan 0).outVol = -86331153 ∧
    clampInt (Int.tdiv ((restState.chan 0).vol * 200000000) 15) 0 15 = 15 ∧
    ¬ (0 ≤ ((calcAndWriteOutVol 0 200000000 restState).chan 0).outVol) ∧
    (calcAndWriteOutVol 0 200000000 restState).regPool 14 = 239 := by
  decide

theorem dispatch_volume_same (e : Engine) (ch : Fin 4) (v : Int) (s : State)
    (h : (s.chan ch).vol = v) : dispatch e (volumeCmd ch v) s = (s, 1) := by
  simp [dispatch, volumeCmd, h]

theorem dispatch_volume_new (e : Engine) (ch : Fin 4) (v : Int) (s : State)
    (h : (s.chan ch).vol ≠ v) (hh : (s.chan ch).std.hadVol = false) :
    dispatch e (volumeCmd ch v) s =
      (calcAndWriteOutVol ch 15 (setChan ch { s.chan ch with vol := v } s), 1) := by
  simp [dispatch, volumeCmd, h, hh]

/-- C7 (as amended): for every `v` in 0..15 and every state of an unmuted
channel whose macro sequencer is not driving volume, `SetVolume(v)` returns 1;
when `v` differs from the volume the channel holds, it returns with
`volume = v`, `outVol = v` and register 14 holding `v`, whatever register 14
held before; when the channel already holds volume `v`, the command changes
nothing (`outVol` and register 14 keep their values). -/
theorem C7_setVolume (e : Engine) (ch : Fin 4) (v : Int) (s : State)
    (hv0 : 0 ≤ v) (hv1 : v ≤ 15) (hm : s.isMuted ch = false)
    (hh : (s.chan ch).std.hadVol = false) :
    (dispatch e (volumeCmd ch v) s).2 = 1 ∧
    ((s.chan ch).vol ≠ v →
      (((dispatch e (volumeCmd ch v) s).1).chan ch).vol = v ∧
      (((dispatch e (volumeCmd ch v) s).1).chan ch).outVol = v ∧
      ((dispatch e (volumeCmd ch v) s).1).regPool 14 = v) ∧
    ((s.chan ch).vol = v → (dispatch e (volumeCmd ch v) s).1 = s) := by
  refine ⟨?_, ?_, ?_⟩
  · by_cases h : (s.chan ch).vol = v
    · rw [dispatch_volume_same e ch v s h]
    · rw [dispatch_volume_new e ch v s h hh]
  · intro h
    rw [dispatch_volume_new e ch v s h hh]
    obtain ⟨e1, e2, e3, _⟩ :=
      calcAndWriteOutVol_eff ch 15 (setChan ch { s.chan ch with vol := v } s)
    simp only [setChan_chan_self, setChan_isMuted] at e1 e2 e3
    rw [wrap32_id (v * 15) ⟨by omega, by omega⟩] at e1 e3
    have hmin : MIN (Int.tdiv (v * 15) 15) 15 = v := by
      have : Int.tdiv (v * 15) 15 = v := by
        rw [Int.tdiv_eq_ediv (by omega) (by norm_num)]
        omega
      rw [this]
      unfold MIN
      split_ifs <;> omega
    rw [hmin] at e1 e3
    refine ⟨e2, e1, ?_⟩
    rw [(e3 hm).1]
    exact Int.emod_eq_of_lt hv0 (by omega)
  · intro h
    rw [dispatch_volume_same e ch v s h]

theorem C7_setVolume_witness :
    (((0 : Int) ≤ 10 ∧ (10 : Int) ≤ 15 ∧ restState.isMuted 0 = false ∧
        (restState.chan 0).std.hadVol = false ∧ (restState.chan 0).vol ≠ 10) ∧
      (dispatch toneEngine (volumeCmd 0 10) restState).2 = 1 ∧
      (((dispatch toneEngine (volumeCmd 0 10) restState).1).chan 0).vol = 10 ∧
      (((dispatch toneEngine (volumeCmd 0 10) restState).1).chan 0).outVol = 10 ∧
      ((dispatch toneEngine (volumeCmd 0 10) restState).1).regPool 14 = 10) ∧
    ((sharedVolumeState.isMuted 0 = false ∧ (sharedVolumeState.chan 0).std.hadVol = false ∧
        (sharedVolumeState.chan 0).vol = 10) ∧
      (dispatch toneEngine (volumeCmd 0 10) sharedVolumeState).1 = sharedVolumeState) :=
  ⟨⟨⟨by decide, by decide, rfl, rfl, by decide⟩,
      (C7_setVolume toneEngine 0 10 restState (by decide) (by decide) rfl rfl).1,
      (C7_setVolume toneEngine 0 10 restState (by decide) (by decide) rfl rfl).2.1
        (by decide)⟩,
    ⟨⟨by decide, by decide, by decide⟩,
      (C7_setVolume toneEngine 0 10 sharedVolumeState (by decide) (by decide) (by decide)
        (by decide)).2.2 (by decide)⟩⟩

/-- C7 (counterexample): in the state reached from the rest state by
`SetVolume(10)` on channel 0 and `SetVolume(5)` on channel 1, channel 0 is
unmuted, its macro sequencer is not driving volume and it holds volume 10 while
register 14 holds 5; `SetVolume(10)` on channel 0 returns with register 14
still holding 5, not 10. -/
theorem C7_counterexample :
    sharedVolumeState.isMuted 0 = false ∧ (sharedVolumeState.chan 0).std.hadVol = false ∧
    (sharedVolumeState.chan 0).vol = 10 ∧ sharedVolumeState.regPool 14 = 5 ∧
    ((dispatch toneEngine (volumeCmd 0 10) sharedVolumeState).1).regPool 14 = 5 ∧
    ((dispatch toneEngine (volumeCmd 0 10) sharedVolumeState).1).regPool 14 ≠ 10 := by
  decide

/-! ## Portamento -/

/-- One `PortamentoTo` call, field by field. -/
theorem notePorta_step (e : Engine) (ch : Fin 4) (step target : Int) (s : State) :
    (((dispatch e (portaCmd ch step target) s).1).chan ch).baseFreq =
      (if e.notePeriodic target > (s.chan ch).baseFreq then
        (if wrap32 ((s.chan ch).baseFreq + step) ≥ e.notePeriodic target then
          e.notePeriodic target
         else wrap32 ((s.chan ch).baseFreq + step))
       else
        (if wrap32 ((s.chan ch).baseFreq - step) ≤ e.notePeriodic target then
          e.notePeriodic target
         else wrap32 ((s.chan ch).baseFreq - step))) ∧
    (dispatch e (portaCmd ch step target) s).2 =
      (if e.notePeriodic target > (s.chan ch).baseFreq then
        (if wrap32 ((s.chan ch).baseFreq + step) ≥ e.notePeriodic target then 2 else 1)
       else (if wrap32 ((s.chan ch).baseFreq - step) ≤ e.notePeriodic target then 2 else 1)) ∧
    (((dispatch e (portaCmd ch step target) s).1).chan ch).inPorta =
      (if e.notePeriodic target > (s.chan ch).baseFreq then
        (if wrap32 ((s.chan ch).baseFreq + step) ≥ e.notePeriodic target then false
         else (s.chan ch).inPorta)
       else
        (if wrap32 ((s.chan ch).baseFreq - step) ≤ e.notePeriodic target then false
         else (s.chan ch).inPorta)) ∧
    (((dispatch e (portaCmd ch step target) s).1).chan ch).freqChanged = true := by
  simp only [dispatch, portaCmd, notePorta]
  by_cases h1 : e.notePeriodic target > (s.chan ch).baseFreq
  · by_cases h2 : wrap32 ((s.chan ch).baseFreq + step) ≥ e.notePeriodic target <;>
      simp [h1, h2]
  · by_cases h2 : wrap32 ((s.chan ch).baseFreq - step) ≤ e.notePeriodic target <;>
      simp [h1, h2]

/-- One `PortamentoTo` call whose sum or difference fits a 32-bit `int`. -/
theorem notePorta_exact (e : Engine) (ch : Fin 4) (step target : Int) (s : State)
    (hup : e.notePeriodic target > (s.chan ch).baseFreq → FitsInt ((s.chan ch).baseFreq + step))
    (hdown : ¬ e.notePeriodic target > (s.chan ch).baseFreq →
      FitsInt ((s.chan ch).baseFreq - step)) :
    (((dispatch e (portaCmd ch step target) s).1).chan ch).baseFreq =
      (if e.notePeriodic target > (s.chan ch).baseFreq then
        (if (s.chan ch).baseFreq + step ≥ e.notePeriodic target then e.notePeriodic target
         else (s.chan ch).baseFreq + step)
       else
        (if (s.chan ch).baseFreq - step ≤ e.notePeriodic target then e.notePeriodic target
         else (s.chan ch).baseFreq - step)) ∧
    (dispatch e (portaCmd ch step target) s).2 =
      (if e.notePeriodic target > (s.chan ch).baseFreq then
        (if (s.chan ch).baseFreq + step ≥ e.notePeriodic target then 2 else 1)
       else (if (s.chan ch).baseFreq - step ≤ e.notePeriodic target then 2 else 1)) ∧
    (((dispatch e (portaCmd ch step target) s).1).chan ch).inPorta =
      (if e.notePeriodic target > (s.chan ch).baseFreq then
        (if (s.chan ch).baseFreq + step ≥ e.notePeriodic target then false
         else (s.chan ch).inPorta)
       else
        (if (s.chan ch).baseFreq - step ≤ e.notePeriodic target then false
         else (s.chan ch).inPorta)) ∧
    (((dispatch e (portaCmd ch step target) s).1).chan ch).freqChanged = true := by
  obtain ⟨h1, h2, h3, h4⟩ := notePorta_step e ch step target s
  by_cases hd : e.notePeriodic target > (s.chan ch).baseFreq
  · rw [wrap32_id _ (hup hd)] at h1 h2 h3
    simp only [hd, if_true] at h1 h2 h3 ⊢
    exact ⟨h1, h2, h3, h4⟩
  · rw [wrap32_id _ (hdown hd)] at h1 h2 h3
    simp only [hd, if_false] at h1 h2 h3 ⊢
    exact ⟨h1, h2, h3, h4⟩

/-- C8 (as amended): one `PortamentoTo(s, target)` with `s >= 0` whose sum
`b + s` (when the target frequency `d` is above `baseFreq = b`) or difference
`b - s` (otherwise) fits a 32-bit `int` leaves `baseFreq = b'` between `b` and
`d` inclusive, with `|d - b'| = max(0, |d - b| - s)`; it returns 2 exactly when
`b' = d`, and then `inPorta` is cleared; otherwise it returns 1 and `inPorta` is
unchanged; in both cases `freqChanged` is set. -/
theorem C8_portamento_step (e : Engine) (ch : Fin 4) (step target : Int) (s : State)
    (hs : 0 ≤ step)
    (hup : e.notePeriodic target > (s.chan ch).baseFreq → FitsInt ((s.chan ch).baseFreq + step))
    (hdown : ¬ e.notePeriodic target > (s.chan ch).baseFreq →
      FitsInt ((s.chan ch).baseFreq - step)) :
    min (s.chan ch).baseFreq (e.notePeriodic target) ≤
      (((dispatch e (portaCmd ch step target) s).1).chan ch).baseFreq ∧
    (((dispatch e (portaCmd ch step target) s).1).chan ch).baseFreq ≤
      max (s.chan ch).baseFreq (e.notePeriodic target) ∧
    |e.notePeriodic target - (((dispatch e (portaCmd ch step target) s).1).chan ch).baseFreq| =
      max 0 (|e.notePeriodic target - (s.chan ch).baseFreq| - step) ∧
    ((dispatch e (portaCmd ch step target) s).2 = 2 ↔
      (((dispatch e (portaCmd ch step target) s).1).chan ch).baseFreq = e.notePeriodic target) ∧
    ((((dispatch e (portaCmd ch step target) s).1).chan ch).baseFreq = e.notePeriodic target →
      (dispatch e (portaCmd ch step target) s).2 = 2 ∧
      (((dispatch e (portaCmd ch step target) s).1).chan ch).inPorta = false) ∧
    ((((dispatch e (portaCmd ch step target) s).1).chan ch).baseFreq ≠ e.notePeriodic target →
      (dispatch e (portaCmd ch step target) s).2 = 1 ∧
      (((dispatch e (portaCmd ch step target) s).1).chan ch).inPorta = (s.chan ch).inPorta) ∧
    (((dispatch e (portaCmd ch step target) s).1).chan ch).freqChanged = true := by
  obtain ⟨h1, h2, h3, h4⟩ := notePorta_exact e ch step target s hup hdown
  rw [h1, h2, h3]
  refine ⟨?_, ?_, ?_, ?_, ?_, ?_, h4⟩
  · split_ifs <;> omega
  · split_ifs <;> omega
  · simp only [abs_eq_max_neg]
    split_ifs <;> omega
  · split_ifs <;> constructor <;> intro h <;> omega
  · split_ifs <;> intro h <;> first | exact ⟨rfl, rfl⟩ | omega
  · split_ifs <;> intro h <;> first | exact ⟨rfl, rfl⟩ | omega

theorem C8_portamento_step_witness :
    (((0 : Int) ≤ 7 ∧
        (toneEngine.notePeriodic 100 > (restState.chan 0).baseFreq →
          FitsInt ((restState.chan 0).baseFreq + 7)) ∧
        (¬ toneEngine.notePeriodic 100 > (restState.chan 0).baseFreq →
          FitsInt ((restState.chan 0).baseFreq - 7))) ∧
      (((dispatch toneEngine (portaCmd 0 7 100) restState).1).chan 0).baseFreq ≠
        toneEngine.notePeriodic 100 ∧
      |toneEngine.notePeriodic 100 -
          (((dispatch toneEngine (portaCmd 0 7 100) restState).1).chan 0).baseFreq| =
        max 0 (|toneEngine.notePeriodic 100 - (restState.chan 0).baseFreq| - 7) ∧
      (dispatch toneEngine (portaCmd 0 7 100) restState).2 = 1 ∧
      (((dispatch toneEngine (portaCmd 0 7 100) restState).1).chan 0).inPorta =
        (restState.chan 0).inPorta) ∧
    ((0 : Int) ≤ 200 ∧
      (((dispatch toneEngine (portaCmd 0 200 100) restState).1).chan 0).baseFreq =
        toneEngine.notePeriodic 100 ∧
      (dispatch toneEngine (portaCmd 0 200 100) restState).2 = 2 ∧
      (((dispatch toneEngine (portaCmd 0 200 100) restState).1).chan 0).inPorta = false) :=
  ⟨⟨⟨by decide, fun _ => by unfold FitsInt; decide, fun _ => by unfold FitsInt; decide⟩,
      by decide,
      (C8_portamento_step toneEngine 0 7 100 restState (by decide)
        (fun _ => by unfold FitsInt; decide) (fun _ => by unfold FitsInt; decide)).2.2.1,
      (C8_portamento_step toneEngine 0 7 100 restState (by decide)
        (fun _ => by unfold FitsInt; decide)
        (fun _ => by unfold FitsInt; decide)).2.2.2.2.2.1 (by decide)⟩,
    ⟨by decide, by decide,
      (C8_portamento_step toneEngine 0 200 100 restState (by decide)
        (fun _ => by unfold FitsInt; decide)
        (fun _ => by unfold FitsInt; decide)).2.2.2.2.1 (by decide)⟩⟩

/-- C8 (counterexample): channel 0 holds `baseFreq = 300` after `NoteOn(60)`,
the target note 40 has frequency 400 and the step is 2147483647, which is not
negative: the 32-bit sum `300 + 2147483647` wraps to -2147483349, which is
below the target, so the call returns 1 and leaves `baseFreq = -2147483349`,
outside the range from 300 to 400. -/
theorem C8_counterexample :
    (keyedState0.chan 0).baseFreq = 300 ∧ toneEngine.notePeriodic 40 = 400 ∧
    (0 : Int) ≤ 2147483647 ∧
    (((dispatch toneEngine (portaCmd 0 2147483647 40) keyedState0).1).chan 0).baseFreq =
      -2147483349 ∧
    (dispatch toneEngine (portaCmd 0 2147483647 40) keyedState0).2 = 1 ∧
    ¬ (min (keyedState0.chan 0).baseFreq (toneEngine.notePeriodic 40) ≤
      (((dispatch toneEngine (portaCmd 0 2147483647 40) keyedState0).1).chan 0).baseFreq) := by
  decide

theorem portaRun_succ_right (e : Engine) (c : DivCommand) (n : Nat) (s : State) :
    portaRun e c (n + 1) s = (dispatch e c (portaRun e c n s)).1 := by
  induction n generalizing s with
  | zero => rfl
  | succ k ih =>
    show portaRun e c (k + 1) (dispatch e c s).1 = _
    rw [ih]
    rfl

/-- One `PortamentoTo` call whose sum or difference fits a 32-bit `int`: the
distance to the target, the position of the new `baseFreq`, and when the call
reports 2. -/
theorem notePorta_dist (e : Engine) (ch : Fin 4) (step target : Int) (s : State)
    (hs : 0 ≤ step)
    (hup : e.notePeriodic target > (s.chan ch).baseFreq → FitsInt ((s.chan ch).baseFreq + step))
    (hdown : ¬ e.notePeriodic target > (s.chan ch).baseFreq →
      FitsInt ((s.chan ch).baseFreq - step)) :
    |e.notePeriodic target - (((dispatch e (portaCmd ch step target) s).1).chan ch).baseFreq| =
      max 0 (|e.notePeriodic target - (s.chan ch).baseFreq| - step) ∧
    ((dispatch e (portaCmd ch step target) s).2 = 2 ↔
      (((dispatch e (portaCmd ch step target) s).1).chan ch).baseFreq = e.notePeriodic target) ∧
    ((dispatch e (portaCmd ch step target) s).2 = 1 ∨
      (dispatch e (portaCmd ch step target) s).2 = 2) ∧
    min (s.chan ch).baseFreq (e.notePeriodic target) ≤
      (((dispatch e (portaCmd ch step target) s).1).chan ch).baseFreq ∧
    (((dispatch e (portaCmd ch step target) s).1).chan ch).baseFreq ≤
      max (s.chan ch).baseFreq (e.notePeriodic target) := by
  obtain ⟨h1, h2, _, _⟩ := notePorta_exact e ch step target s hup hdown
  rw [h1, h2]
  refine ⟨?_, ?_, ?_, ?_, ?_⟩
  · simp only [abs_eq_max_neg]
    split_ifs <;> omega
  · split_ifs <;> constructor <;> intro h <;> omega
  · split_ifs <;> simp
  · split_ifs <;> omega
  · split_ifs <;> omega

theorem portaFreq_succ (e : Engine) (ch : Fin 4) (step target : Int) (k : Nat) (s : State) :
    portaFreq e ch step target (k + 1) s =
      (((dispatch e (portaCmd ch step target)
        (portaRun e (portaCmd ch step target) k s)).1).chan ch).baseFreq := by
  unfold portaFreq
  rw [portaRun_succ_right]

/-- When the starting `baseFreq`, the target frequency minus the step and the
target frequency plus the step fit a 32-bit `int`, a `baseFreq` between the
start and the target gives a sum or difference that fits. -/
theorem porta_fits (b d x step : Int) (hs : 0 ≤ step) (hb : FitsInt b)
    (hlo : FitsInt (d - step)) (hhi : FitsInt (d + step))
    (h1 : min b d ≤ x) (h2 : x ≤ max b d) :
    (d > x → FitsInt (x + step)) ∧ (¬ d > x → FitsInt (x - step)) := by
  unfold FitsInt at *
  constructor <;> intro _ <;> constructor <;> omega

/-- When the starting `baseFreq`, the target frequency minus the step and the
target frequency plus the step fit a 32-bit `int`: after `k` calls `baseFreq` is
between the start and the target, at the distance `max(0, |d - b| - k * step)`
from the target. -/
theorem portaFreq_between (e : Engine) (ch : Fin 4) (step target : Int) (s : State)
    (hs : 0 ≤ step) (hb : FitsInt (s.chan ch).baseFreq)
    (hlo : FitsInt (e.notePeriodic target - step))
    (hhi : FitsInt (e.notePeriodic target + step)) (k : Nat) :
    min (s.chan ch).baseFreq (e.notePeriodic target) ≤ portaFreq e ch step target k s ∧
    portaFreq e ch step target k s ≤ max (s.chan ch).baseFreq (e.notePeriodic target) ∧
    |e.notePeriodic target - portaFreq e ch step target k s| =
      max 0 (|e.notePeriodic target - (s.chan ch).baseFreq| - (k : Int) * step) := by
  induction k with
  | zero =>
    have : 0 ≤ |e.notePeriodic target - (s.chan ch).baseFreq| := abs_nonneg _
    simp only [portaFreq, portaRun, Nat.cast_zero, zero_mul, sub_zero]
    refine ⟨?_, ?_, ?_⟩ <;> omega
  | succ n ih =>
    obtain ⟨i1, i2, i3⟩ := ih
    have i1b : min (s.chan ch).baseFreq (e.notePeriodic target) ≤
        ((portaRun e (portaCmd ch step target) n s).chan ch).baseFreq := i1
    have i2b : ((portaRun e (portaCmd ch step target) n s).chan ch).baseFreq ≤
        max (s.chan ch).baseFreq (e.notePeriodic target) := i2
    have i3b : |e.notePeriodic target -
        ((portaRun e (portaCmd ch step target) n s).chan ch).baseFreq| =
        max 0 (|e.notePeriodic target - (s.chan ch).baseFreq| - (n : Int) * step) := i3
    obtain ⟨f1, f2⟩ := porta_fits _ _ _ step hs hb hlo hhi i1b i2b
    obtain ⟨d1, _, _, d4, d5⟩ :=
      notePorta_dist e ch step target (portaRun e (portaCmd ch step target) n s) hs f1 f2
    rw [portaFreq_succ, d1, i3b]
    have hmul : ((n + 1 : Nat) : Int) * step = (n : Int) * step + step := by
      push_cast; ring
    rw [hmul]
    refine ⟨?_, ?_, ?_⟩ <;> omega

/-- When the starting `baseFreq`, the target frequency minus the step and the
target frequency plus the step fit a 32-bit `int`, no call of the run
overflows. -/
theorem porta_run_fits (e : Engine) (ch : Fin 4) (step target : Int) (s : State)
    (hs : 0 ≤ step) (hb : FitsInt (s.chan ch).baseFreq)
    (hlo : FitsInt (e.notePeriodic target - step))
    (hhi : FitsInt (e.notePeriodic target + step)) (k : Nat) :
    (e.notePeriodic target > portaFreq e ch step target k s →
      FitsInt (portaFreq e ch step target k s + step)) ∧
    (¬ e.notePeriodic target > portaFreq e ch step target k s →
      FitsInt (portaFreq e ch step target k s - step)) := by
  obtain ⟨i1, i2, _⟩ := portaFreq_between e ch step target s hs hb hlo hhi k
  exact porta_fits _ _ _ step hs hb hlo hhi i1 i2

/-- The distance to the target after `k` calls, when none of the calls
overflows. -/
theorem portaFreq_dist (e : Engine) (ch : Fin 4) (step target : Int) (s : State)
    (hs : 0 ≤ step)
    (hno : ∀ j : Nat,
      (e.notePeriodic target > portaFreq e ch step target j s →
        FitsInt (portaFreq e ch step target j s + step)) ∧
      (¬ e.notePeriodic target > portaFreq e ch step target j s →
        FitsInt (portaFreq e ch step target j s - step))) (k : Nat) :
    |e.notePeriodic target - portaFreq e ch step target k s| =
      max 0 (|e.notePeriodic target - (s.chan ch).baseFreq| - (k : Int) * step) := by
  induction k with
  | zero =>
    have : 0 ≤ |e.notePeriodic target - (s.chan ch).baseFreq| := abs_nonneg _
    simp only [portaFreq, portaRun, Nat.cast_zero, zero_mul, sub_zero]
    omega
  | succ n ih =>
    have i3b : |e.notePeriodic target -
        ((portaRun e (portaCmd ch step target) n s).chan ch).baseFreq| =
        max 0 (|e.notePeriodic target - (s.chan ch).baseFreq| - (n : Int) * step) := ih
    obtain ⟨d1, _, _, _, _⟩ :=
      notePorta_dist e ch step target (portaRun e (portaCmd ch step target) n s) hs
        (hno n).1 (hno n).2
    rw [portaFreq_succ, d1, i3b]
    have hmul : ((n + 1 : Nat) : Int) * step = (n : Int) * step + step := by
      push_cast; ring
    rw [hmul]
    omega

theorem portaBound_spec (dist step : Int) (hd : 0 ≤ dist) (hs : 1 ≤ step) :
    dist ≤ (portaBound dist step : Int) * step ∧
    (∀ k : Nat, k + 1 < portaBound dist step → ((k : Int) + 1) * step < dist) ∧
    1 ≤ portaBound dist step := by
  have hq0 : 0 ≤ (dist + step - 1) / step := Int.ediv_nonneg (by omega) (by omega)
  have hq1 : (dist + step - 1) / step * step ≤ dist + step - 1 :=
    Int.ediv_mul_le _ (by omega)
  have hq2 : dist + step - 1 < ((dist + step - 1) / step + 1) * step :=
    Int.lt_ediv_add_one_mul_self _ (by omega)
  have hN : (portaBound dist step : Int) = max 1 ((dist + step - 1) / step) := by
    unfold portaBound
    rw [Nat.cast_max, Int.toNat_of_nonneg hq0]
    rfl
  generalize (dist + step - 1) / step = q at *
  refine ⟨?_, ?_, ?_⟩
  · rw [hN]
    have : q * step ≤ max 1 q * step :=
      Int.mul_le_mul_of_nonneg_right (le_max_right 1 q) (by omega)
    have h3 : (q + 1) * step = q * step + step := by ring
    omega
  · intro k hk
    have hk2 : ((k : Int) + 1) < max 1 q := by
      rw [← hN]
      exact_mod_cast hk
    have hk3 : (k : Int) + 1 ≤ q - 1 := by omega
    have : ((k : Int) + 1) * step ≤ (q - 1) * step :=
      Int.mul_le_mul_of_nonneg_right hk3 (by omega)
    have h3 : (q - 1) * step = q * step - step := by ring
    omega
  · unfold portaBound
    exact le_max_left _ _

/-- C9 (as amended): for every starting `baseFreq = b`, target frequency `d`
and `step >= 1` such that no call of the run overflows (the sum
`baseFreq + step` of a call made with `baseFreq` below `d`, and the difference
`baseFreq - step` of a call made otherwise, fit a 32-bit `int`), with
`N = max(1, ceil(|d - b| / step))`: every call of `PortamentoTo(step, target)`
made while `baseFreq` differs from `d` makes `|d - baseFreq|` strictly smaller;
after `N` calls (and after any larger number) `baseFreq = d`; each of the first
`N - 1` calls returns 1 and leaves `baseFreq` different from `d`; call number
`N` returns 2. -/
theorem C9_portamento_terminates (e : Engine) (ch : Fin 4) (step target : Int) (s : State)
    (hs : 1 ≤ step)
    (hno : ∀ j : Nat,
      (e.notePeriodic target > portaFreq e ch step target j s →
        FitsInt (portaFreq e ch step target j s + step)) ∧
      (¬ e.notePeriodic target > portaFreq e ch step target j s →
        FitsInt (portaFreq e ch step target j s - step))) :
    (∀ k : Nat, portaFreq e ch step target k s ≠ e.notePeriodic target →
      |e.notePeriodic target - portaFreq e ch step target (k + 1) s| <
        |e.notePeriodic target - portaFreq e ch step target k s|) ∧
    (∀ k : Nat, portaBound |e.notePeriodic target - (s.chan ch).baseFreq| step ≤ k →
      portaFreq e ch step target k s = e.notePeriodic target) ∧
    (∀ k : Nat, k + 1 < portaBound |e.notePeriodic target - (s.chan ch).baseFreq| step →
      portaCode e ch step target k s = 1 ∧
      portaFreq e ch step target (k + 1) s ≠ e.notePeriodic target) ∧
    portaCode e ch step target
      (portaBound |e.notePeriodic target - (s.chan ch).baseFreq| step - 1) s = 2 := by
  have hs0 : 0 ≤ step := by omega
  obtain ⟨b1, b2, b3⟩ :=
    portaBound_spec |e.notePeriodic target - (s.chan ch).baseFreq| step (abs_nonneg _) hs
  have stepAt : ∀ k : Nat,
      |e.notePeriodic target - portaFreq e ch step target (k + 1) s| =
        max 0 (|e.notePeriodic target - portaFreq e ch step target k s| - step) ∧
      (portaCode e ch step target k s = 2 ↔
        portaFreq e ch step target (k + 1) s = e.notePeriodic target) ∧
      (portaCode e ch step target k s = 1 ∨ portaCode e ch step target k s = 2) := by
    intro k
    obtain ⟨d1, d2, d3, _, _⟩ :=
      notePorta_dist e ch step target (portaRun e (portaCmd ch step target) k s) hs0
        (hno k).1 (hno k).2
    rw [portaFreq_succ]
    exact ⟨d1, d2, d3⟩
  have reach : ∀ k : Nat, portaBound |e.notePeriodic target - (s.chan ch).baseFreq| step ≤ k →
      portaFreq e ch step target k s = e.notePeriodic target := by
    intro k hk
    have hd := portaFreq_dist e ch step target s hs0 hno k
    have hk2 : (portaBound |e.notePeriodic target - (s.chan ch).baseFreq| step : Int) * step ≤
        (k : Int) * step :=
      Int.mul_le_mul_of_nonneg_right (by exact_mod_cast hk) hs0
    have hz : |e.notePeriodic target - portaFreq e ch step target k s| = 0 := by
      rw [hd]; omega
    have := abs_eq_zero.mp hz
    omega
  refine ⟨?_, reach, ?_, ?_⟩
  · intro k hne
    rw [(stepAt k).1]
    have hpos : 0 < |e.notePeriodic target - portaFreq e ch step target k s| := by
      apply abs_pos.mpr
      intro h
      apply hne
      omega
    omega
  · intro k hk
    have hd := portaFreq_dist e ch step target s hs0 hno (k + 1)
    have hlt := b2 k hk
    have hne : portaFreq e ch step target (k + 1) s ≠ e.notePeriodic target := by
      intro h
      rw [h, sub_self, abs_zero] at hd
      push_cast at hd
      omega
    refine ⟨?_, hne⟩
    obtain ⟨_, c2, c3⟩ := stepAt k
    rcases c3 with h | h
    · exact h
    · exact absurd (c2.mp h) hne
  · rw [(stepAt _).2.1]
    apply reach
    omega

theorem C9_portamento_terminates_witness :
    ((1 : Int) ≤ 7 ∧
      ∀ j : Nat,
        (toneEngine.notePeriodic 100 > portaFreq toneEngine 0 7 100 j restState →
          FitsInt (portaFreq toneEngine 0 7 100 j restState + 7)) ∧
        (¬ toneEngine.notePeriodic 100 > portaFreq toneEngine 0 7 100 j restState →
          FitsInt (portaFreq toneEngine 0 7 100 j restState - 7))) ∧
    portaBound |toneEngine.notePeriodic 100 - (restState.chan 0).baseFreq| 7 = 15 ∧
    portaFreq toneEngine 0 7 100 0 restState ≠ toneEngine.notePeriodic 100 ∧
    |toneEngine.notePeriodic 100 - portaFreq toneEngine 0 7 100 (0 + 1) restState| <
      |toneEngine.notePeriodic 100 - portaFreq toneEngine 0 7 100 0 restState| ∧
    portaFreq toneEngine 0 7 100 15 restState = toneEngine.notePeriodic 100 ∧
    (portaCode toneEngine 0 7 100 13 restState = 1 ∧
      portaFreq toneEngine 0 7 100 (13 + 1) restState ≠ toneEngine.notePeriodic 100) ∧
    portaCode toneEngine 0 7 100
      (portaBound |toneEngine.notePeriodic 100 - (restState.chan 0).baseFreq| 7 - 1) restState
      = 2 :=
  ⟨⟨by decide,
      porta_run_fits toneEngine 0 7 100 restState (by decide) (by unfold FitsInt; decide)
        (by unfold FitsInt; decide) (by unfold FitsInt; decide)⟩,
    by decide, by decide,
    (C9_portamento_terminates toneEngine 0 7 100 restState (by decide)
      (porta_run_fits toneEngine 0 7 100 restState (by decide) (by unfold FitsInt; decide)
        (by unfold FitsInt; decide) (by unfold FitsInt; decide))).1 0 (by decide),
    (C9_portamento_terminates toneEngine 0 7 100 restState (by decide)
      (porta_run_fits toneEngine 0 7 100 restState (by decide) (by unfold FitsInt; decide)
        (by unfold FitsInt; decide) (by unfold FitsInt; decide))).2.1 15 (by decide),
    (C9_portamento_terminates toneEngine 0 7 100 restState (by decide)
      (porta_run_fits toneEngine 0 7 100 restState (by decide) (by unfold FitsInt; decide)
        (by unfold FitsInt; decide) (by unfold FitsInt; decide))).2.2.1 13 (by decide),
    (C9_portamento_terminates toneEngine 0 7 100 restState (by decide)
      (porta_run_fits toneEngine 0 7 100 restState (by decide) (by unfold FitsInt; decide)
        (by unfold FitsInt; decide) (by unfold FitsInt; decide))).2.2.2⟩

/-- C9 (counterexample): with the engine `wideEngine`, whose note periods lie
just below the largest 32-bit `int`, channel 0 holds `baseFreq = 2147483000`
after `NoteOn(0)`, the target note 60 has frequency 2147483600 and the step is
1000: the bound is `max(1, ceil(600 / 1000)) = 1`, but the 32-bit sum of the
first call wraps to -2147483296, so that call returns 1 and not 2, `baseFreq`
has not reached the target, and its distance to the target has grown from 600
to 4294966896. -/
theorem C9_counterexample :
    (1 : Int) ≤ 1000 ∧
    (wideKeyedState.chan 0).baseFreq = 2147483000 ∧ wideEngine.notePeriodic 60 = 2147483600 ∧
    portaBound |wideEngine.notePeriodic 60 - (wideKeyedState.chan 0).baseFreq| 1000 = 1 ∧
    portaFreq wideEngine 0 1000 60 0 wideKeyedState ≠ wideEngine.notePeriodic 60 ∧
    portaFreq wideEngine 0 1000 60 1 wideKeyedState = -2147483296 ∧
    portaCode wideEngine 0 1000 60 0 wideKeyedState = 1 ∧
    portaFreq wideEngine 0 1000 60 1 wideKeyedState ≠ wideEngine.notePeriodic 60 ∧
    ¬ (|wideEngine.notePeriodic 60 - portaFreq wideEngine 0 1000 60 1 wideKeyedState| <
      |wideEngine.notePeriodic 60 - portaFreq wideEngine 0 1000 60 0 wideKeyedState|) := by
  decide

/-! ## Key-off -/

/-- C10: `NoteOff(ch)` and `muteChannel(ch, true)` each leave `keyOff` set for
channel `ch`; a tick that starts with `keyOff` set for `ch` ends with register
`10+ch` holding 0 and `keyOff` cleared, and the bytes the tick hands to that
register end with the 0, whatever else was pending. -/
theorem C10_keyOff_servicing (e : Engine) (ch : Fin 4) (s : State) :
    (((dispatch e (noteOffCmd ch) s).1).chan ch).keyOff = true ∧
    ((muteChannel ch true s).chan ch).keyOff = true ∧
    ((s.chan ch).keyOff = true →
      (tick e s).regPool (10 + ch.val) = 0 ∧
      ((tick e s).chan ch).keyOff = false ∧
      ∃ ws : List (Nat × Int),
        writesAt (10 + ch.val) (tick e s) =
          writesAt (10 + ch.val) s ++ ws ++ [(10 + ch.val, 0)]) := by
  refine ⟨?_, ?_, ?_⟩
  · simp [dispatch, noteOffCmd]
  · simp [muteChannel]
  · intro hk
    have hoff : ((tickMacro e ch s).chan ch).keyOff = true := by
      rw [(tickMacro_self_fields e ch s).2.1, hk]
    obtain ⟨_, _, p3, _, _, _, _, _, p9, p10⟩ := tick_pending e ch s (by rw [hoff]; simp)
    rw [hoff] at p9 p10
    refine ⟨?_, p3, ?_⟩
    · rw [p9]; simp
    · rw [p10]
      simp only [if_true]
      exact ⟨_, rfl⟩

theorem C10_keyOff_servicing_witness :
    (((dispatch toneEngine (noteOffCmd 3) armedState).1).chan 3).keyOff = true ∧
    ((muteChannel 3 true armedState).chan 3).keyOff = true ∧
    (tick toneEngine (muteChannel 3 true armedState)).regPool (10 + (3 : Fin 4).val) = 0 ∧
    ((tick toneEngine (muteChannel 3 true armedState)).chan 3).keyOff = false ∧
    ∃ ws : List (Nat × Int),
      writesAt (10 + (3 : Fin 4).val) (tick toneEngine (muteChannel 3 true armedState)) =
        writesAt (10 + (3 : Fin 4).val) (muteChannel 3 true armedState) ++ ws ++
          [(10 + (3 : Fin 4).val, 0)] :=
  ⟨(C10_keyOff_servicing toneEngine 3 armedState).1,
    (C10_keyOff_servicing toneEngine 3 armedState).2.1,
    (C10_keyOff_servicing toneEngine 3 (muteChannel 3 true armedState)).2.2 (by decide)⟩

/-! ## The dispatcher and the mute control as state transformers -/

theorem calcAndWriteOutVol_frame (ch : Fin 4) (env : Int) (s : State) :
    (calcAndWriteOutVol ch env s).isMuted = s.isMuted ∧
    (calcAndWriteOutVol ch env s).hasWaveWrite = s.hasWaveWrite ∧
    (∀ j : Fin 4, ((calcAndWriteOutVol ch env s).chan j).waveWriteCycle =
      (s.chan j).waveWriteCycle ∧
      ((calcAndWriteOutVol ch env s).chan j).wave = (s.chan j).wave) ∧
    (∀ a : Nat, a ≠ 14 → (calcAndWriteOutVol ch env s).regPool a = s.regPool a ∧
      writesAt a (calcAndWriteOutVol ch env s) = writesAt a s) := by
  unfold calcAndWriteOutVol
  refine ⟨?_, ?_, ?_, ?_⟩
  · rw [writeOutVol_isMuted]; rfl
  · rw [writeOutVol_hasWaveWrite]; rfl
  · intro j
    rw [writeOutVol_chan]
    by_cases h : j = ch
    · subst h; simp
    · rw [setChan_chan_ne _ _ _ _ h]
      exact ⟨rfl, rfl⟩
  · intro a ha
    rw [writeOutVol_regPool_ne _ _ a ha, writeOutVol_writesAt_ne _ _ a ha]
    exact ⟨rfl, rfl⟩

/-- A channel update that keeps the counter and either keeps the waveform or
stores one in 0..15. -/
theorem setChan_keeps (ch : Fin 4) (c : Channel) (s : State)
    (h1 : c.waveWriteCycle = (s.chan ch).waveWriteCycle)
    (h2 : c.wave = (s.chan ch).wave ∨ (0 ≤ c.wave ∧ c.wave < 16)) (j : Fin 4) :
    ((setChan ch c s).chan j).waveWriteCycle = (s.chan j).waveWriteCycle ∧
    (((setChan ch c s).chan j).wave = (s.chan j).wave ∨
      (0 ≤ ((setChan ch c s).chan j).wave ∧ ((setChan ch c s).chan j).wave < 16)) := by
  by_cases h : j = ch
  · subst h
    rw [setChan_chan_self]
    exact ⟨h1, h2⟩
  · rw [setChan_chan_ne _ _ _ _ h]
    exact ⟨rfl, Or.inl rfl⟩

/-- What no command changes: the mute flags, `hasWaveWrite`, the counters, every
register other than 14 and its byte stream; and a command either keeps a
waveform selector or stores one in 0..15. -/
theorem dispatch_frame (e : Engine) (c : DivCommand) (s : State) :
    ((dispatch e c s).1).isMuted = s.isMuted ∧
    ((dispatch e c s).1).hasWaveWrite = s.hasWaveWrite ∧
    (∀ j : Fin 4,
      (((dispatch e c s).1).chan j).waveWriteCycle = (s.chan j).waveWriteCycle ∧
      ((((dispatch e c s).1).chan j).wave = (s.chan j).wave ∨
        (0 ≤ (((dispatch e c s).1).chan j).wave ∧ (((dispatch e c s).1).chan j).wave < 16))) ∧
    (∀ a : Nat, a ≠ 14 → ((dispatch e c s).1).regPool a = s.regPool a ∧
      writesAt a (dispatch e c s).1 = writesAt a s) := by
  rcases c with ⟨cmd, ch, v, v2⟩
  cases cmd
  case noteOn =>
    simp only [dispatch]
    refine ⟨rfl, rfl, fun j => ?_, fun a _ => ⟨rfl, rfl⟩⟩
    apply setChan_keeps
    · split_ifs <;> rfl
    · left; split_ifs <;> rfl
  case noteOff =>
    simp only [dispatch]
    refine ⟨rfl, rfl, fun j => ?_, fun a _ => ⟨rfl, rfl⟩⟩
    apply setChan_keeps
    · rfl
    · exact Or.inl rfl
  case noteOffEnv =>
    simp only [dispatch]
    refine ⟨rfl, rfl, fun j => ?_, fun a _ => ⟨rfl, rfl⟩⟩
    apply setChan_keeps
    · rfl
    · exact Or.inl rfl
  case envRelease =>
    simp only [dispatch]
    refine ⟨rfl, rfl, fun j => ?_, fun a _ => ⟨rfl, rfl⟩⟩
    apply setChan_keeps
    · rfl
    · exact Or.inl rfl
  case instrument =>
    simp only [dispatch]
    split_ifs
    · refine ⟨rfl, rfl, fun j => ?_, fun a _ => ⟨rfl, rfl⟩⟩
      apply setChan_keeps
      · rfl
      · exact Or.inl rfl
    · exact ⟨rfl, rfl, fun j => ⟨rfl, Or.inl rfl⟩, fun a _ => ⟨rfl, rfl⟩⟩
  case volume =>
    simp only [dispatch]
    split_ifs
    · obtain ⟨f1, f2, f3, f4⟩ :=
        calcAndWriteOutVol_frame ch 15 (setChan ch { s.chan ch with vol := v } s)
      refine ⟨f1, f2, fun j => ?_, fun a ha => f4 a ha⟩
      have k := setChan_keeps ch { s.chan ch with vol := v } s rfl (Or.inl rfl) j
      show ((calcAndWriteOutVol ch 15 (setChan ch { s.chan ch with vol := v } s)).chan j).waveWriteCycle
          = (s.chan j).waveWriteCycle ∧
        (((calcAndWriteOutVol ch 15 (setChan ch { s.chan ch with vol := v } s)).chan j).wave
            = (s.chan j).wave ∨
          (0 ≤ ((calcAndWriteOutVol ch 15 (setChan ch { s.chan ch with vol := v } s)).chan j).wave ∧
            ((calcAndWriteOutVol ch 15 (setChan ch { s.chan ch with vol := v } s)).chan j).wave < 16))
      rw [(f3 j).1, (f3 j).2]
      exact k
    · refine ⟨rfl, rfl, fun j => ?_, fun a _ => ⟨rfl, rfl⟩⟩
      apply setChan_keeps
      · rfl
      · exact Or.inl rfl
    · exact ⟨rfl, rfl, fun j => ⟨rfl, Or.inl rfl⟩, fun a _ => ⟨rfl, rfl⟩⟩
  case getVolume =>
    exact ⟨rfl, rfl, fun j => ⟨rfl, Or.inl rfl⟩, fun a _ => ⟨rfl, rfl⟩⟩
  case pitch =>
    simp only [dispatch]
    refine ⟨rfl, rfl, fun j => ?_, fun a _ => ⟨rfl, rfl⟩⟩
    apply setChan_keeps
    · rfl
    · exact Or.inl rfl
  case wave =>
    simp only [dispatch]
    refine ⟨rfl, rfl, fun j => ?_, fun a _ => ⟨rfl, rfl⟩⟩
    apply setChan_keeps
    · rfl
    · right
      show 0 ≤ v % 16 ∧ v % 16 < 16
      omega
  case notePorta =>
    simp only [dispatch, notePorta]
    split_ifs <;>
    · refine ⟨rfl, rfl, fun j => ?_, fun a _ => ⟨rfl, rfl⟩⟩
      apply setChan_keeps
      · rfl
      · exact Or.inl rfl
  case legato =>
    simp only [dispatch]
    refine ⟨rfl, rfl, fun j => ?_, fun a _ => ⟨rfl, rfl⟩⟩
    apply setChan_keeps
    · rfl
    · exact Or.inl rfl
  case prePorta =>
    simp only [dispatch]
    refine ⟨rfl, rfl, fun j => ?_, fun a _ => ⟨rfl, rfl⟩⟩
    apply setChan_keeps
    · split_ifs <;> rfl
    · left; split_ifs <;> rfl
  case getVolMax =>
    exact ⟨rfl, rfl, fun j => ⟨rfl, Or.inl rfl⟩, fun a _ => ⟨rfl, rfl⟩⟩
  case alwaysSetVolume =>
    exact ⟨rfl, rfl, fun j => ⟨rfl, Or.inl rfl⟩, fun a _ => ⟨rfl, rfl⟩⟩
  case other =>
    exact ⟨rfl, rfl, fun j => ⟨rfl, Or.inl rfl⟩, fun a _ => ⟨rfl, rfl⟩⟩

/-- What `muteChannel` changes: the mute flag of its channel and one of the
flags `keyOn`, `keyOff` of that channel. -/
theorem muteChannel_frame (ch : Fin 4) (m : Bool) (s : State) :
    (∀ j : Fin 4, (muteChannel ch m s).isMuted j = if j = ch then m else s.isMuted j) ∧
    (muteChannel ch m s).hasWaveWrite = s.hasWaveWrite ∧
    (muteChannel ch m s).regPool = s.regPool ∧
    (muteChannel ch m s).writes = s.writes ∧
    (∀ j : Fin 4,
      ((muteChannel ch m s).chan j).waveWriteCycle = (s.chan j).waveWriteCycle ∧
      ((muteChannel ch m s).chan j).wave = (s.chan j).wave ∧
      ((muteChannel ch m s).chan j).active = (s.chan j).active) := by
  unfold muteChannel
  cases m
  · cases ha : (s.chan ch).active
    · simp [ha]
    · simp only [ha, Bool.false_eq_true, if_false, if_true]
      refine ⟨fun j => rfl, rfl, rfl, rfl, fun j => ?_⟩
      by_cases h : j = ch
      · subst h; simp [ha]
      · rw [setChan_chan_ne _ _ _ _ h]
        exact ⟨rfl, rfl, rfl⟩
  · simp only [if_true]
    refine ⟨fun j => rfl, rfl, rfl, rfl, fun j => ?_⟩
    by_cases h : j = ch
    · subst h; simp
    · rw [setChan_chan_ne _ _ _ _ h]
      exact ⟨rfl, rfl, rfl⟩

/-! ## Query commands -/

/-- C13: `GetVolumeMax` returns 15, `GetVolume` returns the stored volume of the
channel and `AlwaysReportVolume` returns 1, and each of the three returns the
state it was given: every channel field, the mute flags, `hasWaveWrite` and the
register pool are unchanged. -/
theorem C13_query_commands_pure (e : Engine) (ch : Fin 4) (v v2 : Int) (s : State) :
    dispatch e { cmd := DivCmd.getVolMax, chan := ch, value := v, value2 := v2 } s = (s, 15) ∧
    dispatch e { cmd := DivCmd.getVolume, chan := ch, value := v, value2 := v2 } s =
      (s, (s.chan ch).vol) ∧
    dispatch e { cmd := DivCmd.alwaysSetVolume, chan := ch, value := v, value2 := v2 } s =
      (s, 1) :=
  ⟨rfl, rfl, rfl⟩

/-! ## The injector: what a sample step leaves alone -/

theorem sameButCycle_refl (c : Channel) : SameButCycle c c := by
  unfold SameButCycle
  cases c
  rfl

theorem sameButCycle_trans {a b c : Channel} (h1 : SameButCycle a b) (h2 : SameButCycle b c) :
    SameButCycle a c := by
  unfold SameButCycle at *
  rw [h2, h1]

theorem sameButCycle_fields {c r : Channel} (h : SameButCycle c r) :
    r.freq = c.freq ∧ r.baseFreq = c.baseFreq ∧ r.pitch = c.pitch ∧ r.note = c.note ∧
    r.ins = c.ins ∧ r.active = c.active ∧ r.insChanged = c.insChanged ∧
    r.freqChanged = c.freqChanged ∧ r.keyOn = c.keyOn ∧ r.keyOff = c.keyOff ∧
    r.inPorta = c.inPorta ∧ r.vol = c.vol ∧ r.outVol = c.outVol ∧ r.wave = c.wave ∧
    r.std = c.std := by
  unfold SameButCycle at h
  rw [h]
  exact ⟨rfl, rfl, rfl, rfl, rfl, rfl, rfl, rfl, rfl, rfl, rfl, rfl, rfl, rfl, rfl⟩

theorem acquireVoice_sameButCycle (k j : Fin 4) (s : State) :
    SameButCycle (s.chan j) ((acquireVoice k s).chan j) := by
  by_cases h : j = k
  · subst h
    unfold acquireVoice
    dsimp only
    split_ifs <;> first | exact sameButCycle_refl _ | (unfold SameButCycle; simp)
  · rw [acquireVoice_chan_ne j k s h]
    exact sameButCycle_refl _

theorem acquireVoice_isMuted (k : Fin 4) (s : State) :
    (acquireVoice k s).isMuted = s.isMuted := by
  unfold acquireVoice
  dsimp only
  split_ifs <;> rfl

/-- A sample step changes no channel field other than the counter, no mute
flag, and no register outside 10, 11, 12. -/
theorem acquireSample_frame (s : State) :
    (∀ j : Fin 4, SameButCycle (s.chan j) ((acquireSample s).chan j)) ∧
    (acquireSample s).isMuted = s.isMuted ∧
    (acquireSample s).chan 3 = s.chan 3 ∧
    (∀ a : Nat, a ≠ 10 → a ≠ 11 → a ≠ 12 →
      (acquireSample s).regPool a = s.regPool a ∧ writesAt a (acquireSample s) = writesAt a s) := by
  unfold acquireSample
  split_ifs with hw
  · refine ⟨fun j => ?_, ?_, ?_, fun a h0 h1 h2 => ⟨?_, ?_⟩⟩
    · exact sameButCycle_trans
        (sameButCycle_trans (acquireVoice_sameButCycle 0 j { s with hasWaveWrite := false })
          (acquireVoice_sameButCycle 1 j _))
        (acquireVoice_sameButCycle 2 j _)
    · rw [acquireVoice_isMuted, acquireVoice_isMuted, acquireVoice_isMuted]
    · rw [acquireVoice_chan_ne 3 2 _ (by decide), acquireVoice_chan_ne 3 1 _ (by decide),
        acquireVoice_chan_ne 3 0 _ (by decide)]
    · rw [acquireVoice_regPool_ne 2 a _ (by simpa using h2),
        acquireVoice_regPool_ne 1 a _ (by simpa using h1),
        acquireVoice_regPool_ne 0 a _ (by simpa using h0)]
    · rw [acquireVoice_writesAt_ne 2 a _ (by simpa using h2),
        acquireVoice_writesAt_ne 1 a _ (by simpa using h1),
        acquireVoice_writesAt_ne 0 a _ (by simpa using h0)]
      rfl
  · exact ⟨fun j => sameButCycle_refl _, rfl, rfl, fun a _ _ _ => ⟨rfl, rfl⟩⟩

theorem acquireSample_off (s : State) (h : s.hasWaveWrite = false) : acquireSample s = s := by
  unfold acquireSample
  simp [h]

/-- C17: one sample step of `acquire` changes no channel field other than the
counter `waveWriteCycle` (so no `freq`, waveform, volume or flag), no mute flag,
no field of the fourth voice and no register outside 10, 11, 12 (so not 13 and
not 14); a tone voice whose counter is negative keeps its counter, its register
and the byte stream of its register; a tone voice `i` whose counter is not
negative has, when the injector runs (`hasWaveWrite` set), its counter lowered
by exactly 4 and one byte written to register `10+i`, a byte that is a function
of the voice's own counter, waveform and `freq` only; when the injector does not
run (`hasWaveWrite` clear) the step changes nothing at all. -/
theorem C17_injector_frame (s : State) :
    (∀ j : Fin 4, SameButCycle (s.chan j) ((acquireSample s).chan j)) ∧
    (acquireSample s).isMuted = s.isMuted ∧
    (acquireSample s).chan 3 = s.chan 3 ∧
    (∀ a : Nat, a ≠ 10 → a ≠ 11 → a ≠ 12 →
      (acquireSample s).regPool a = s.regPool a ∧ writesAt a (acquireSample s) = writesAt a s) ∧
    (∀ i : Fin 4, (s.chan i).waveWriteCycle < 0 →
      (acquireSample s).chan i = s.chan i ∧
      (acquireSample s).regPool (10 + i.val) = s.regPool (10 + i.val) ∧
      writesAt (10 + i.val) (acquireSample s) = writesAt (10 + i.val) s) ∧
    (∀ i : Fin 4, i.val < 3 → 0 ≤ (s.chan i).waveWriteCycle → s.hasWaveWrite = true →
      ((acquireSample s).chan i).waveWriteCycle = (s.chan i).waveWriteCycle - 4 ∧
      (acquireSample s).regPool (10 + i.val) =
        injectValue i.val (s.chan i).wave (s.chan i).freq (s.chan i).waveWriteCycle % 256 ∧
      writesAt (10 + i.val) (acquireSample s) = writesAt (10 + i.val) s ++
        [(10 + i.val,
          injectValue i.val (s.chan i).wave (s.chan i).freq (s.chan i).waveWriteCycle % 256)]) ∧
    (s.hasWaveWrite = false → acquireSample s = s) := by
  obtain ⟨f1, f2, f3, f4⟩ := acquireSample_frame s
  refine ⟨f1, f2, f3, f4, fun i hi => acquireSample_idle i s hi, ?_, acquireSample_off s⟩
  intro i hi hc hw
  obtain ⟨_, a2, a3, a4⟩ := acquireSample_armed i hi s hw hc
  refine ⟨?_, a3, a4⟩
  rw [a2]

theorem C17_injector_frame_witness :
    ((armedState.chan 0).waveWriteCycle = 137 * 16 - 1 ∧ armedState.hasWaveWrite = true ∧
      ((acquireSample armedState).chan 0).waveWriteCycle = (armedState.chan 0).waveWriteCycle - 4 ∧
      (acquireSample armedState).regPool (10 + (0 : Fin 4).val) =
        injectValue (0 : Fin 4).val (armedState.chan 0).wave (armedState.chan 0).freq
          (armedState.chan 0).waveWriteCycle % 256) ∧
    ((armedState.chan 1).waveWriteCycle < 0 ∧
      (acquireSample armedState).chan 1 = armedState.chan 1 ∧
      (acquireSample armedState).regPool (10 + (1 : Fin 4).val) =
        armedState.regPool (10 + (1 : Fin 4).val)) ∧
    ((acquireSample armedState).regPool 13 = armedState.regPool 13 ∧
      (acquireSample armedState).regPool 14 = armedState.regPool 14) ∧
    (restState.hasWaveWrite = false ∧ acquireSample restState = restState) :=
  ⟨⟨by decide, rfl,
      ((C17_injector_frame armedState).2.2.2.2.2.1 0 (by decide) (by decide) rfl).1,
      ((C17_injector_frame armedState).2.2.2.2.2.1 0 (by decide) (by decide) rfl).2.1⟩,
    ⟨by decide, ((C17_injector_frame armedState).2.2.2.2.1 1 (by decide)).1,
      ((C17_injector_frame armedState).2.2.2.2.1 1 (by decide)).2.1⟩,
    ⟨((C17_injector_frame armedState).2.2.2.1 13 (by decide) (by decide) (by decide)).1,
      ((C17_injector_frame armedState).2.2.2.1 14 (by decide) (by decide) (by decide)).1⟩,
    ⟨rfl, (C17_injector_frame restState).2.2.2.2.2.2 rfl⟩⟩

/-! ## Flags after a tick, unmuting, the waveform selector -/

/-- C16: after every tick, whatever the state and the macro sequencer output
were, `keyOn`, `keyOff` and `freqChanged` are false for every channel. -/
theorem C16_flags_consumed (e : Engine) (s : State) (i : Fin 4) :
    ((tick e s).chan i).keyOn = false ∧ ((tick e s).chan i).keyOff = false ∧
    ((tick e s).chan i).freqChanged = false := by
  cases hp : (((tickMacro e i s).chan i).freqChanged || ((tickMacro e i s).chan i).keyOn ||
      ((tickMacro e i s).chan i).keyOff)
  · obtain ⟨t1, _, _⟩ := tick_idle e i s hp
    rw [t1]
    simp only [Bool.or_eq_false_iff] at hp
    exact ⟨hp.1.2, hp.2, hp.1.1⟩
  · obtain ⟨_, p2, p3, p4, _⟩ := tick_pending e i s hp
    exact ⟨p2, p3, p4⟩

theorem tick_hasWaveWrite_mono (e : Engine) (s : State) (h : s.hasWaveWrite = true) :
    (tick e s).hasWaveWrite = true := by
  unfold tick
  exact (tickChan_frame e 3 _).2.2.2 ((tickChan_frame e 2 _).2.2.2
    ((tickChan_frame e 1 _).2.2.2 ((tickChan_frame e 0 _).2.2.2 h)))

/-- C12: `muteChannel(ch, false)` clears the mute flag, sets `keyOn` when the
channel is active and leaves `keyOn` unchanged when it is inactive; after
unmuting an active channel the next tick sets the counter of a tone voice to
`137*16-1` with `hasWaveWrite` set, and for the fourth voice it writes
`255 - freq` to register 13 (followed by the 0 of a key-off that was pending
too). -/
theorem C12_unmute_rearms (e : Engine) (ch : Fin 4) (s : State) :
    (muteChannel ch false s).isMuted ch = false ∧
    ((s.chan ch).active = true → ((muteChannel ch false s).chan ch).keyOn = true) ∧
    ((s.chan ch).active = false →
      ((muteChannel ch false s).chan ch).keyOn = (s.chan ch).keyOn) ∧
    ((s.chan ch).active = true → ch.val < 3 →
      ((tick e (muteChannel ch false s)).chan ch).waveWriteCycle = 137 * 16 - 1 ∧
      (tick e (muteChannel ch false s)).hasWaveWrite = true) ∧
    ((s.chan ch).active = true → ch.val = 3 →
      writesAt 13 (tick e (muteChannel ch false s)) =
        writesAt 13 s ++ [(13, 255 - ((tick e (muteChannel ch false s)).chan ch).freq)] ++
          (if (s.chan ch).keyOff = true then [(13, (0 : Int))] else [])) := by
  have hmute : (muteChannel ch false s).isMuted ch = false := by
    rw [(muteChannel_frame ch false s).1 ch]; simp
  have hon : (s.chan ch).active = true → ((muteChannel ch false s).chan ch).keyOn = true := by
    intro ha
    simp [muteChannel, ha]
  have hoffk : ((muteChannel ch false s).chan ch).keyOff = (s.chan ch).keyOff := by
    unfold muteChannel
    cases ha : (s.chan ch).active <;> simp [ha]
  refine ⟨hmute, hon, ?_, ?_, ?_⟩
  · intro ha
    simp [muteChannel, ha]
  · intro ha hi
    have hk2 : ((tickMacro e ch (muteChannel ch false s)).chan ch).keyOn = true :=
      (tickMacro_self_fields e ch _).1 (hon ha)
    obtain ⟨_, _, _, _, p5, _, _, p8, _, _⟩ :=
      tick_pending e ch (muteChannel ch false s) (by rw [hk2]; simp)
    rw [hk2, hmute] at p5 p8
    refine ⟨?_, p8 (by simp [hi])⟩
    rw [p5]; simp [hi]
  · intro ha hi
    have hk2 : ((tickMacro e ch (muteChannel ch false s)).chan ch).keyOn = true :=
      (tickMacro_self_fields e ch _).1 (hon ha)
    have hoff : ((tickMacro e ch (muteChannel ch false s)).chan ch).keyOff = (s.chan ch).keyOff := by
      rw [(tickMacro_self_fields e ch _).2.1, hoffk]
    obtain ⟨p1, _, _, _, _, _, _, _, _, p10⟩ :=
      tick_pending e ch (muteChannel ch false s) (by rw [hk2]; simp)
    have hr := tickFreq_range e ch ((tickMacro e ch (muteChannel ch false s)).chan ch)
    have hi3 : ¬ ch.val < 3 := by omega
    have h13 : 10 + ch.val = 13 := by omega
    have hws : writesAt 13 (muteChannel ch false s) = writesAt 13 s := by
      unfold writesAt
      rw [(muteChannel_frame ch false s).2.2.2.1]
    rw [hk2, hmute, hoff, h13, hws] at p10
    rw [p10, p1, byte_of_inverted _ hr.1 hr.2]
    simp [hi3]

theorem C12_unmute_rearms_witness :
    (((muteChannel 0 true keyedState0).chan 0).active = true ∧
      ((muteChannel 0 false (muteChannel 0 true keyedState0)).chan 0).keyOn = true ∧
      ((tick toneEngine (muteChannel 0 false (muteChannel 0 true keyedState0))).chan 0).waveWriteCycle
        = 137 * 16 - 1 ∧
      (tick toneEngine (muteChannel 0 false (muteChannel 0 true keyedState0))).hasWaveWrite = true) ∧
    ((restState.chan 1).active = false ∧
      ((muteChannel 1 false restState).chan 1).keyOn = (restState.chan 1).keyOn) ∧
    ((keyedState3.chan 3).active = true ∧
      writesAt 13 (tick toneEngine (muteChannel 3 false keyedState3)) =
        writesAt 13 keyedState3 ++
          [(13, 255 - ((tick toneEngine (muteChannel 3 false keyedState3)).chan 3).freq)] ++
          (if (keyedState3.chan 3).keyOff = true then [(13, (0 : Int))] else [])) :=
  ⟨⟨by decide,
      (C12_unmute_rearms toneEngine 0 (muteChannel 0 true keyedState0)).2.1 (by decide),
      ((C12_unmute_rearms toneEngine 0 (muteChannel 0 true keyedState0)).2.2.2.1 (by decide)
        (by decide)).1,
      ((C12_unmute_rearms toneEngine 0 (muteChannel 0 true keyedState0)).2.2.2.1 (by decide)
        (by decide)).2⟩,
    ⟨rfl, (C12_unmute_rearms toneEngine 1 restState).2.2.1 rfl⟩,
    ⟨by decide, (C12_unmute_rearms toneEngine 3 keyedState3).2.2.2.2 (by decide) rfl⟩⟩

theorem tickWave_wave (c : Channel) :
    (tickWave c).wave = c.wave ∨ (0 ≤ (tickWave c).wave ∧ (tickWave c).wave < 16) := by
  unfold tickWave
  split_ifs
  · right
    show 0 ≤ c.std.wave % 16 ∧ c.std.wave % 16 < 16
    omega
  · exact Or.inl rfl
  · exact Or.inl rfl

/-- The waveform selector of a channel after a tick: kept, or in 0..15. -/
theorem tick_wave (e : Engine) (s : State) (i : Fin 4) :
    ((tick e s).chan i).wave = (s.chan i).wave ∨
    (0 ≤ ((tick e s).chan i).wave ∧ ((tick e s).chan i).wave < 16) := by
  have hm : ((tickMacro e i s).chan i).wave = (s.chan i).wave ∨
      (0 ≤ ((tickMacro e i s).chan i).wave ∧ ((tickMacro e i s).chan i).wave < 16) := by
    rw [tickMacro_chan_self]
    rcases tickWave_wave (tickArp e
        { s.chan i with
          std := e.macroNext (s.chan i).std
          outVol :=
            if (e.macroNext (s.chan i).std).hadVol then
              MIN (Int.tdiv (wrap32 ((s.chan i).vol * (e.macroNext (s.chan i).std).vol)) 15) 15
            else (s.chan i).outVol }) with h | h
    · left
      rw [h, (tickArp_fields e _).2.2.2.2.1]
    · exact Or.inr h
  have hw : ((tick e s).chan i).wave = ((tickMacro e i s).chan i).wave := by
    cases hp : (((tickMacro e i s).chan i).freqChanged || ((tickMacro e i s).chan i).keyOn ||
        ((tickMacro e i s).chan i).keyOff)
    · rw [(tick_idle e i s hp).1]
    · exact (tick_pending e i s hp).2.2.2.2.2.1
  rw [hw]
  exact hm

theorem waveInRange_of_kept {s r : State} (h : WaveInRange s)
    (hk : ∀ j : Fin 4, (r.chan j).wave = (s.chan j).wave ∨
      (0 ≤ (r.chan j).wave ∧ (r.chan j).wave < 16)) : WaveInRange r := by
  intro j
  rcases hk j with h1 | h1
  · rw [h1]; exact h j
  · exact h1

theorem step_wave (e : Engine) (o : Op) (s : State) (j : Fin 4) :
    ((step e o s).chan j).wave = (s.chan j).wave ∨
    (0 ≤ ((step e o s).chan j).wave ∧ ((step e o s).chan j).wave < 16) := by
  cases o with
  | command c => exact ((dispatch_frame e c s).2.2.1 j).2
  | mute ch m => exact Or.inl ((muteChannel_frame ch m s).2.2.2.2 j).2.1
  | tick => exact tick_wave e s j
  | sample => exact Or.inl (sameButCycle_fields ((acquireSample_frame s).1 j)).2.2.2.2.2.2.2.2.2.2.2.2.2.1

theorem run_waveInRange (e : Engine) (ops : List Op) (s : State) (h : WaveInRange s) :
    WaveInRange (run e ops s) := by
  induction ops generalizing s with
  | nil => exact h
  | cons o os ih => exact ih (step e o s) (waveInRange_of_kept h (step_wave e o s))

/-- C14: the predicate that every channel has its waveform selector in 0..15
is preserved by every command (`SetWaveform(w)` for an arbitrary integer `w`
included), by `muteChannel`, by the tick whatever the macro sequencer outputs,
by a sample step and by any run of sample steps, hence by every sequence of
these operations; under it the index of `wavePatterns[wave]` is inside the
table of 16 entries. -/
theorem C14_wave_in_range (e : Engine) (s : State) (h : WaveInRange s) :
    (∀ c : DivCommand, WaveInRange (dispatch e c s).1) ∧
    (∀ (ch : Fin 4) (w : Int), WaveInRange (dispatch e (waveCmd ch w) s).1) ∧
    (∀ (ch : Fin 4) (m : Bool), WaveInRange (muteChannel ch m s)) ∧
    WaveInRange (tick e s) ∧
    WaveInRange (acquireSample s) ∧
    (∀ n : Nat, WaveInRange (acquire n s)) ∧
    (∀ ops : List Op, WaveInRange (run e ops s)) ∧
    (∀ j : Fin 4, ((s.chan j).wave).toNat < wavePatterns.length) := by
  have stepRange : ∀ o : Op, WaveInRange (step e o s) :=
    fun o => waveInRange_of_kept h (step_wave e o s)
  refine ⟨fun c => stepRange (Op.command c), fun ch w => stepRange (Op.command _),
    fun ch m => stepRange (Op.mute ch m), stepRange Op.tick,
    stepRange Op.sample, ?_, fun ops => run_waveInRange e ops s h, ?_⟩
  · intro n
    clear stepRange
    induction n generalizing s with
    | zero => exact h
    | succ k ih => exact ih (acquireSample s) (waveInRange_of_kept h (step_wave e Op.sample s))
  · intro j
    have := h j
    have hl : wavePatterns.length = 16 := rfl
    rw [hl]
    omega

theorem C14_wave_in_range_witness :
    WaveInRange waveFiveState ∧
    WaveInRange (dispatch toneEngine (waveCmd 2 (-77)) waveFiveState).1 ∧
    (((dispatch toneEngine (waveCmd 2 (-77)) waveFiveState).1).chan 2).wave = 3 ∧
    WaveInRange (tick toneEngine waveFiveState) ∧
    ((waveFiveState.chan 0).wave).toNat < wavePatterns.length :=
  ⟨by unfold WaveInRange; decide,
    (C14_wave_in_range toneEngine waveFiveState (by unfold WaveInRange; decide)).2.1 2 (-77),
    by decide,
    (C14_wave_in_range toneEngine waveFiveState (by unfold WaveInRange; decide)).2.2.2.1,
    (C14_wave_in_range toneEngine waveFiveState (by unfold WaveInRange; decide)).2.2.2.2.2.2.2 0⟩

/-! ## The invariant of the injector -/

theorem tick_cycle (e : Engine) (s : State) (i : Fin 4) :
    ((tick e s).chan i).waveWriteCycle = (s.chan i).waveWriteCycle ∨
    (((tick e s).chan i).waveWriteCycle = 137 * 16 - 1 ∧ (tick e s).hasWaveWrite = true ∧
      s.isMuted i = false ∧ i.val < 3) := by
  cases hp : (((tickMacro e i s).chan i).freqChanged || ((tickMacro e i s).chan i).keyOn ||
      ((tickMacro e i s).chan i).keyOff)
  · left
    rw [(tick_idle e i s hp).1, (tickMacro_self_fields e i s).2.2.1]
  · obtain ⟨_, _, _, _, p5, _, _, p8, _, _⟩ := tick_pending e i s hp
    by_cases hk : (((tickMacro e i s).chan i).keyOn && !s.isMuted i) = true ∧ i.val < 3
    · right
      rw [p5, if_pos hk]
      refine ⟨rfl, p8 (by simp [hk.1, hk.2]), ?_, hk.2⟩
      have := hk.1
      simp only [Bool.and_eq_true, Bool.not_eq_true'] at this
      exact this.2
    · left
      rw [p5, if_neg hk]

theorem tick_armedImpliesFlag (e : Engine) (s : State) (h : ArmedImpliesFlag s) :
    ArmedImpliesFlag (tick e s) := by
  rintro ⟨i, hi, hc⟩
  rcases tick_cycle e s i with h1 | h1
  · rw [h1] at hc
    exact tick_hasWaveWrite_mono e s (h ⟨i, hi, hc⟩)
  · exact h1.2.1

theorem acquireSample_armedImpliesFlag (s : State) (h : ArmedImpliesFlag s) :
    ArmedImpliesFlag (acquireSample s) := by
  rintro ⟨i, hi, hc⟩
  by_cases hneg : (s.chan i).waveWriteCycle < 0
  · rw [(acquireSample_idle i s hneg).1] at hc
    omega
  · have hw := h ⟨i, hi, by omega⟩
    exact (acquireSample_armed i hi s hw (by omega)).1

theorem step_armedImpliesFlag (e : Engine) (o : Op) (s : State) (h : ArmedImpliesFlag s) :
    ArmedImpliesFlag (step e o s) := by
  cases o with
  | command c =>
    rintro ⟨i, hi, hc⟩
    show ((dispatch e c s).1).hasWaveWrite = true
    rw [(dispatch_frame e c s).2.1]
    apply h
    refine ⟨i, hi, ?_⟩
    have : (((dispatch e c s).1).chan i).waveWriteCycle = (s.chan i).waveWriteCycle :=
      ((dispatch_frame e c s).2.2.1 i).1
    rw [← this]
    exact hc
  | mute ch m =>
    rintro ⟨i, hi, hc⟩
    show (muteChannel ch m s).hasWaveWrite = true
    rw [(muteChannel_frame ch m s).2.1]
    apply h
    refine ⟨i, hi, ?_⟩
    rw [← ((muteChannel_frame ch m s).2.2.2.2 i).1]
    exact hc
  | tick => exact tick_armedImpliesFlag e s h
  | sample => exact acquireSample_armedImpliesFlag s h

theorem run_armedImpliesFlag (e : Engine) (ops : List Op) (s : State)
    (h : ArmedImpliesFlag s) : ArmedImpliesFlag (run e ops s) := by
  induction ops generalizing s with
  | nil => exact h
  | cons o os ih => exact ih (step e o s) (step_armedImpliesFlag e o s h)

/-- C19: the predicate that a tone voice with a non-negative counter implies
`hasWaveWrite` is preserved by every command, by `muteChannel`, by the tick and
by a sample step of `acquire`, hence it holds after every sequence of these
operations started in a state where it holds; under it a tone voice with a
non-negative counter is serviced by the very next sample step (counter lowered
by 4, one byte written to its register); and `reset` establishes it when the
channel constructor leaves the counter negative. -/
theorem C19_armed_implies_flag (e : Engine) (s : State) (h : ArmedImpliesFlag s) :
    (∀ c : DivCommand, ArmedImpliesFlag (dispatch e c s).1) ∧
    (∀ (ch : Fin 4) (m : Bool), ArmedImpliesFlag (muteChannel ch m s)) ∧
    ArmedImpliesFlag (tick e s) ∧
    ArmedImpliesFlag (acquireSample s) ∧
    (∀ ops : List Op, ArmedImpliesFlag (run e ops s)) ∧
    (∀ i : Fin 4, i.val < 3 → 0 ≤ (s.chan i).waveWriteCycle →
      ((acquireSample s).chan i).waveWriteCycle = (s.chan i).waveWriteCycle - 4 ∧
      writesAt (10 + i.val) (acquireSample s) = writesAt (10 + i.val) s ++
        [(10 + i.val,
          injectValue i.val (s.chan i).wave (s.chan i).freq (s.chan i).waveWriteCycle % 256)]) ∧
    (∀ (fresh : Channel) (s0 : State), fresh.waveWriteCycle < 0 →
      ArmedImpliesFlag (reset fresh s0)) := by
  refine ⟨fun c => step_armedImpliesFlag e (Op.command c) s h,
    fun ch m => step_armedImpliesFlag e (Op.mute ch m) s h,
    tick_armedImpliesFlag e s h, acquireSample_armedImpliesFlag s h,
    fun ops => run_armedImpliesFlag e ops s h, ?_, ?_⟩
  · intro i hi hc
    obtain ⟨_, a2, _, a4⟩ := acquireSample_armed i hi s (h ⟨i, hi, hc⟩) hc
    refine ⟨?_, a4⟩
    rw [a2]
  · rintro fresh s0 hf ⟨i, _, hc⟩
    have : ((reset fresh s0).chan i).waveWriteCycle = fresh.waveWriteCycle := rfl
    rw [this] at hc
    omega

theorem C19_armed_implies_flag_witness :
    ArmedImpliesFlag armedState ∧
    ArmedImpliesFlag (tick toneEngine armedState) ∧
    ArmedImpliesFlag (run toneEngine [Op.sample, Op.tick, Op.command (noteOnCmd 1 60), Op.tick,
      Op.sample] armedState) ∧
    ((0 : Fin 4).val < 3 ∧ 0 ≤ (armedState.chan 0).waveWriteCycle ∧
      ((acquireSample armedState).chan 0).waveWriteCycle =
        (armedState.chan 0).waveWriteCycle - 4) ∧
    (restChannel.waveWriteCycle < 0 ∧ ArmedImpliesFlag (reset restChannel armedState)) :=
  ⟨fun _ => rfl,
    (C19_armed_implies_flag toneEngine armedState (fun _ => rfl)).2.2.1,
    (C19_armed_implies_flag toneEngine armedState (fun _ => rfl)).2.2.2.2.1 _,
    ⟨by decide, by decide,
      ((C19_armed_implies_flag toneEngine armedState (fun _ => rfl)).2.2.2.2.2.1 0 (by decide)
        (by decide)).1⟩,
    ⟨by decide,
      (C19_armed_implies_flag toneEngine armedState (fun _ => rfl)).2.2.2.2.2.2 restChannel
        armedState (by decide)⟩⟩

/-! ## Muted channels and serviced note-offs -/

theorem fin4_reg_ne_vol (ch : Fin 4) : 10 + ch.val ≠ 14 := by
  have := ch.isLt
  omega

/-- One operation other than `muteChannel(ch, false)` on a muted channel whose
frequency register holds 0 and which has no injection in flight: the channel
stays muted, the register stays 0, no injection starts, and the operation
writes at most one byte, a 0, to the register. -/
theorem step_muted_quiet (e : Engine) (ch : Fin 4) (o : Op) (s : State)
    (hm : s.isMuted ch = true) (hr : s.regPool (10 + ch.val) = 0)
    (hc : ch.val < 3 → (s.chan ch).waveWriteCycle < 0) (ho : isUnmute ch o = false) :
    (step e o s).isMuted ch = true ∧ (step e o s).regPool (10 + ch.val) = 0 ∧
    (ch.val < 3 → ((step e o s).chan ch).waveWriteCycle < 0) ∧
    ∃ k : Nat, writesAt (10 + ch.val) (step e o s) =
      writesAt (10 + ch.val) s ++ List.replicate k (10 + ch.val, (0 : Int)) := by
  cases o with
  | command c =>
    obtain ⟨f1, _, f3, f4⟩ := dispatch_frame e c s
    refine ⟨?_, ?_, ?_, 0, ?_⟩
    · show ((dispatch e c s).1).isMuted ch = true
      rw [f1]; exact hm
    · show ((dispatch e c s).1).regPool (10 + ch.val) = 0
      rw [(f4 _ (fin4_reg_ne_vol ch)).1]; exact hr
    · intro hi
      show (((dispatch e c s).1).chan ch).waveWriteCycle < 0
      rw [(f3 ch).1]; exact hc hi
    · show writesAt (10 + ch.val) (dispatch e c s).1 = _
      rw [(f4 _ (fin4_reg_ne_vol ch)).2]; simp
  | mute c m =>
    obtain ⟨f1, _, f3, f4, f5⟩ := muteChannel_frame c m s
    refine ⟨?_, ?_, ?_, 0, ?_⟩
    · show (muteChannel c m s).isMuted ch = true
      rw [f1 ch]
      by_cases h : ch = c
      · subst h
        simp only [isUnmute, decide_True, Bool.true_and, Bool.not_eq_false'] at ho
        simp [ho]
      · simp [h, hm]
    · show (muteChannel c m s).regPool (10 + ch.val) = 0
      rw [f3]; exact hr
    · intro hi
      show ((muteChannel c m s).chan ch).waveWriteCycle < 0
      rw [(f5 ch).1]; exact hc hi
    · show writesAt (10 + ch.val) (muteChannel c m s) = _
      unfold writesAt
      rw [f4]; simp
  | tick =>
    show (tick e s).isMuted ch = true ∧ (tick e s).regPool (10 + ch.val) = 0 ∧
      (ch.val < 3 → ((tick e s).chan ch).waveWriteCycle < 0) ∧
      ∃ k : Nat, writesAt (10 + ch.val) (tick e s) =
        writesAt (10 + ch.val) s ++ List.replicate k (10 + ch.val, (0 : Int))
    have hmt : (tick e s).isMuted ch = true := by rw [tick_isMuted]; exact hm
    cases hp : (((tickMacro e ch s).chan ch).freqChanged || ((tickMacro e ch s).chan ch).keyOn ||
        ((tickMacro e ch s).chan ch).keyOff)
    · obtain ⟨t1, t2, t3⟩ := tick_idle e ch s hp
      refine ⟨hmt, by rw [t2]; exact hr, ?_, 0, by rw [t3]; simp⟩
      intro hi
      rw [t1, (tickMacro_self_fields e ch s).2.2.1]
      exact hc hi
    · obtain ⟨_, _, _, _, p5, _, _, _, p9, p10⟩ := tick_pending e ch s hp
      simp only [hm, Bool.not_true, Bool.and_false, Bool.false_eq_true, false_and, if_false,
        List.nil_append] at p5 p9 p10
      refine ⟨hmt, ?_, ?_, ?_⟩
      · rw [p9]
        split_ifs
        · rfl
        · exact hr
      · intro hi
        rw [p5]; exact hc hi
      · rw [p10]
        split_ifs
        · exact ⟨1, by simp⟩
        · exact ⟨0, by simp⟩
  | sample =>
    show (acquireSample s).isMuted ch = true ∧ (acquireSample s).regPool (10 + ch.val) = 0 ∧
      (ch.val < 3 → ((acquireSample s).chan ch).waveWriteCycle < 0) ∧
      ∃ k : Nat, writesAt (10 + ch.val) (acquireSample s) =
        writesAt (10 + ch.val) s ++ List.replicate k (10 + ch.val, (0 : Int))
    obtain ⟨_, f2, _, f4⟩ := acquireSample_frame s
    by_cases hi : ch.val < 3
    · obtain ⟨i1, i2, i3⟩ := acquireSample_idle ch s (hc hi)
      refine ⟨by rw [f2]; exact hm, by rw [i2]; exact hr, fun _ => by rw [i1]; exact hc hi, 0, ?_⟩
      rw [i3]; simp
    · have h13 : 10 + ch.val = 13 := by
        have := ch.isLt
        omega
      obtain ⟨g1, g2⟩ := f4 13 (by decide) (by decide) (by decide)
      rw [h13] at hr ⊢
      refine ⟨by rw [f2]; exact hm, by rw [g1]; exact hr, fun h => absurd h hi, 0, ?_⟩
      rw [g2]; simp

theorem run_muted_quiet (e : Engine) (ch : Fin 4) (ops : List Op) (s : State)
    (hm : s.isMuted ch = true) (hr : s.regPool (10 + ch.val) = 0)
    (hc : ch.val < 3 → (s.chan ch).waveWriteCycle < 0)
    (hops : ∀ o ∈ ops, isUnmute ch o = false) :
    (run e ops s).isMuted ch = true ∧ (run e ops s).regPool (10 + ch.val) = 0 ∧
    ∃ k : Nat, writesAt (10 + ch.val) (run e ops s) =
      writesAt (10 + ch.val) s ++ List.replicate k (10 + ch.val, (0 : Int)) := by
  induction ops generalizing s with
  | nil => exact ⟨hm, hr, 0, by simp [run]⟩
  | cons o os ih =>
    obtain ⟨s1, s2, s3, k1, s4⟩ :=
      step_muted_quiet e ch o s hm hr hc (hops o (List.mem_cons_self _ _))
    obtain ⟨r1, r2, k2, r3⟩ :=
      ih (step e o s) s1 s2 s3 (fun o2 h2 => hops o2 (List.mem_cons_of_mem _ h2))
    refine ⟨r1, r2, k1 + k2, ?_⟩
    show writesAt (10 + ch.val) (run e os (step e o s)) = _
    rw [r3, s4, List.append_assoc, ← List.replicate_add]

/-- C11 (as amended): once `muteChannel(ch, true)` has been called and its
key-off has been written (the channel is muted and register `10+ch` holds 0),
and provided no injection is in flight on the channel at that point (its counter
is negative; no condition for the fourth voice), register `10+ch` holds 0 after
every sequence of commands, ticks, sample steps and mute changes that does not
contain `muteChannel(ch, false)`, the channel is still muted, and every byte the
sequence writes to that register is 0. -/
theorem C11_mute_suppresses_writes (e : Engine) (ch : Fin 4) (s : State) (ops : List Op)
    (hm : s.isMuted ch = true) (hr : s.regPool (10 + ch.val) = 0)
    (hc : ch.val < 3 → (s.chan ch).waveWriteCycle < 0)
    (hops : ∀ o ∈ ops, isUnmute ch o = false) :
    (run e ops s).regPool (10 + ch.val) = 0 ∧ (run e ops s).isMuted ch = true ∧
    ∃ k : Nat, writesAt (10 + ch.val) (run e ops s) =
      writesAt (10 + ch.val) s ++ List.replicate k (10 + ch.val, (0 : Int)) := by
  obtain ⟨r1, r2, r3⟩ := run_muted_quiet e ch ops s hm hr hc hops
  exact ⟨r2, r1, r3⟩

theorem C11_mute_suppresses_writes_witness :
    ((tick toneEngine (muteChannel 1 true keyedState0)).isMuted 1 = true ∧
      (tick toneEngine (muteChannel 1 true keyedState0)).regPool (10 + (1 : Fin 4).val) = 0 ∧
      ((1 : Fin 4).val < 3 →
        ((tick toneEngine (muteChannel 1 true keyedState0)).chan 1).waveWriteCycle < 0) ∧
      (∀ o ∈ [Op.command (noteOnCmd 1 60), Op.tick, Op.sample, Op.sample, Op.mute 1 true,
        Op.tick, Op.sample], isUnmute 1 o = false)) ∧
    (run toneEngine [Op.command (noteOnCmd 1 60), Op.tick, Op.sample, Op.sample, Op.mute 1 true,
        Op.tick, Op.sample] (tick toneEngine (muteChannel 1 true keyedState0))).regPool
      (10 + (1 : Fin 4).val) = 0 :=
  ⟨⟨by decide, by decide, by decide, by decide⟩,
    (C11_mute_suppresses_writes toneEngine 1 (tick toneEngine (muteChannel 1 true keyedState0))
      [Op.command (noteOnCmd 1 60), Op.tick, Op.sample, Op.sample, Op.mute 1 true, Op.tick,
        Op.sample] (by decide) (by decide) (by decide) (by decide)).1⟩

/-- C11 (counterexample): from the rest state, `NoteOn(60)` on channel 0 and a
tick arm the injector; `muteChannel(0, true)` and the next tick write the
key-off, so channel 0 is muted and register 10 holds 0; the injection is still
in flight (counter `137*16-1`), and the very next sample step, with the channel
still muted, writes 126 to register 10. -/
theorem C11_counterexample :
    mutedInFlightState.isMuted 0 = true ∧ mutedInFlightState.regPool 10 = 0 ∧
    (mutedInFlightState.chan 0).waveWriteCycle = 137 * 16 - 1 ∧
    isUnmute 0 Op.sample = false ∧
    (run toneEngine [Op.sample] mutedInFlightState).isMuted 0 = true ∧
    (run toneEngine [Op.sample] mutedInFlightState).regPool 10 = 126 ∧
    (run toneEngine [Op.sample] mutedInFlightState).regPool 10 ≠ 0 := by
  decide

/-- C20 (as amended): for every tone voice, after `NoteOff` has been dispatched
the next tick leaves register `10+ch` holding 0; if no injection is in flight
once that tick has run (the counter of the voice is negative), the register
still holds 0 after any number of subsequent sample steps and none of them
writes to it; the counter is negative after the tick when it was negative
before the `NoteOff` and the tick serviced no key-on of the voice (`keyOn` clear
when the voice is serviced, or the voice muted). -/
theorem C20_noteOff_stays_silent (e : Engine) (ch : Fin 4) (s : State) :
    (noteOffThenTick e ch s).regPool (10 + ch.val) = 0 ∧
    (((noteOffThenTick e ch s).chan ch).waveWriteCycle < 0 →
      ∀ n : Nat,
        (acquire n (noteOffThenTick e ch s)).regPool (10 + ch.val) = 0 ∧
        writesAt (10 + ch.val) (acquire n (noteOffThenTick e ch s)) =
          writesAt (10 + ch.val) (noteOffThenTick e ch s)) ∧
    ((s.chan ch).waveWriteCycle < 0 →
      (((tickMacro e ch (dispatch e (noteOffCmd ch) s).1).chan ch).keyOn = false ∨
        s.isMuted ch = true) →
      ((noteOffThenTick e ch s).chan ch).waveWriteCycle < 0) := by
  have hoff0 : (((dispatch e (noteOffCmd ch) s).1).chan ch).keyOff = true := by
    simp [dispatch, noteOffCmd]
  have hcyc0 : (((dispatch e (noteOffCmd ch) s).1).chan ch).waveWriteCycle =
      (s.chan ch).waveWriteCycle := ((dispatch_frame e (noteOffCmd ch) s).2.2.1 ch).1
  have hmu0 : ((dispatch e (noteOffCmd ch) s).1).isMuted = s.isMuted :=
    (dispatch_frame e (noteOffCmd ch) s).1
  have hoff : ((tickMacro e ch (dispatch e (noteOffCmd ch) s).1).chan ch).keyOff = true := by
    rw [(tickMacro_self_fields e ch _).2.1, hoff0]
  obtain ⟨_, _, _, _, p5, _, _, _, p9, _⟩ :=
    tick_pending e ch (dispatch e (noteOffCmd ch) s).1 (by rw [hoff]; simp)
  have hreg : (noteOffThenTick e ch s).regPool (10 + ch.val) = 0 := by
    unfold noteOffThenTick
    rw [p9, hoff]; simp
  refine ⟨hreg, ?_, ?_⟩
  · intro hneg n
    obtain ⟨_, i2, i3⟩ := acquire_idle_run ch (noteOffThenTick e ch s) hneg n
    exact ⟨by rw [i2, hreg], i3⟩
  · intro hneg hk
    unfold noteOffThenTick
    rw [p5, hmu0, hcyc0]
    have hcond : ¬ ((((tickMacro e ch (dispatch e (noteOffCmd ch) s).1).chan ch).keyOn &&
        !s.isMuted ch) = true ∧ ch.val < 3) := by
      rintro ⟨h1, _⟩
      simp only [Bool.and_eq_true, Bool.not_eq_true'] at h1
      rcases hk with hk | hk
      · rw [hk] at h1; exact Bool.false_ne_true h1.1
      · rw [hk] at h1; exact Bool.noConfusion h1.2
    rw [if_neg hcond]
    exact hneg

theorem C20_noteOff_stays_silent_witness :
    (noteOffThenTick toneEngine 1 keyedState0).regPool (10 + (1 : Fin 4).val) = 0 ∧
    ((noteOffThenTick toneEngine 1 keyedState0).chan 1).waveWriteCycle < 0 ∧
    (acquire 600 (noteOffThenTick toneEngine 1 keyedState0)).regPool (10 + (1 : Fin 4).val) = 0 ∧
    ((keyedState0.chan 1).waveWriteCycle < 0 ∧
      ((tickMacro toneEngine 1 (dispatch toneEngine (noteOffCmd 1) keyedState0).1).chan 1).keyOn
        = false) :=
  ⟨(C20_noteOff_stays_silent toneEngine 1 keyedState0).1,
    (C20_noteOff_stays_silent toneEngine 1 keyedState0).2.2 (by decide) (Or.inl (by decide)),
    ((C20_noteOff_stays_silent toneEngine 1 keyedState0).2.1
      ((C20_noteOff_stays_silent toneEngine 1 keyedState0).2.2 (by decide) (Or.inl (by decide)))
      600).1,
    ⟨by decide, by decide⟩⟩

/-- C20 (counterexample): from the rest state, `NoteOn(60)` and then `NoteOff`
on channel 0 before the same tick: the tick writes 0 to register 10 and arms the
injector (counter `137*16-1`); the first sample step after the tick writes 126
to register 10, and after 548 sample steps the register holds `255 - freq =
180`, with no further command, mute change or tick. -/
theorem C20_counterexample :
    (noteOffThenTick toneEngine 0 keyedState0).regPool 10 = 0 ∧
    ((noteOffThenTick toneEngine 0 keyedState0).chan 0).active = false ∧
    ((noteOffThenTick toneEngine 0 keyedState0).chan 0).waveWriteCycle = 137 * 16 - 1 ∧
    (acquire 1 (noteOffThenTick toneEngine 0 keyedState0)).regPool 10 = 126 ∧
    (acquire 1 (noteOffThenTick toneEngine 0 keyedState0)).regPool 10 ≠ 0 := by
  decide

/-! ## The bytes of one injection -/

theorem loadByte_table : ∀ i < 3, ∀ wn < 16, ∀ qn < 7, 1 ≤ qn →
    (loadFreq.getD i 0 ||| ((wavePatterns.getD wn 0 <<< (8 - qn)) &&& 0x80)) =
      loadFreq.getD i 0 + 128 * patternBit (wavePatterns.getD wn 0) (qn - 1) := by
  decide

/-- The load byte computed by the injector for a counter in the load range
16..111: the load value of the voice with bit `counter / 16 - 1` of the pattern
in its most-significant bit. -/
theorem loadValue_eq_loadByte (i : Nat) (hi : i < 3) (w c : Int) (hw0 : 0 ≤ w) (hw1 : w < 16)
    (hc0 : 16 ≤ c) (hc1 : c < 112) :
    loadValue i w c = loadByte i (wavePatterns.getD w.toNat 0) ((c / 16).toNat - 1) := by
  have hq : ∃ qn : Nat, c / 16 = (qn : Int) ∧ 1 ≤ qn ∧ qn < 7 :=
    ⟨(c / 16).toNat, by omega, by omega, by omega⟩
  obtain ⟨qn, hq1, hq2, hq3⟩ := hq
  have hbit : ((8 - Int.tdiv c 16) % 4294967296).toNat = 8 - qn := by
    rw [Int.tdiv_eq_ediv (by omega) (by norm_num), hq1]
    omega
  unfold loadValue loadByte
  simp only [hbit]
  rw [loadByte_table i hi w.toNat (by omega) qn hq3 hq2, hq1]
  simp

theorem loadByte_range (i p k : Nat) (hi : i < 3) :
    0 ≤ loadByte i p k ∧ loadByte i p k < 256 ∧
    loadByte i p k / 128 = (patternBit p k : Int) ∧
    loadByte i p k % 128 = (loadFreq.getD i 0 : Int) := by
  have hb : patternBit p k < 2 := by
    unfold patternBit
    omega
  have hl : loadFreq.getD i 0 < 128 := by
    have : ∀ j < 3, loadFreq.getD j 0 < 128 := by decide
    exact this i hi
  unfold loadByte
  refine ⟨by omega, by omega, ?_, ?_⟩ <;> omega

/-- The byte written by sample step number `k + 1` of an injection, as a
function of `k`. -/
theorem injectValue_at (i : Nat) (hi : i < 3) (w f : Int) (hw0 : 0 ≤ w) (hw1 : w < 16)
    (k : Nat) (hk : k < 548) :
    injectValue i w f (137 * 16 - 1 - 4 * (k : Int)) % 256 =
      (if k < 520 then (126 : Int)
       else if k < 544 then loadByte i (wavePatterns.getD w.toNat 0) (5 - (k - 520) / 4)
       else (255 - f) % 256) := by
  by_cases h1 : k < 520
  · rw [if_pos h1, injectValue_drain _ _ _ _ (by omega)]
    rfl
  · rw [if_neg h1]
    by_cases h2 : k < 544
    · rw [if_pos h2]
      have e1 : injectValue i w f (137 * 16 - 1 - 4 * (k : Int)) =
          loadValue i w (137 * 16 - 1 - 4 * (k : Int)) := by
        unfold injectValue
        rw [if_neg (by omega), if_pos (by omega)]
      rw [e1, loadValue_eq_loadByte i hi w _ hw0 hw1 (by omega) (by omega)]
      have e2 : ((137 * 16 - 1 - 4 * (k : Int)) / 16).toNat - 1 = 5 - (k - 520) / 4 := by
        omega
      rw [e2]
      have hr := loadByte_range i (wavePatterns.getD w.toNat 0) (5 - (k - 520) / 4) hi
      exact Int.emod_eq_of_lt hr.1 hr.2.1
    · rw [if_neg h2, injectValue_hold _ _ _ _ (by omega)]

/-- C15 (as amended): for every tone voice and every table pattern
`p = wavePatterns[waveform]`, the load phase of one injection (counter from 111
down to 16) is entered by exactly the sample steps 521 to 544 after the arm,
that is six successive 16-cycle steps of four sample steps each; the byte
written in step `k` (`k = 0..5`) is the load value of the voice in its low
seven bits with bit `5 - k` of `p` in its most-significant bit, so bits 5 to 0
of the pattern are presented most-significant first; bits 7 and 6 of `p` are
zero in every table entry and are not presented. -/
theorem C15_load_phase (s : State) (i : Fin 4) (hi : i.val < 3)
    (harm : (s.chan i).waveWriteCycle = 137 * 16 - 1) (hw : s.hasWaveWrite = true)
    (hw0 : 0 ≤ (s.chan i).wave) (hw1 : (s.chan i).wave < 16) :
    (∀ n : Nat, n ≤ 548 →
      ((16 ≤ ((acquire n s).chan i).waveWriteCycle ∧
        ((acquire n s).chan i).waveWriteCycle < 16 * 7) ↔ (520 ≤ n ∧ n < 544))) ∧
    (∀ k j : Nat, k < 6 → j < 4 →
      ((acquire (520 + 4 * k + j) s).chan i).waveWriteCycle = 111 - 16 * (k : Int) - 4 * (j : Int) ∧
      (acquire (520 + 4 * k + j + 1) s).regPool (10 + i.val) =
        loadByte i.val (wavePatterns.getD (s.chan i).wave.toNat 0) (5 - k) ∧
      loadByte i.val (wavePatterns.getD (s.chan i).wave.toNat 0) (5 - k) / 128 =
        (patternBit (wavePatterns.getD (s.chan i).wave.toNat 0) (5 - k) : Int) ∧
      loadByte i.val (wavePatterns.getD (s.chan i).wave.toNat 0) (5 - k) % 128 =
        (loadFreq.getD i.val 0 : Int)) ∧
    patternBit (wavePatterns.getD (s.chan i).wave.toNat 0) 7 = 0 ∧
    patternBit (wavePatterns.getD (s.chan i).wave.toNat 0) 6 = 0 := by
  have hwn : (s.chan i).wave.toNat < 16 := by omega
  have hcyc : ∀ n : Nat, n ≤ 548 →
      ((acquire n s).chan i).waveWriteCycle = 137 * 16 - 1 - 4 * (n : Int) := by
    intro n hn
    rw [(acquire_armed_run i hi s hw n (by rw [harm]; omega)).2.1]
    simp only
    rw [harm]
  have hbits : ∀ wn < 16, patternBit (wavePatterns.getD wn 0) 7 = 0 ∧
      patternBit (wavePatterns.getD wn 0) 6 = 0 := by decide
  refine ⟨?_, ?_, (hbits _ hwn).1, (hbits _ hwn).2⟩
  · intro n hn
    rw [hcyc n hn]
    omega
  · intro k j hk hj
    have hr := loadByte_range i.val (wavePatterns.getD (s.chan i).wave.toNat 0) (5 - k) hi
    refine ⟨?_, ?_, hr.2.2.1, hr.2.2.2⟩
    · rw [hcyc _ (by omega)]
      push_cast
      omega
    · rw [(acquire_armed_run i hi s hw (520 + 4 * k + j + 1) (by rw [harm]; omega)).2.2.2
        (by omega), harm]
      have hidx : 520 + 4 * k + j + 1 - 1 = 520 + 4 * k + j := by omega
      rw [hidx, injectValue_at i.val hi _ _ hw0 hw1 (520 + 4 * k + j) (by omega),
        if_neg (by omega), if_pos (by omega)]
      have hstep : 5 - (520 + 4 * k + j - 520) / 4 = 5 - k := by omega
      rw [hstep]

theorem C15_load_phase_witness :
    ((0 : Fin 4).val < 3 ∧ (armedWave13State.chan 0).waveWriteCycle = 137 * 16 - 1 ∧
      armedWave13State.hasWaveWrite = true ∧ 0 ≤ (armedWave13State.chan 0).wave ∧
      (armedWave13State.chan 0).wave < 16) ∧
    (((acquire (520 + 4 * 0 + 0) armedWave13State).chan 0).waveWriteCycle =
        111 - 16 * ((0 : Nat) : Int) - 4 * ((0 : Nat) : Int) ∧
      (acquire (520 + 4 * 0 + 0 + 1) armedWave13State).regPool (10 + (0 : Fin 4).val) =
        loadByte (0 : Fin 4).val (wavePatterns.getD (armedWave13State.chan 0).wave.toNat 0)
          (5 - 0)) ∧
    patternBit (wavePatterns.getD (armedWave13State.chan 0).wave.toNat 0) 7 = 0 :=
  ⟨⟨by decide, by decide, rfl, by decide, by decide⟩,
    ⟨((C15_load_phase armedWave13State 0 (by decide) (by decide) rfl (by decide)
        (by decide)).2.1 0 0 (by decide) (by decide)).1,
      ((C15_load_phase armedWave13State 0 (by decide) (by decide) rfl (by decide)
        (by decide)).2.1 0 0 (by decide) (by decide)).2.1⟩,
    (C15_load_phase armedWave13State 0 (by decide) (by decide) rfl (by decide)
      (by decide)).2.2.1⟩

/-- C15 (counterexample): voice 0 armed with waveform 13, whose pattern is
`0b100100 = 36`: the first load step is sample step 521 (the counter is 111
before it) and writes 254, a byte whose most-significant bit is 1, while bit 7
of the pattern is 0 (the presented bit is bit 5); and after 544 sample steps
the counter is 15, below the load range, so the load phase has lasted 24 sample
steps, six 16-cycle steps and not eight. -/
theorem C15_counterexample :
    (armedWave13State.chan 0).waveWriteCycle = 137 * 16 - 1 ∧
    armedWave13State.hasWaveWrite = true ∧
    wavePatterns.getD (armedWave13State.chan 0).wave.toNat 0 = 36 ∧
    ((acquire 519 armedWave13State).chan 0).waveWriteCycle = 115 ∧
    ((acquire 520 armedWave13State).chan 0).waveWriteCycle = 111 ∧
    (acquire 521 armedWave13State).regPool 10 = 254 ∧
    (254 : Int) / 128 % 2 = 1 ∧
    patternBit 36 7 = 0 ∧ patternBit 36 5 = 1 ∧
    ((acquire 544 armedWave13State).chan 0).waveWriteCycle = 15 := by
  have harm : (armedWave13State.chan 0).waveWriteCycle = 137 * 16 - 1 := by decide
  have hcyc : ∀ n : Nat, n ≤ 548 →
      ((acquire n armedWave13State).chan 0).waveWriteCycle = 137 * 16 - 1 - 4 * (n : Int) := by
    intro n hn
    rw [(acquire_armed_run 0 (by decide) armedWave13State rfl n (by rw [harm]; omega)).2.1]
    simp only
    rw [harm]
  have hreg : (acquire 521 armedWave13State).regPool 10 = 254 := by
    have h := (acquire_armed_run 0 (by decide) armedWave13State rfl 521
      (by rw [harm]; norm_num)).2.2.2 (by norm_num)
    simp only [Fin.val_zero, Nat.add_zero] at h
    rw [h, harm]
    have hv := injectValue_at 0 (by decide) (armedWave13State.chan 0).wave
      (armedWave13State.chan 0).freq (by decide) (by decide) 520 (by norm_num)
    simp only [Nat.reduceSub, Nat.cast_ofNat] at hv ⊢
    rw [hv]
    decide
  refine ⟨harm, rfl, by decide, ?_, ?_, hreg, by decide, by decide, by decide, ?_⟩
  · rw [hcyc 519 (by norm_num)]; norm_num
  · rw [hcyc 520 (by norm_num)]; norm_num
  · rw [hcyc 544 (by norm_num)]; norm_num

end VIC20
